import Mathlib

/-!
# HiveWE terrain: a shallow embedding of `src/src/base/terrain.cpp`

Conventions of the embedding.

* C++ `int` values are `Int`; a conversion to an unsigned type of width `w` is an explicit
  `% 2 ^ w`.  Bytes of a buffer are `Nat`, reduced `% 256` where they are read or written.
* `float` values are the rationals they denote.  Every float the terrain file format produces is
  `k / 512` with `|k| < 2 ^ 16`, on which all the float operations of `load` and `save` are exact.
* `std::string` is the list of its character codes (`CString`).
* `std::vector<std::vector<Corner>> corners` and the flat mirror vectors are total maps from
  indices; the sizes are carried by `width` and `height`.  An out-of-range access is undefined
  behaviour in C++ and is not modelled.
* A nested `for` loop over a rectangle is a fold over the list of its index pairs in loop order.
-/

namespace HiveWE

/-! ## Machine integers -/

/-- Conversion of an `int` to `uint8_t` or `char`: the low 8 bits. -/
def to_u8 (x : Int) : Nat := (x % 256).toNat

/-- Conversion of an `int` to `uint16_t`: the low 16 bits. -/
def to_u16 (x : Int) : Nat := (x % 65536).toNat

/-- Conversion of an `int` or `size_t` to `uint32_t`: the low 32 bits. -/
def to_u32 (x : Int) : Nat := (x % 4294967296).toNat

/-- Conversion of a `uint32_t` to `int` (two's complement). -/
def u32_to_int (n : Nat) : Int :=
  if n % 4294967296 < 2147483648 then ((n % 4294967296 : Nat) : Int)
  else ((n % 4294967296 : Nat) : Int) - 4294967296

/-- A `bool` promoted to `int`. -/
def b2i (b : Bool) : Int := if b then 1 else 0

/-- The type `std::string`, as the list of its character codes. -/
abbrev CString := List Nat

/-- The character codes of a string literal. -/
def cstr (s : String) : CString := s.toList.map Char.toNat

/-- The function `std::to_string(int)`. -/
def to_string (n : Int) : CString :=
  if n < 0 then 45 :: (Nat.toDigits 10 n.natAbs).map Char.toNat
  else (Nat.toDigits 10 n.natAbs).map Char.toNat

/-! ## `std::unordered_map<std::string, int>` -/

/-- A string-keyed map of ints, as an association list with unique keys. -/
abbrev StrMap := List (CString × Int)

/-- The member `contains`. -/
def StrMap.contains (m : StrMap) (k : CString) : Bool := (m.lookup k).isSome

/-- The member `emplace`: inserts only when the key is absent. -/
def StrMap.emplace (m : StrMap) (k : CString) (v : Int) : StrMap :=
  if StrMap.contains m k then m else m ++ [(k, v)]

/-- The member `operator[]`: the stored value, or a value-initialised `0` that is inserted
for an absent key. -/
def StrMap.index (m : StrMap) (k : CString) : Int × StrMap :=
  match m.lookup k with
  | some v => (v, m)
  | none => (0, m ++ [(k, 0)])

/-! ## `QRect` (Qt) -/

/-- Qt's `QRect`, stored like Qt does as the inclusive corners `x1, y1, x2, y2`. -/
structure QRect where
  x1 : Int
  y1 : Int
  x2 : Int
  y2 : Int
deriving DecidableEq, Repr

namespace QRect

/-- The constructor `QRect(x, y, width, height)`. -/
def make (x y w h : Int) : QRect := ⟨x, y, x + w - 1, y + h - 1⟩

/-- The default constructor `QRect()`. -/
def null : QRect := ⟨0, 0, -1, -1⟩

def x (r : QRect) : Int := r.x1
def y (r : QRect) : Int := r.y1
def left (r : QRect) : Int := r.x1
def top (r : QRect) : Int := r.y1
def right (r : QRect) : Int := r.x2
def bottom (r : QRect) : Int := r.y2
def width (r : QRect) : Int := r.x2 - r.x1 + 1
def height (r : QRect) : Int := r.y2 - r.y1 + 1

def isNull (r : QRect) : Bool := r.x2 == r.x1 - 1 && r.y2 == r.y1 - 1

/-- The member `adjusted(dx1, dy1, dx2, dy2)`. -/
def adjusted (r : QRect) (dx1 dy1 dx2 dy2 : Int) : QRect :=
  ⟨r.x1 + dx1, r.y1 + dy1, r.x2 + dx2, r.y2 + dy2⟩

/-- The member `contains(x, y)` (not proper), with Qt's normalisation of an inverted rect. -/
def contains (r : QRect) (px py : Int) : Bool :=
  let l := if r.x2 < r.x1 - 1 then r.x2 else r.x1
  let rr := if r.x2 < r.x1 - 1 then r.x1 else r.x2
  let t := if r.y2 < r.y1 - 1 then r.y2 else r.y1
  let b := if r.y2 < r.y1 - 1 then r.y1 else r.y2
  !(px < l || px > rr) && !(py < t || py > b)

/-- The member `intersected` (Qt's `operator&`). -/
def intersected (a b : QRect) : QRect :=
  if a.isNull || b.isNull then null
  else
    let l1 := if a.x2 - a.x1 + 1 < 0 then a.x2 else a.x1
    let r1 := if a.x2 - a.x1 + 1 < 0 then a.x1 else a.x2
    let l2 := if b.x2 - b.x1 + 1 < 0 then b.x2 else b.x1
    let r2 := if b.x2 - b.x1 + 1 < 0 then b.x1 else b.x2
    if l1 > r2 || l2 > r1 then null
    else
      let t1 := if a.y2 - a.y1 + 1 < 0 then a.y2 else a.y1
      let b1 := if a.y2 - a.y1 + 1 < 0 then a.y1 else a.y2
      let t2 := if b.y2 - b.y1 + 1 < 0 then b.y2 else b.y1
      let b2 := if b.y2 - b.y1 + 1 < 0 then b.y1 else b.y2
      if t1 > b2 || t2 > b1 then null
      else ⟨max l1 l2, max t1 t2, min r1 r2, min b1 b2⟩

end QRect

/-! ## Loops -/

/-- The values `lo, lo + 1, ..., hi - 1` of `for (int i = lo; i < hi; i++)`. -/
def irange (lo hi : Int) : List Int :=
  (List.range (hi - lo).toNat).map (fun (k : Nat) => lo + (k : Int))

/-- The index pairs `(i, j)` of `for j in [y0, y1) { for i in [x0, x1) { .. } }`, in loop order. -/
def rect_yx (x0 x1 y0 y1 : Int) : List (Int × Int) :=
  (irange y0 y1).flatMap (fun j => (irange x0 x1).map (fun i => (i, j)))

/-- The index pairs `(i, j)` of `for i in [x0, x1) { for j in [y0, y1) { .. } }`, in loop order. -/
def rect_xy (x0 x1 y0 y1 : Int) : List (Int × Int) :=
  (irange x0 x1).flatMap (fun i => (irange y0 y1).map (fun j => (i, j)))

/-! ## Data model -/

/-- Modelled from the spec: the `Corner` record of `Terrain.h`, which is not among the sources.
The integer fields are C++ `int`s (the `std::clamp` call of `update_cliff_meshes` fixes
`cliff_variation` to `int`); the range the file format gives them is a hypothesis where a
property needs it.  The field `romp` is the spec's `ramp_active`. -/
structure Corner where
  map_edge : Bool
  ground_texture : Int
  height : ℚ
  water_height : ℚ
  ramp : Bool
  blight : Bool
  water : Bool
  boundary : Bool
  cliff : Bool
  special_doodad : Bool
  romp : Bool
  ground_variation : Int
  cliff_variation : Int
  cliff_texture : Int
  layer_height : Int
deriving DecidableEq

/-- A value-initialised `Corner`. -/
def Corner.zero : Corner :=
  ⟨false, 0, 0, 0, false, false, false, false, false, false, false, 0, 0, 0, 0⟩

instance : Inhabited Corner := ⟨Corner.zero⟩

/-- The member `Corner::final_ground_height`. -/
def Corner.final_ground_height (c : Corner) : ℚ := c.height + (c.layer_height : ℚ) - 2

/-- The type `glm::u16vec4`. -/
structure U16Vec4 where
  x : Nat
  y : Nat
  z : Nat
  w : Nat
deriving DecidableEq, Repr

/-- The external collaborators the terrain code consults: the asset store and the SLK tables. -/
structure Assets where
  /-- The query `hierarchy.file_exists`. -/
  file_exists : CString → Bool
  /-- The rows of `Data/Warcraft/Cliffs.slk`: row name and its `variations` column. -/
  cliffs_variation_slk : List (CString × Int)
  /-- The `extended` flag of the ground texture loaded for a tile id. -/
  tile_extended : CString → Bool
  /-- The `extended` flag of the blight texture. -/
  blight_extended : Bool
  /-- The column `groundtile` of `TerrainArt/CliffTypes.slk`. -/
  cliff_groundtile : CString → CString

/-- Modelled from the spec: the data members of class `Terrain` (`Terrain.h` is not among the
sources) that `terrain.cpp` reads and writes.  The vector `cliff_meshes` is its list of loaded
file names, `ground_textures` the list of the textures' `extended` flags, `offset` the 8 raw
bytes of the `glm::vec2`. -/
structure Terrain where
  tileset : Nat
  tileset_ids : List CString
  cliffset_ids : List CString
  width : Int
  height : Int
  offset : List Nat
  corners : Int → Int → Corner
  old_corners : Int → Int → Corner
  cliffs : List (Int × Int × Int)
  cliff_meshes : List CString
  path_to_cliff : StrMap
  cliff_variations : StrMap
  ground_textures : List Bool
  ground_texture_to_id : StrMap
  blight_texture : Int
  cliff_to_ground_texture : List Int
  ground_heights : Int → ℚ
  ground_corner_heights : Int → ℚ
  ground_texture_list : Int → U16Vec4
  ground_exists_data : Int → Bool
  water_heights : Int → ℚ
  water_exists_data : Int → Bool

/-- A default-constructed `Terrain`: empty vectors and maps. -/
def Terrain.fresh : Terrain where
  tileset := 0
  tileset_ids := []
  cliffset_ids := []
  width := 0
  height := 0
  offset := [0, 0, 0, 0, 0, 0, 0, 0]
  corners := fun _ _ => Corner.zero
  old_corners := fun _ _ => Corner.zero
  cliffs := []
  cliff_meshes := []
  path_to_cliff := []
  cliff_variations := []
  ground_textures := []
  ground_texture_to_id := []
  blight_texture := 0
  cliff_to_ground_texture := []
  ground_heights := fun _ => 0
  ground_corner_heights := fun _ => 0
  ground_texture_list := fun _ => ⟨0, 0, 0, 0⟩
  ground_exists_data := fun _ => false
  water_heights := fun _ => 0
  water_exists_data := fun _ => false

/-- The assignment `corners[i][j] = c`. -/
def set_corner (g : Int → Int → Corner) (i j : Int) (c : Corner) : Int → Int → Corner :=
  fun x y => if x = i ∧ y = j then c else g x y

/-- The assignment `v[k] = a` on a flat mirror vector. -/
def set_at {α : Type} (v : Int → α) (k : Int) (a : α) : Int → α :=
  fun n => if n = k then a else v n

/-! ## `BinaryReader` and `BinaryWriter` -/

/-- Modelled from the spec: `BinaryReader::read_string(n)` (the module `BinaryReader` is not among
the sources) takes the next `n` bytes of the buffer; a read past the end of the buffer throws,
which is the result `none`. -/
def read_string (n : Nat) (r : List Nat) : Option (CString × List Nat) :=
  if n ≤ r.length then some ((r.take n).map (fun b => b % 256), r.drop n) else none

/-- Modelled from the spec: `BinaryReader::advance(n)` skips `n` bytes. -/
def advance (n : Nat) (r : List Nat) : Option (List Nat) :=
  if n ≤ r.length then some (r.drop n) else none

/-- Modelled from the spec: `BinaryReader::read<uint8_t>` (also `read<char>`). -/
def read_u8 (r : List Nat) : Option (Nat × List Nat) :=
  match r with
  | b :: rest => some (b % 256, rest)
  | [] => none

/-- Modelled from the spec: `BinaryReader::read<uint16_t>`, little-endian. -/
def read_u16 (r : List Nat) : Option (Nat × List Nat) :=
  match r with
  | b0 :: b1 :: rest => some (b0 % 256 + 256 * (b1 % 256), rest)
  | _ => none

/-- Modelled from the spec: `BinaryReader::read<uint32_t>`, little-endian. -/
def read_u32 (r : List Nat) : Option (Nat × List Nat) :=
  match r with
  | b0 :: b1 :: b2 :: b3 :: rest =>
    some (b0 % 256 + 256 * (b1 % 256) + 65536 * (b2 % 256) + 16777216 * (b3 % 256), rest)
  | _ => none

/-- Modelled from the spec: `BinaryWriter::write<uint32_t>`, little-endian. -/
def write_u32 (x : Nat) : List Nat := [x % 256, x / 256 % 256, x / 65536 % 256, x / 16777216 % 256]

/-- Modelled from the spec: `BinaryWriter::write` of an `int`. -/
def write_int (x : Int) : List Nat := write_u32 (to_u32 x)

/-- Modelled from the spec: `BinaryWriter::write_vector` of strings writes the characters of
each string in turn (the file format's 4-byte texture codes). -/
def write_vector (ids : List CString) : List Nat := ids.flatMap (fun s => s.map (fun b => b % 256))

/-- Modelled from the spec: the constant `Terrain::write_version` of `Terrain.h`
(the format's version field is "written as 8"). -/
def write_version : Int := 8

/-! ## `Terrain::save` -/

/-- The header `save` writes before the corner records. -/
def save_header (t : Terrain) : List Nat :=
  cstr "W3E!" ++ write_int write_version ++ [t.tileset % 256] ++ write_int 1
    ++ write_u32 (to_u32 t.tileset_ids.length) ++ write_vector t.tileset_ids
    ++ write_u32 (to_u32 t.cliffset_ids.length) ++ write_vector t.cliffset_ids
    ++ write_int t.width ++ write_int t.height ++ t.offset.map (fun b => b % 256)

/-- The field assignments of the corner loop of `load`, from the five raw values read. -/
def decode_corner (corner : Corner) (height_raw water_and_edge texture_and_flags variation
    misc : Nat) : Corner :=
  { corner with
    height := ((height_raw : ℚ) - 8192) / 512
    water_height := (((water_and_edge &&& 0x3FFF : Nat) : ℚ) - 8192) / 512
    map_edge := water_and_edge &&& 0x4000 != 0
    ground_texture := ((texture_and_flags &&& 0b00001111 : Nat) : Int)
    ramp := texture_and_flags &&& 0b00010000 != 0
    blight := texture_and_flags &&& 0b00100000 != 0
    water := texture_and_flags &&& 0b01000000 != 0
    boundary := texture_and_flags &&& 0b10000000 != 0
    ground_variation := ((variation &&& 0b00011111 : Nat) : Int)
    cliff_variation := (((variation &&& 0b11100000) >>> 5 : Nat) : Int)
    cliff_texture := (((misc &&& 0b11110000) >>> 4 : Nat) : Int)
    layer_height := ((misc &&& 0b00001111 : Nat) : Int) }

/-- The reads of one 7-byte corner record into the corner `corner` at hand. -/
def read_corner (corner : Corner) (r : List Nat) : Option (Corner × List Nat) := do
  let (height_raw, r) ← read_u16 r
  let (water_and_edge, r) ← read_u16 r
  let (texture_and_flags, r) ← read_u8 r
  let (variation, r) ← read_u8 r
  let (misc, r) ← read_u8 r
  some (decode_corner corner height_raw water_and_edge texture_and_flags variation misc, r)

/-- The loop `for i < n: ids.push_back(reader.read_string(4))`: the strings read, in order. -/
def load_ids : Nat → List Nat → Option (List CString × List Nat)
  | 0, r => some ([], r)
  | n + 1, r => do
    let (s, r) ← read_string 4 r
    let (ss, r) ← load_ids n r
    some (s :: ss, r)

/-- The corner loop of `load` over the index pairs `ps` in loop order. -/
def load_corners (g : Int → Int → Corner) (r : List Nat) :
    List (Int × Int) → Option ((Int → Int → Corner) × List Nat)
  | [] => some (g, r)
  | p :: ps => do
    let (c, r) ← read_corner (g p.1 p.2) r
    load_corners (set_corner g p.1 p.2 c) r ps

/-- The header fields `load` reads after the magic number. -/
structure Header where
  tileset : Nat
  tileset_ids : List CString
  cliffset_ids : List CString
  width : Int
  height : Int
  offset : List Nat
deriving DecidableEq

/-- The reads of `load` between the magic number and the corner records. -/
def load_header (r : List Nat) : Option (Header × List Nat) := do
  let r ← advance 4 r
  let (tileset, r) ← read_u8 r
  let r ← advance 4 r
  let (tileset_textures, r) ← read_u32 r
  let (tids, r) ← load_ids tileset_textures r
  let (cliffset_textures, r) ← read_u32 r
  let (cids, r) ← load_ids (u32_to_int cliffset_textures).toNat r
  let (width, r) ← read_u32 r
  let (height, r) ← read_u32 r
  let (offset, r) ← read_string 8 r
  some (⟨tileset, tids, cids, u32_to_int width, u32_to_int height, offset⟩, r)

/-- The state of `load` when it reaches the call of `create`: header and corners are stored.
The result `none` is an exception (a read past the end of the buffer, or a `resize` to a
negative size).  `corners.resize` keeps the columns the vector already has. -/
def load_parse (t : Terrain) (r : List Nat) : Option Terrain := do
  let (hd, r) ← load_header r
  if hd.width < 0 ∨ hd.height < 0 then none
  else
    let g0 : Int → Int → Corner := fun x y => if x < t.width then t.corners x y else Corner.zero
    let (g, _) ← load_corners g0 r (rect_yx 0 hd.width 0 hd.height)
    some { t with
      tileset := hd.tileset
      tileset_ids := t.tileset_ids ++ hd.tileset_ids
      cliffset_ids := t.cliffset_ids ++ hd.cliffset_ids
      width := hd.width
      height := hd.height
      offset := hd.offset
      corners := g }

/-! ## Texture compositor -/

/-- The outcome of one iteration of a search loop: go on, leave the loops by `goto`, or return. -/
inductive Scan where
  | next : Scan
  | out : Scan
  | ret (v : Int) : Scan

/-- The body of the search loop of `real_tile_texture` at offset `(i, j)`. -/
def real_tile_texture_step (t : Terrain) (x y i j : Int) : Scan :=
  if x + i ≥ 0 ∧ x + i < t.width ∧ y + j ≥ 0 ∧ y + j < t.height then
    let bottom_left := t.corners (x + i) (y + j)
    let bottom_right := t.corners (x + i + 1) (y + j)
    let top_left := t.corners (x + i) (y + j + 1)
    let top_right := t.corners (x + i + 1) (y + j + 1)
    if bottom_left.cliff ∧ (x + i < t.width - 1 ∧ y + j < t.height - 1)
        ∧ (bottom_left.ramp && top_left.ramp && bottom_right.ramp && top_right.ramp
          && !bottom_left.romp && !bottom_right.romp && !top_left.romp && !top_right.romp) then
      Scan.out
    else if bottom_left.romp || bottom_left.cliff then
      let texture := bottom_left.cliff_texture
      let texture := if texture = 15 then texture - 14 else texture
      Scan.ret (t.cliff_to_ground_texture.getD texture.toNat 0)
    else Scan.next
  else Scan.next

/-- The search loop of `real_tile_texture` over the offsets `ps`: the value returned from inside
the loop, if any. -/
def real_tile_texture_scan (t : Terrain) (x y : Int) : List (Int × Int) → Option Int
  | [] => none
  | p :: ps =>
    match real_tile_texture_step t x y p.1 p.2 with
    | Scan.next => real_tile_texture_scan t x y ps
    | Scan.out => none
    | Scan.ret v => some v

/-- The function `Terrain::real_tile_texture`. -/
def real_tile_texture (t : Terrain) (x y : Int) : Int :=
  match real_tile_texture_scan t x y (rect_xy (-1) 1 (-1) 1) with
  | some v => v
  | none => if (t.corners x y).blight then t.blight_texture else (t.corners x y).ground_texture

/-- The function `Terrain::get_tile_variation`. -/
def get_tile_variation (t : Terrain) (ground_texture variation : Int) : Int :=
  if t.ground_textures.getD ground_texture.toNat false then
    if variation ≤ 15 then 16 + variation
    else if variation = 16 then 15
    else 0
  else
    if variation = 0 then 0 else 15

/-- Insertion into a `std::set<int>`, kept as its ascending list of distinct elements. -/
def set_insert (a : Int) : List Int → List Int
  | [] => [a]
  | b :: s => if a < b then a :: b :: s else if a = b then b :: s else b :: set_insert a s

/-- The constructor of `std::set<int>` from an initializer list. -/
def std_set (l : List Int) : List Int := l.foldl (fun s a => set_insert a s) []

/-- The assignment `tiles[component] = v` on a `glm::u16vec4`. -/
def U16Vec4.set (tiles : U16Vec4) (component : Nat) (v : Int) : U16Vec4 :=
  match component with
  | 0 => { tiles with x := to_u16 v }
  | 1 => { tiles with y := to_u16 v }
  | 2 => { tiles with z := to_u16 v }
  | _ => { tiles with w := to_u16 v }

/-- The function `Terrain::get_texture_variations`. -/
def get_texture_variations (t : Terrain) (x y : Int) : U16Vec4 :=
  let bottom_left := real_tile_texture t x y
  let bottom_right := real_tile_texture t (x + 1) y
  let top_left := real_tile_texture t x (y + 1)
  let top_right := real_tile_texture t (x + 1) (y + 1)
  let set := std_set [bottom_left, bottom_right, top_left, top_right]
  let tiles : U16Vec4 := ⟨17, 17, 17, 17⟩
  match set with
  | [] => tiles
  | first :: rest =>
    let tiles := U16Vec4.set tiles 0
      (first + get_tile_variation t first (t.corners x y).ground_variation * 2 ^ 5)
    (rest.foldl (fun (acc : U16Vec4 × Nat) texture =>
      let index : Int := b2i (bottom_right == texture) + 2 * b2i (bottom_left == texture)
        + 4 * b2i (top_right == texture) + 8 * b2i (top_left == texture)
      (U16Vec4.set acc.1 acc.2 (texture + index * 2 ^ 5), acc.2 + 1)) (tiles, 1)).1

/-- The function `Terrain::is_corner_ramp_entrance`. -/
def is_corner_ramp_entrance (t : Terrain) (x y : Int) : Bool :=
  if x = t.width ∨ y = t.height then false
  else
    let bottom_left := t.corners x y
    let bottom_right := t.corners (x + 1) y
    let top_left := t.corners x (y + 1)
    let top_right := t.corners (x + 1) (y + 1)
    bottom_left.ramp && top_left.ramp && bottom_right.ramp && top_right.ramp
      && !(bottom_left.layer_height == top_right.layer_height
        && top_left.layer_height == bottom_right.layer_height)

/-! ## Undo snapshots -/

/-- The enumeration `Terrain::undo_type`. -/
inductive undo_type where
  | height : undo_type
  | texture : undo_type
  | cliff : undo_type
deriving DecidableEq, Repr

/-- The class `TerrainGenericAction`. -/
structure TerrainGenericAction where
  area : QRect
  undo_type : undo_type
  old_corners : List Corner
  new_corners : List Corner

/-- The function `Terrain::new_undo_group`. -/
def new_undo_group (t : Terrain) : Terrain := { t with old_corners := t.corners }

/-- The function `Terrain::add_undo`: the action handed to `terrain_undo.add_undo_action`. -/
def add_undo (t : Terrain) (area : QRect) (type : undo_type) : TerrainGenericAction where
  area := area
  undo_type := type
  old_corners := (rect_yx area.left (area.right + 1) area.top (area.bottom + 1)).map
    (fun p => t.old_corners p.1 p.2)
  new_corners := (rect_yx area.left (area.right + 1) area.top (area.bottom + 1)).map
    (fun p => t.corners p.1 p.2)

/-! ## GPU mirrors -/

/-- The ramp-lip search of `update_ground_heights` at corner `(i, j)` over the offsets `ps`:
the value of `ramp_height` at the label `exit_loop`. -/
def ramp_height (t : Terrain) (i j : Int) : List (Int × Int) → ℚ
  | [] => 0
  | p :: ps =>
    let x_offset := p.1
    let y_offset := p.2
    if i + x_offset ≥ 0 ∧ i + x_offset < t.width - 1 ∧ j + y_offset ≥ 0
        ∧ j + y_offset < t.height - 1 then
      let bottom_left := t.corners (i + x_offset) (j + y_offset)
      let bottom_right := t.corners (i + 1 + x_offset) (j + y_offset)
      let top_left := t.corners (i + x_offset) (j + 1 + y_offset)
      let top_right := t.corners (i + 1 + x_offset) (j + 1 + y_offset)
      let base := min (min bottom_left.layer_height bottom_right.layer_height)
        (min top_left.layer_height top_right.layer_height)
      if (t.corners i j).layer_height ≠ base then ramp_height t i j ps
      else if is_corner_ramp_entrance t (i + x_offset) (j + y_offset) then 1 / 2
      else ramp_height t i j ps
    else ramp_height t i j ps

/-- The function `Terrain::update_ground_heights` (the uploads to the GPU are not modelled). -/
def update_ground_heights (t : Terrain) (area : QRect) : Terrain :=
  (rect_yx area.x (area.x + area.width) area.y (area.y + area.height)).foldl (fun t p =>
    let i := p.1
    let j := p.2
    let corner_height :=
      (t.corners i j).final_ground_height + ramp_height t i j (rect_xy (-1) 1 (-1) 1)
    { t with
      ground_heights := set_at t.ground_heights (j * t.width + i) (t.corners i j).height
      ground_corner_heights := set_at t.ground_corner_heights (j * t.width + i) corner_height }) t

/-- The function `Terrain::update_ground_textures`. -/
def update_ground_textures (t : Terrain) (area : QRect) : Terrain :=
  let update_area := (area.adjusted (-1) (-1) 1 1).intersected
    (QRect.make 0 0 (t.width - 1) (t.height - 1))
  (rect_yx update_area.left (update_area.right + 1) update_area.top (update_area.bottom + 1)).foldl
    (fun t p =>
      let i := p.1
      let j := p.2
      { t with ground_texture_list :=
          set_at t.ground_texture_list (j * (t.width - 1) + i) (get_texture_variations t i j) }) t

/-- The function `Terrain::update_ground_exists`. -/
def update_ground_exists (t : Terrain) (area : QRect) : Terrain :=
  let update_area := (area.adjusted (-1) (-1) 1 1).intersected
    (QRect.make 0 0 (t.width - 1) (t.height - 1))
  (rect_yx update_area.left (update_area.right + 1) update_area.top (update_area.bottom + 1)).foldl
    (fun t p =>
      let i := p.1
      let j := p.2
      let exists_here := !((((t.corners i j).cliff || (t.corners i j).romp)
        && !is_corner_ramp_entrance t i j) || (t.corners i j).special_doodad)
      { t with ground_exists_data :=
          set_at t.ground_exists_data (j * (t.width - 1) + i) exists_here }) t

/-- The function `Terrain::update_water`. -/
def update_water (t : Terrain) (area : QRect) : Terrain :=
  (rect_xy area.x (area.x + area.width) area.y (area.y + area.height)).foldl (fun t p =>
    let i := p.1
    let j := p.2
    { t with
      water_exists_data := set_at t.water_exists_data (j * t.width + i) (t.corners i j).water
      water_heights := set_at t.water_heights (j * t.width + i) (t.corners i j).water_height }) t

/-! ## Cliff and ramp synthesizer -/

/-- One character of a ramp mesh name:
`char((ramp ? 'L' : 'A') + (layer_height - base) * (ramp ? -4 : 1))`. -/
def ramp_char (c : Corner) (base : Int) : Nat :=
  to_u8 ((if c.ramp then 76 else 65) + (c.layer_height - base) * (if c.ramp then -4 else 1))

/-- The placement of a ramp mesh `file_name` at quad `(i, j)` once the asset store has it: the mesh
is registered on first use, the placement appended, and `romp` set on `(i, j)` and `(i2, j2)`. -/
def place_ramp (t : Terrain) (i j i2 j2 : Int) (file_name : CString) : Terrain :=
  let t :=
    if !StrMap.contains t.path_to_cliff file_name then
      { t with
        cliff_meshes := t.cliff_meshes ++ [file_name]
        path_to_cliff :=
          StrMap.emplace t.path_to_cliff file_name (((t.cliff_meshes.length + 1 : Nat) : Int) - 1) }
    else t
  let found := StrMap.index t.path_to_cliff file_name
  let g := set_corner t.corners i j { t.corners i j with romp := true }
  let g := set_corner g i2 j2 { g i2 j2 with romp := true }
  { t with path_to_cliff := found.2, cliffs := t.cliffs ++ [(i, j, found.1)], corners := g }

/-- The block "Vertical ramps" of the quad loop: `some` when it placed a ramp and went on to the
next quad by `continue`, `none` when the quad falls through. -/
def vertical_ramp (env : Assets) (t : Terrain) (i j : Int) : Option Terrain :=
  let bottom_left := t.corners i j
  let bottom_right := t.corners (i + 1) j
  let top_left := t.corners i (j + 1)
  let top_right := t.corners (i + 1) (j + 1)
  if j < t.height - 2 then
    let top_top_left := t.corners i (j + 2)
    let top_top_right := t.corners (i + 1) (j + 2)
    let ae := min bottom_left.layer_height top_top_left.layer_height
    let cf := min bottom_right.layer_height top_top_right.layer_height
    if top_left.layer_height = ae ∧ top_right.layer_height = cf then
      let base := min ae cf
      if bottom_left.ramp = top_left.ramp ∧ bottom_left.ramp = top_top_left.ramp
          ∧ bottom_right.ramp = top_right.ramp ∧ bottom_right.ramp = top_top_right.ramp
          ∧ bottom_left.ramp ≠ bottom_right.ramp then
        let file_name : CString := [ramp_char top_top_left base, ramp_char top_top_right base,
          ramp_char bottom_right base, ramp_char bottom_left base]
        let file_name := cstr "doodads/terrain/clifftrans/clifftrans" ++ file_name ++ cstr "0.mdx"
        if env.file_exists file_name then some (place_ramp t i j i (j + 1) file_name) else none
      else none
    else none
  else none

/-- The block "Horizontal ramps" of the quad loop, like `vertical_ramp`. -/
def horizontal_ramp (env : Assets) (t : Terrain) (i j : Int) : Option Terrain :=
  let bottom_left := t.corners i j
  let bottom_right := t.corners (i + 1) j
  let top_left := t.corners i (j + 1)
  let top_right := t.corners (i + 1) (j + 1)
  if i < t.width - 2 then
    let bottom_right_right := t.corners (i + 2) j
    let top_right_right := t.corners (i + 2) (j + 1)
    let ae := min bottom_left.layer_height bottom_right_right.layer_height
    let bf := min top_left.layer_height top_right_right.layer_height
    if bottom_right.layer_height = ae ∧ top_right.layer_height = bf then
      let base := min ae bf
      if bottom_left.ramp = bottom_right.ramp ∧ bottom_left.ramp = bottom_right_right.ramp
          ∧ top_left.ramp = top_right.ramp ∧ top_left.ramp = top_right_right.ramp
          ∧ bottom_left.ramp ≠ top_left.ramp then
        let file_name : CString := [ramp_char top_left base, ramp_char top_right_right base,
          ramp_char bottom_right_right base, ramp_char bottom_left base]
        let file_name := cstr "doodads/terrain/clifftrans/clifftrans" ++ file_name ++ cstr "0.mdx"
        if env.file_exists file_name then some (place_ramp t i j (i + 1) j file_name) else none
      else none
    else none
  else none

/-- The function `std::clamp(v, lo, hi)`. -/
def clamp (v lo hi : Int) : Int := if v < lo then lo else if hi < v then hi else v

/-- The four letters of the "Cliff model path" of quad `(i, j)`: `char('A' + layer_height - base)`
for the corners top-left, top-right, bottom-right, bottom-left. -/
def cliff_letters (t : Terrain) (i j : Int) : CString :=
  let bottom_left := t.corners i j
  let bottom_right := t.corners (i + 1) j
  let top_left := t.corners i (j + 1)
  let top_right := t.corners (i + 1) (j + 1)
  let base := min (min bottom_left.layer_height bottom_right.layer_height)
    (min top_left.layer_height top_right.layer_height)
  [to_u8 (65 + top_left.layer_height - base), to_u8 (65 + top_right.layer_height - base),
    to_u8 (65 + bottom_right.layer_height - base), to_u8 (65 + bottom_left.layer_height - base)]

/-- The plain-cliff branch of the quad loop: the code after the two ramp blocks. -/
def plain_cliff (t : Terrain) (i j : Int) : Terrain :=
  let bottom_left := t.corners i j
  if !bottom_left.cliff || bottom_left.romp then t
  else if is_corner_ramp_entrance t i j then t
  else
    let file_name := cliff_letters t i j
    if file_name = cstr "AAAA" then t
    else
      let variations := StrMap.index t.cliff_variations file_name
      let file_name := file_name ++ to_string (clamp bottom_left.cliff_variation 0 variations.1)
      let found := StrMap.index t.path_to_cliff file_name
      { t with
        cliff_variations := variations.2
        path_to_cliff := found.2
        cliffs := t.cliffs ++ [(i, j, found.1)] }

/-- The body of the quad loop "Add new cliff meshes" at quad `(i, j)`. -/
def cliff_quad (env : Assets) (t : Terrain) (i j : Int) : Terrain :=
  match vertical_ramp env t i j with
  | some t1 => t1
  | none =>
    match horizontal_ramp env t i j with
    | some t1 => t1
    | none => plain_cliff t i j

/-- The loop "Remove all existing cliff meshes in area" of `update_cliff_meshes`: the backward
erase loop over `cliffs` is the filter that drops the placements inside `area`. -/
def erase_cliffs (t : Terrain) (area : QRect) : Terrain :=
  { t with cliffs := t.cliffs.filter (fun pos => !area.contains pos.1 pos.2.1) }

/-- The loop of `update_cliff_meshes` that resets `romp` over
`[area.x, area.right) x [area.y, area.bottom)`. -/
def clear_romp (t : Terrain) (area : QRect) : Terrain :=
  (rect_xy area.x area.right area.y area.bottom).foldl (fun t p =>
    { t with corners := set_corner t.corners p.1 p.2 { t.corners p.1 p.2 with romp := false } }) t

/-- The rectangle `ramp_area` of `update_cliff_meshes`. -/
def ramp_area (t : Terrain) (area : QRect) : QRect :=
  (area.adjusted (-2) (-2) 2 2).intersected (QRect.make 0 0 t.width t.height)

/-- The loop "Add new cliff meshes" of `update_cliff_meshes` over the quads of `ramp_area`. -/
def add_cliff_meshes (env : Assets) (t : Terrain) (ramp_area : QRect) : Terrain :=
  (rect_xy ramp_area.x ramp_area.right ramp_area.y ramp_area.bottom).foldl
    (fun t p => cliff_quad env t p.1 p.2) t

/-- The function `Terrain::update_cliff_meshes`. -/
def update_cliff_meshes (env : Assets) (t : Terrain) (area : QRect) : Terrain :=
  let t := erase_cliffs t area
  let t := clear_romp t area
  let ramp_area := ramp_area t area
  let t := add_cliff_meshes env t ramp_area
  update_ground_exists t ramp_area

/-! ## `Terrain::create`, `Terrain::load`, `Terrain::resize` -/

/-- The value `create` and `resize` assign to the `cliff` flag of quad `(i, j)`. -/
def quad_is_cliff (g : Int → Int → Corner) (i j : Int) : Bool :=
  (g i j).layer_height != (g (i + 1) j).layer_height
    || (g i j).layer_height != (g i (j + 1)).layer_height
    || (g i j).layer_height != (g (i + 1) (j + 1)).layer_height

/-- The loop "Determine if cliff" of `create` and `resize`. -/
def determine_cliffs (t : Terrain) : Terrain :=
  (rect_xy 0 (t.width - 1) 0 (t.height - 1)).foldl (fun t p =>
    let corner := { t.corners p.1 p.2 with cliff := quad_is_cliff t.corners p.1 p.2 }
    { t with corners := set_corner t.corners p.1 p.2 corner }) t

/-- The loop "Cliff Meshes" of `create` over the rows of `Cliffs.slk`. -/
def load_cliff_meshes (env : Assets) (t : Terrain) : Terrain :=
  env.cliffs_variation_slk.foldl (fun t row =>
    let t := (irange 0 (row.2 + 1)).foldl (fun t j =>
      let file_name := cstr "Doodads/Terrain/Cliffs/Cliffs" ++ row.1 ++ to_string j ++ cstr ".mdx"
      { t with
        cliff_meshes := t.cliff_meshes ++ [file_name]
        path_to_cliff := StrMap.emplace t.path_to_cliff (row.1 ++ to_string j)
          (((t.cliff_meshes.length + 1 : Nat) : Int) - 1) }) t
    { t with cliff_variations := StrMap.emplace t.cliff_variations row.1 row.2 }) t

/-- The loops "Ground textures" and "Cliff Textures" of `create`. -/
def load_ground_textures (env : Assets) (t : Terrain) : Terrain :=
  let t := t.tileset_ids.foldl (fun t tile_id =>
    { t with
      ground_textures := t.ground_textures ++ [env.tile_extended tile_id]
      ground_texture_to_id := StrMap.emplace t.ground_texture_to_id tile_id
        (((t.ground_textures.length + 1 : Nat) : Int) - 1) }) t
  let t := { t with blight_texture := (t.ground_textures.length : Int) }
  let t := { t with
    ground_texture_to_id := StrMap.emplace t.ground_texture_to_id (cstr "blight") t.blight_texture
    ground_textures := t.ground_textures ++ [env.blight_extended] }
  t.cliffset_ids.foldl (fun t cliff_id =>
    let found := StrMap.index t.ground_texture_to_id (env.cliff_groundtile cliff_id)
    { t with
      ground_texture_to_id := found.2
      cliff_to_ground_texture := t.cliff_to_ground_texture ++ [found.1] }) t

/-- The loop of `create` and `resize` that fills the four height and water mirrors. -/
def fill_mirrors (t : Terrain) : Terrain :=
  (rect_xy 0 t.width 0 t.height).foldl (fun t p =>
    let i := p.1
    let j := p.2
    { t with
      ground_corner_heights :=
        set_at t.ground_corner_heights (j * t.width + i) (t.corners i j).final_ground_height
      water_exists_data := set_at t.water_exists_data (j * t.width + i) (t.corners i j).water
      ground_heights := set_at t.ground_heights (j * t.width + i) (t.corners i j).height
      water_heights := set_at t.water_heights (j * t.width + i) (t.corners i j).water_height }) t

/-- The function `Terrain::create`.  The water colours, the GPU textures, the shaders, the
collision shape and the minimap signal are not part of the modelled state.  The subscripts
are total here: where the source would read `cliff_to_ground_texture` or `ground_textures`
outside the vector, this function reads a default; `create_checked` is the same function with
every subscript checked and with the call of `minimap_image`. -/
def create (env : Assets) (t : Terrain) : Terrain :=
  let t := determine_cliffs t
  let t := load_cliff_meshes env t
  let t := load_ground_textures env t
  let t := fill_mirrors t
  let t := update_cliff_meshes env t (QRect.make 0 0 (t.width - 1) (t.height - 1))
  let t := update_ground_textures t (QRect.make 0 0 (t.width - 1) (t.height - 1))
  update_ground_heights t (QRect.make 0 0 (t.width - 1) (t.height - 1))

/-- The function `Terrain::load` on the bytes of `war3map.w3e`: `some (false, t)` is the early
`return false`, `some (true, _)` the `return true` after `create`, `none` an exception. -/
def load (env : Assets) (t : Terrain) (buffer : List Nat) : Option (Bool × Terrain) := do
  let (magic_number, r) ← read_string 4 buffer
  if magic_number ≠ cstr "W3E!" then some (false, t)
  else
    let t ← load_parse t r
    some (true, create env t)

/-- The function `Terrain::resize`, for `new_width` and `new_height` that fit an `int`. -/
def resize (env : Assets) (t : Terrain) (new_width new_height : Nat) : Terrain :=
  let fill := t.corners 0 0
  let t := { t with
    width := (new_width : Int)
    height := (new_height : Int)
    corners := fun _ _ => fill }
  let t := fill_mirrors t
  let t := determine_cliffs t
  let t := update_cliff_meshes env t (QRect.make 0 0 (t.width - 1) (t.height - 1))
  let t := update_ground_textures t (QRect.make 0 0 (t.width - 1) (t.height - 1))
  update_ground_heights t (QRect.make 0 0 (t.width - 1) (t.height - 1))

/-! ## `TerrainGenericAction::undo` and `redo` -/

/-- The loop of `undo` and `redo` that copies the slice `slice` back over `area`. -/
def restore (t : Terrain) (area : QRect) (slice : List Corner) : Terrain :=
  (rect_yx area.left (area.right + 1) area.top (area.bottom + 1)).foldl (fun t p =>
    let i := p.1
    let j := p.2
    let saved := slice.getD ((j - area.top) * area.width + i - area.left).toNat Corner.zero
    { t with corners := set_corner t.corners i j saved }) t

/-- The recomputation `undo` and `redo` run for the kind of the action.  The minimap signal
and `map->units.update_area` are outside the terrain state. -/
def recompute (env : Assets) (t : Terrain) (area : QRect) (type : undo_type) : Terrain :=
  let t := if type = undo_type.height then update_ground_heights t area else t
  let t := if type = undo_type.texture then update_ground_textures t area else t
  if type = undo_type.cliff then
    let t := update_ground_heights t area
    let t := update_cliff_meshes env t area
    let t := update_ground_textures t area
    update_water t area
  else t

/-- The function `TerrainGenericAction::undo`. -/
def TerrainGenericAction.undo (env : Assets) (a : TerrainGenericAction) (t : Terrain) : Terrain :=
  recompute env (restore t a.area a.old_corners) a.area a.undo_type

/-- The function `TerrainGenericAction::redo`. -/
def TerrainGenericAction.redo (env : Assets) (a : TerrainGenericAction) (t : Terrain) : Terrain :=
  recompute env (restore t a.area a.new_corners) a.area a.undo_type

/-! ## `INI` (INI.cpp) -/

/-- The type `std::map<std::string, V>`, as an association list with unique keys (the order of
the entries is not the iteration order of the map and carries no meaning). -/
abbrev StdMap (V : Type) := List (CString × V)

/-- The member `contains` of a `std::map`. -/
def StdMap.contains {V : Type} (m : StdMap V) (k : CString) : Bool := (m.lookup k).isSome

/-- The assignment `m[k] = v` on a `std::map`: replaces the value of a present key, inserts an
absent one. -/
def StdMap.assign {V : Type} (m : StdMap V) (k : CString) (v : V) : StdMap V :=
  if StdMap.contains m k then m.map (fun e => if e.1 = k then (k, v) else e) else m ++ [(k, v)]

/-- The member `ini_data` of class `INI`: section name to key to the parts of the value. -/
abbrev IniData := StdMap (StdMap (List CString))

/-- The lines `std::getline(file, line)` yields one after the other until it fails: the pieces
between the `'\n'` characters, without an empty piece after a final `'\n'`. -/
def getlines : List Nat → List CString
  | [] => []
  | c :: rest =>
    if c = 10 then [] :: getlines rest
    else
      match getlines rest with
      | [] => [[c]]
      | l :: ls => (c :: l) :: ls

/-- The member `find(c)` of `std::string`: the position of the first `c`, or `none` for `npos`. -/
def find (line : CString) (c : Nat) : Option Nat :=
  if c ∈ line then some (line.indexOf c) else none

/-- The key renaming of `INI::load` ("Fix some upper/lowercase issues"). -/
def fix_key (key : CString) : CString :=
  if key = cstr "minscale" then cstr "minScale"
  else if key = cstr "maxscale" then cstr "maxScale"
  else if key = cstr "texid" then cstr "texID"
  else if key = cstr "fixedrot" then cstr "fixedRot"
  else if key = cstr "fixedrot" then cstr "fixedRot"
  else key

/-- The body of the loop "Strip off quotes at the front/back" of `INI::load` on one part. -/
def strip_quotes (i : CString) : CString :=
  if i.length < 2 then i
  else
    let i := if i.head? = some 34 then i.drop 1 else i
    if i.getLast? = some 34 then i.dropLast else i

/-- The locals `ini_data` (a member) and `current_section` of `INI::load` between two lines. -/
structure IniState where
  ini_data : IniData
  current_section : CString
deriving DecidableEq

/-- The name `line.substr(1, line.find(']') - 1)` of a section header line: for `npos` the
count `npos - 1` reaches the end of the line. -/
def section_name (line : CString) : CString :=
  match find line 93 with
  | some p => (line.drop 1).take (p - 1)
  | none => line.drop 1

/-- The body of the `while (std::getline(file, line))` loop of `INI::load` on one line.  The
function `split` of `Utilities.h` is not among the sources and is a parameter. -/
def load_line (split : CString → Nat → List CString) (s : IniState) (line : CString) : IniState :=
  if line.take 2 = cstr "//" ∨ line = [] ∨ line.head? = some 59 then s
  else if line.head? = some 91 then
    let key := section_name line
    if StdMap.contains s.ini_data key then s
    else { ini_data := StdMap.assign s.ini_data key [], current_section := key }
  else
    match find line 61 with
    | none => s
    | some found =>
      let key := fix_key (line.take found)
      let value := line.drop (found + 1)
      if key = [] ∨ value = [] then s
      else
        let value := if value.getLast? = some 13 then value.dropLast else value
        let parts := (split value 44).map strip_quotes
        let sect := (s.ini_data.lookup s.current_section).getD []
        { s with
          ini_data := StdMap.assign s.ini_data s.current_section (StdMap.assign sect key parts) }

/-- The lines `INI::load` reads from the bytes of the file: after three `file.get()` calls the
stream is rewound unless they gave the byte order mark; on a file of fewer than three bytes the
third `get` sets `failbit`, `seekg` and `getline` then fail and no line is read. -/
def load_lines (buffer : List Nat) : List CString :=
  match buffer.map (fun b => b % 256) with
  | a :: b :: c :: rest =>
    if a ≠ 239 ∨ b ≠ 187 ∨ c ≠ 191 then getlines (a :: b :: c :: rest) else getlines rest
  | _ => []

/-- The function `INI::load` on the bytes `hierarchy.open_file(path).buffer` of the file: the
member `ini_data` afterwards. -/
def INI.load (split : CString → Nat → List CString) (ini_data : IniData) (buffer : List Nat) :
    IniData :=
  ((load_lines buffer).foldl (load_line split) ⟨ini_data, []⟩).ini_data

/-- The function `INI::whole_data`. -/
def INI.whole_data (ini_data : IniData) (sect key : CString) : List CString :=
  if StdMap.contains ini_data sect
      ∧ StdMap.contains ((ini_data.lookup sect).getD []) key then
    ((ini_data.lookup sect).getD []).lookup key |>.getD []
  else []

/-- The function `INI::key_exists`. -/
def INI.key_exists (ini_data : IniData) (sect key : CString) : Bool :=
  StdMap.contains ini_data sect && StdMap.contains ((ini_data.lookup sect).getD []) key

/-- The function `INI::section_exists`. -/
def INI.section_exists (ini_data : IniData) (sect : CString) : Bool :=
  StdMap.contains ini_data sect

/-! ## Checked subscripts

The functions above read `corners[i][j]` and the vectors through total maps and `getD`, which
yield a value also where the C++ subscript is outside the vector.  The functions of this part
follow the same source lines with every subscript checked: the result `none` is a subscript
outside its vector (undefined behaviour in C++).  The grid `corners` has `width` columns of
`height` corners, and the mirror vectors have the sizes `create` and `resize` give them. -/

/-- The subscript `corners[i][j]`. -/
def corner_at (t : Terrain) (i j : Int) : Option Corner :=
  if 0 ≤ i ∧ i < t.width ∧ 0 ≤ j ∧ j < t.height then some (t.corners i j) else none

/-- The subscript `v[k]` of a `std::vector` held as a list. -/
def vector_at {α : Type} (v : List α) (k : Int) : Option α :=
  if 0 ≤ k then v[k.toNat]? else none

/-- The assignment `corners[i][j] = c`. -/
def set_corner_checked (t : Terrain) (i j : Int) (c : Corner) : Option (Int → Int → Corner) :=
  if 0 ≤ i ∧ i < t.width ∧ 0 ≤ j ∧ j < t.height then some (set_corner t.corners i j c) else none

/-- The assignment `v[k] = a` on a mirror vector of `size` elements. -/
def set_at_checked {α : Type} (v : Int → α) (size k : Int) (a : α) : Option (Int → α) :=
  if 0 ≤ k ∧ k < size then some (set_at v k a) else none

/-- The function `Terrain::is_corner_ramp_entrance`, with checked subscripts. -/
def is_corner_ramp_entrance_checked (t : Terrain) (x y : Int) : Option Bool :=
  if x = t.width ∨ y = t.height then some false
  else do
    let bottom_left ← corner_at t x y
    let bottom_right ← corner_at t (x + 1) y
    let top_left ← corner_at t x (y + 1)
    let top_right ← corner_at t (x + 1) (y + 1)
    some (bottom_left.ramp && top_left.ramp && bottom_right.ramp && top_right.ramp
      && !(bottom_left.layer_height == top_right.layer_height
        && top_left.layer_height == bottom_right.layer_height))

/-- The body of the search loop of `real_tile_texture` at offset `(i, j)`, with checked
subscripts. -/
def real_tile_texture_step_checked (t : Terrain) (x y i j : Int) : Option Scan :=
  if x + i ≥ 0 ∧ x + i < t.width ∧ y + j ≥ 0 ∧ y + j < t.height then do
    let here ← corner_at t (x + i) (y + j)
    let leave ←
      if here.cliff ∧ (x + i < t.width - 1 ∧ y + j < t.height - 1) then do
        let bottom_left ← corner_at t (x + i) (y + j)
        let bottom_right ← corner_at t (x + i + 1) (y + j)
        let top_left ← corner_at t (x + i) (y + j + 1)
        let top_right ← corner_at t (x + i + 1) (y + j + 1)
        some (bottom_left.ramp && top_left.ramp && bottom_right.ramp && top_right.ramp
          && !bottom_left.romp && !bottom_right.romp && !top_left.romp && !top_right.romp)
      else some false
    if leave then some Scan.out
    else if here.romp || here.cliff then do
      let texture := here.cliff_texture
      let texture := if texture = 15 then texture - 14 else texture
      let v ← vector_at t.cliff_to_ground_texture texture
      some (Scan.ret v)
    else some Scan.next
  else some Scan.next

/-- The search loop of `real_tile_texture` over the offsets `ps`, with checked subscripts: the
value returned from inside the loop, if any. -/
def real_tile_texture_scan_checked (t : Terrain) (x y : Int) :
    List (Int × Int) → Option (Option Int)
  | [] => some none
  | p :: ps =>
    match real_tile_texture_step_checked t x y p.1 p.2 with
    | none => none
    | some Scan.next => real_tile_texture_scan_checked t x y ps
    | some Scan.out => some none
    | some (Scan.ret v) => some (some v)

/-- The function `Terrain::real_tile_texture`, with checked subscripts. -/
def real_tile_texture_checked (t : Terrain) (x y : Int) : Option Int :=
  match real_tile_texture_scan_checked t x y (rect_xy (-1) 1 (-1) 1) with
  | none => none
  | some (some v) => some v
  | some none => do
    let here ← corner_at t x y
    some (if here.blight then t.blight_texture else here.ground_texture)

/-- The function `Terrain::get_tile_variation`, with the subscript of `ground_textures`
checked. -/
def get_tile_variation_checked (t : Terrain) (ground_texture variation : Int) : Option Int := do
  let extended ← vector_at t.ground_textures ground_texture
  some (if extended then
      if variation ≤ 15 then 16 + variation
      else if variation = 16 then 15
      else 0
    else
      if variation = 0 then 0 else 15)

/-- The function `Terrain::get_texture_variations`, with checked subscripts. -/
def get_texture_variations_checked (t : Terrain) (x y : Int) : Option U16Vec4 := do
  let bottom_left ← real_tile_texture_checked t x y
  let bottom_right ← real_tile_texture_checked t (x + 1) y
  let top_left ← real_tile_texture_checked t x (y + 1)
  let top_right ← real_tile_texture_checked t (x + 1) (y + 1)
  let set := std_set [bottom_left, bottom_right, top_left, top_right]
  let tiles : U16Vec4 := ⟨17, 17, 17, 17⟩
  match set with
  | [] => some tiles
  | first :: rest => do
    let here ← corner_at t x y
    let variation ← get_tile_variation_checked t first here.ground_variation
    let tiles := U16Vec4.set tiles 0 (first + variation * 2 ^ 5)
    some (rest.foldl (fun (acc : U16Vec4 × Nat) texture =>
      let index : Int := b2i (bottom_right == texture) + 2 * b2i (bottom_left == texture)
        + 4 * b2i (top_right == texture) + 8 * b2i (top_left == texture)
      (U16Vec4.set acc.1 acc.2 (texture + index * 2 ^ 5), acc.2 + 1)) (tiles, 1)).1

/-- The ramp-lip search of `update_ground_heights` at corner `(i, j)` over the offsets `ps`,
with checked subscripts. -/
def ramp_height_checked (t : Terrain) (i j : Int) : List (Int × Int) → Option ℚ
  | [] => some 0
  | p :: ps =>
    let x_offset := p.1
    let y_offset := p.2
    if i + x_offset ≥ 0 ∧ i + x_offset < t.width - 1 ∧ j + y_offset ≥ 0
        ∧ j + y_offset < t.height - 1 then do
      let bottom_left ← corner_at t (i + x_offset) (j + y_offset)
      let bottom_right ← corner_at t (i + 1 + x_offset) (j + y_offset)
      let top_left ← corner_at t (i + x_offset) (j + 1 + y_offset)
      let top_right ← corner_at t (i + 1 + x_offset) (j + 1 + y_offset)
      let base := min (min bottom_left.layer_height bottom_right.layer_height)
        (min top_left.layer_height top_right.layer_height)
      let here ← corner_at t i j
      if here.layer_height ≠ base then ramp_height_checked t i j ps
      else do
        let entrance ← is_corner_ramp_entrance_checked t (i + x_offset) (j + y_offset)
        if entrance then some (1 / 2) else ramp_height_checked t i j ps
    else ramp_height_checked t i j ps

/-- The function `Terrain::update_ground_heights`, with checked subscripts. -/
def update_ground_heights_checked (t : Terrain) (area : QRect) : Option Terrain :=
  (rect_yx area.x (area.x + area.width) area.y (area.y + area.height)).foldlM (fun t p => do
    let i := p.1
    let j := p.2
    let here ← corner_at t i j
    let ground_heights ←
      set_at_checked t.ground_heights (t.width * t.height) (j * t.width + i) here.height
    let ramp_height ← ramp_height_checked t i j (rect_xy (-1) 1 (-1) 1)
    let ground_corner_heights ← set_at_checked t.ground_corner_heights (t.width * t.height)
      (j * t.width + i) (here.final_ground_height + ramp_height)
    some { t with
      ground_heights := ground_heights
      ground_corner_heights := ground_corner_heights }) t

/-- The function `Terrain::update_ground_textures`, with checked subscripts. -/
def update_ground_textures_checked (t : Terrain) (area : QRect) : Option Terrain :=
  let update_area := (area.adjusted (-1) (-1) 1 1).intersected
    (QRect.make 0 0 (t.width - 1) (t.height - 1))
  (rect_yx update_area.left (update_area.right + 1) update_area.top
    (update_area.bottom + 1)).foldlM
    (fun t p => do
      let i := p.1
      let j := p.2
      let variations ← get_texture_variations_checked t i j
      let ground_texture_list ← set_at_checked t.ground_texture_list
        ((t.width - 1) * (t.height - 1)) (j * (t.width - 1) + i) variations
      some { t with ground_texture_list := ground_texture_list }) t

/-- The function `Terrain::update_ground_exists`, with checked subscripts; the call of
`is_corner_ramp_entrance` is behind the `&&` and is made for a cliff or ramp-active corner
only. -/
def update_ground_exists_checked (t : Terrain) (area : QRect) : Option Terrain :=
  let update_area := (area.adjusted (-1) (-1) 1 1).intersected
    (QRect.make 0 0 (t.width - 1) (t.height - 1))
  (rect_yx update_area.left (update_area.right + 1) update_area.top
    (update_area.bottom + 1)).foldlM
    (fun t p => do
      let i := p.1
      let j := p.2
      let here ← corner_at t i j
      let entrance ←
        if here.cliff || here.romp then is_corner_ramp_entrance_checked t i j else some false
      let exists_here := !(((here.cliff || here.romp) && !entrance) || here.special_doodad)
      let ground_exists_data ← set_at_checked t.ground_exists_data (t.width * t.height)
        (j * (t.width - 1) + i) exists_here
      some { t with ground_exists_data := ground_exists_data }) t

/-- The function `Terrain::update_water`, with checked subscripts. -/
def update_water_checked (t : Terrain) (area : QRect) : Option Terrain :=
  (rect_xy area.x (area.x + area.width) area.y (area.y + area.height)).foldlM (fun t p => do
    let i := p.1
    let j := p.2
    let here ← corner_at t i j
    let water_exists_data ←
      set_at_checked t.water_exists_data (t.width * t.height) (j * t.width + i) here.water
    let water_heights ←
      set_at_checked t.water_heights (t.width * t.height) (j * t.width + i) here.water_height
    some { t with water_exists_data := water_exists_data, water_heights := water_heights }) t

/-- The block "Vertical ramps" of the quad loop, with checked subscripts: inside `some`, the
result is `some` when the block placed a ramp and `none` when the quad falls through. -/
def vertical_ramp_checked (env : Assets) (t : Terrain) (i j : Int) : Option (Option Terrain) := do
  let bottom_left ← corner_at t i j
  let bottom_right ← corner_at t (i + 1) j
  let top_left ← corner_at t i (j + 1)
  let top_right ← corner_at t (i + 1) (j + 1)
  if j < t.height - 2 then do
    let top_top_left ← corner_at t i (j + 2)
    let top_top_right ← corner_at t (i + 1) (j + 2)
    let ae := min bottom_left.layer_height top_top_left.layer_height
    let cf := min bottom_right.layer_height top_top_right.layer_height
    if top_left.layer_height = ae ∧ top_right.layer_height = cf then
      let base := min ae cf
      if bottom_left.ramp = top_left.ramp ∧ bottom_left.ramp = top_top_left.ramp
          ∧ bottom_right.ramp = top_right.ramp ∧ bottom_right.ramp = top_top_right.ramp
          ∧ bottom_left.ramp ≠ bottom_right.ramp then
        let file_name : CString := [ramp_char top_top_left base, ramp_char top_top_right base,
          ramp_char bottom_right base, ramp_char bottom_left base]
        let file_name := cstr "doodads/terrain/clifftrans/clifftrans" ++ file_name ++ cstr "0.mdx"
        if env.file_exists file_name then some (some (place_ramp t i j i (j + 1) file_name))
        else some none
      else some none
    else some none
  else some none

/-- The block "Horizontal ramps" of the quad loop, with checked subscripts. -/
def horizontal_ramp_checked (env : Assets) (t : Terrain) (i j : Int) :
    Option (Option Terrain) := do
  let bottom_left ← corner_at t i j
  let bottom_right ← corner_at t (i + 1) j
  let top_left ← corner_at t i (j + 1)
  let top_right ← corner_at t (i + 1) (j + 1)
  if i < t.width - 2 then do
    let bottom_right_right ← corner_at t (i + 2) j
    let top_right_right ← corner_at t (i + 2) (j + 1)
    let ae := min bottom_left.layer_height bottom_right_right.layer_height
    let bf := min top_left.layer_height top_right_right.layer_height
    if bottom_right.layer_height = ae ∧ top_right.layer_height = bf then
      let base := min ae bf
      if bottom_left.ramp = bottom_right.ramp ∧ bottom_left.ramp = bottom_right_right.ramp
          ∧ top_left.ramp = top_right.ramp ∧ top_left.ramp = top_right_right.ramp
          ∧ bottom_left.ramp ≠ top_left.ramp then
        let file_name : CString := [ramp_char top_left base, ramp_char top_right_right base,
          ramp_char bottom_right_right base, ramp_char bottom_left base]
        let file_name := cstr "doodads/terrain/clifftrans/clifftrans" ++ file_name ++ cstr "0.mdx"
        if env.file_exists file_name then some (some (place_ramp t i j (i + 1) j file_name))
        else some none
      else some none
    else some none
  else some none

/-- The plain-cliff branch of the quad loop, with checked subscripts. -/
def plain_cliff_checked (t : Terrain) (i j : Int) : Option Terrain := do
  let bottom_left ← corner_at t i j
  let bottom_right ← corner_at t (i + 1) j
  let top_left ← corner_at t i (j + 1)
  let top_right ← corner_at t (i + 1) (j + 1)
  if !bottom_left.cliff || bottom_left.romp then some t
  else do
    let entrance ← is_corner_ramp_entrance_checked t i j
    if entrance then some t
    else
      let base := min (min bottom_left.layer_height bottom_right.layer_height)
        (min top_left.layer_height top_right.layer_height)
      let file_name : CString :=
        [to_u8 (65 + top_left.layer_height - base), to_u8 (65 + top_right.layer_height - base),
          to_u8 (65 + bottom_right.layer_height - base),
          to_u8 (65 + bottom_left.layer_height - base)]
      if file_name = cstr "AAAA" then some t
      else
        let variations := StrMap.index t.cliff_variations file_name
        let file_name := file_name ++ to_string (clamp bottom_left.cliff_variation 0 variations.1)
        let found := StrMap.index t.path_to_cliff file_name
        some { t with
          cliff_variations := variations.2
          path_to_cliff := found.2
          cliffs := t.cliffs ++ [(i, j, found.1)] }

/-- The body of the quad loop "Add new cliff meshes" at quad `(i, j)`, with checked
subscripts. -/
def cliff_quad_checked (env : Assets) (t : Terrain) (i j : Int) : Option Terrain :=
  match vertical_ramp_checked env t i j with
  | none => none
  | some (some t1) => some t1
  | some none =>
    match horizontal_ramp_checked env t i j with
    | none => none
    | some (some t1) => some t1
    | some none => plain_cliff_checked t i j

/-- The loop of `update_cliff_meshes` that resets `romp`, with checked subscripts. -/
def clear_romp_checked (t : Terrain) (area : QRect) : Option Terrain :=
  (rect_xy area.x area.right area.y area.bottom).foldlM (fun t p => do
    let here ← corner_at t p.1 p.2
    let corners ← set_corner_checked t p.1 p.2 { here with romp := false }
    some { t with corners := corners }) t

/-- The loop "Add new cliff meshes" of `update_cliff_meshes`, with checked subscripts. -/
def add_cliff_meshes_checked (env : Assets) (t : Terrain) (ramp_area : QRect) : Option Terrain :=
  (rect_xy ramp_area.x ramp_area.right ramp_area.y ramp_area.bottom).foldlM
    (fun t p => cliff_quad_checked env t p.1 p.2) t

/-- The function `Terrain::update_cliff_meshes`, with checked subscripts. -/
def update_cliff_meshes_checked (env : Assets) (t : Terrain) (area : QRect) : Option Terrain := do
  let t := erase_cliffs t area
  let t ← clear_romp_checked t area
  let ramp_area := ramp_area t area
  let t ← add_cliff_meshes_checked env t ramp_area
  update_ground_exists_checked t ramp_area

/-- The loop "Determine if cliff" of `create` and `resize`, with checked subscripts. -/
def determine_cliffs_checked (t : Terrain) : Option Terrain :=
  (rect_xy 0 (t.width - 1) 0 (t.height - 1)).foldlM (fun t p => do
    let bottom_left ← corner_at t p.1 p.2
    let bottom_right ← corner_at t (p.1 + 1) p.2
    let top_left ← corner_at t p.1 (p.2 + 1)
    let top_right ← corner_at t (p.1 + 1) (p.2 + 1)
    let cliff := bottom_left.layer_height != bottom_right.layer_height
      || bottom_left.layer_height != top_left.layer_height
      || bottom_left.layer_height != top_right.layer_height
    let corners ← set_corner_checked t p.1 p.2 { bottom_left with cliff := cliff }
    some { t with corners := corners }) t

/-- The loop of `create` and `resize` that fills the four height and water mirrors, with
checked subscripts. -/
def fill_mirrors_checked (t : Terrain) : Option Terrain :=
  (rect_xy 0 t.width 0 t.height).foldlM (fun t p => do
    let i := p.1
    let j := p.2
    let here ← corner_at t i j
    let ground_corner_heights ← set_at_checked t.ground_corner_heights (t.width * t.height)
      (j * t.width + i) here.final_ground_height
    let water_exists_data ←
      set_at_checked t.water_exists_data (t.width * t.height) (j * t.width + i) here.water
    let ground_heights ←
      set_at_checked t.ground_heights (t.width * t.height) (j * t.width + i) here.height
    let water_heights ←
      set_at_checked t.water_heights (t.width * t.height) (j * t.width + i) here.water_height
    some { t with
      ground_corner_heights := ground_corner_heights
      water_exists_data := water_exists_data
      ground_heights := ground_heights
      water_heights := water_heights }) t

/-- The test of `minimap_image` for the grey of a cliff at the pixel `(i, j)`, with its
short-circuit evaluation and checked subscripts. -/
def minimap_cliff_checked (t : Terrain) (i j : Int) : Option Bool := do
  let here ← corner_at t i j
  if here.cliff then some true
  else do
    let left ← if i > 0 then (corner_at t (i - 1) j).map (fun c => c.cliff) else some false
    if left then some true
    else do
      let below ← if j > 0 then (corner_at t i (j - 1)).map (fun c => c.cliff) else some false
      if below then some true
      else if i > 0 ∧ j > 0 then (corner_at t (i - 1) (j - 1)).map (fun c => c.cliff)
      else some false

/-- The function `Terrain::minimap_image`, with checked subscripts.  A pixel is represented by
the source of its colour: `none` for the grey of a cliff, `some k` for the `minimap_color` of
`ground_textures[k]`.  The water tint, which needs `water_offset`, and the writes into the
image, whose indices follow `i < width` and `j < height`, are not modelled. -/
def minimap_image_checked (t : Terrain) : Option (List (Option Int)) :=
  (rect_yx 0 t.width 0 t.height).mapM (fun p => do
    let cliff ← minimap_cliff_checked t p.1 p.2
    if cliff then some none
    else do
      let texture ← real_tile_texture_checked t p.1 p.2
      let _ ← vector_at t.ground_textures texture
      some (some texture))

/-- The function `Terrain::create`, with checked subscripts and with the call of
`minimap_image` at its end.  As in `create`, the reads of the SLK tables and the loads of
`resource_manager` are answered by `env`, and the GPU calls are not modelled. -/
def create_checked (env : Assets) (t : Terrain) : Option Terrain := do
  let t ← determine_cliffs_checked t
  let t := load_cliff_meshes env t
  let t := load_ground_textures env t
  let t ← fill_mirrors_checked t
  let t ← update_cliff_meshes_checked env t (QRect.make 0 0 (t.width - 1) (t.height - 1))
  let t ← update_ground_textures_checked t (QRect.make 0 0 (t.width - 1) (t.height - 1))
  let t ← update_ground_heights_checked t (QRect.make 0 0 (t.width - 1) (t.height - 1))
  let _ ← minimap_image_checked t
  some t

/-- The function `Terrain::load` with checked subscripts.  After `corners.resize` a column the
grid already had keeps its old corners, so the corner loop leaves such a column when the new
height is larger than the old one. -/
def load_checked (env : Assets) (t : Terrain) (buffer : List Nat) :
    Option (Bool × Terrain) := do
  let (magic_number, r) ← read_string 4 buffer
  if magic_number ≠ cstr "W3E!" then some (false, t)
  else
    let t1 ← load_parse t r
    if 0 < t.width ∧ 0 < t1.width ∧ t.height < t1.height then none
    else
      let t2 ← create_checked env t1
      some (true, t2)

/-- The function `Terrain::resize`, with checked subscripts. -/
def resize_checked (env : Assets) (t : Terrain) (new_width new_height : Nat) :
    Option Terrain := do
  let fill ← corner_at t 0 0
  let t := { t with
    width := (new_width : Int)
    height := (new_height : Int)
    corners := fun _ _ => fill }
  let t ← fill_mirrors_checked t
  let t ← determine_cliffs_checked t
  let t ← update_cliff_meshes_checked env t (QRect.make 0 0 (t.width - 1) (t.height - 1))
  let t ← update_ground_textures_checked t (QRect.make 0 0 (t.width - 1) (t.height - 1))
  update_ground_heights_checked t (QRect.make 0 0 (t.width - 1) (t.height - 1))

/-- The function `Terrain::add_undo`, with checked subscripts; the snapshot `old_corners` has
the size of the grid. -/
def add_undo_checked (t : Terrain) (area : QRect) (type : undo_type) :
    Option TerrainGenericAction := do
  let old_corners ← (rect_yx area.left (area.right + 1) area.top (area.bottom + 1)).mapM
    (fun p => (corner_at t p.1 p.2).map (fun _ => t.old_corners p.1 p.2))
  let new_corners ← (rect_yx area.left (area.right + 1) area.top (area.bottom + 1)).mapM
    (fun p => corner_at t p.1 p.2)
  some ⟨area, type, old_corners, new_corners⟩

/-- The loop of `undo` and `redo` that copies the slice `slice` back over `area`, with checked
subscripts. -/
def restore_checked (t : Terrain) (area : QRect) (slice : List Corner) : Option Terrain :=
  (rect_yx area.left (area.right + 1) area.top (area.bottom + 1)).foldlM (fun t p => do
    let i := p.1
    let j := p.2
    let saved ← vector_at slice ((j - area.top) * area.width + i - area.left)
    let corners ← set_corner_checked t i j saved
    some { t with corners := corners }) t

/-- The recomputation `undo` and `redo` run for the kind of the action, followed by the call
of `minimap_image` in `update_minimap`, with checked subscripts.  The call
`map->units.update_area` is outside the terrain state. -/
def recompute_checked (env : Assets) (t : Terrain) (area : QRect) (type : undo_type) :
    Option Terrain := do
  let t ← if type = undo_type.height then update_ground_heights_checked t area else some t
  let t ← if type = undo_type.texture then update_ground_textures_checked t area else some t
  let t ←
    if type = undo_type.cliff then do
      let t ← update_ground_heights_checked t area
      let t ← update_cliff_meshes_checked env t area
      let t ← update_ground_textures_checked t area
      update_water_checked t area
    else some t
  let _ ← minimap_image_checked t
  some t

/-- The function `TerrainGenericAction::undo`, with checked subscripts. -/
def TerrainGenericAction.undo_checked (env : Assets) (a : TerrainGenericAction) (t : Terrain) :
    Option Terrain := do
  let t ← restore_checked t a.area a.old_corners
  recompute_checked env t a.area a.undo_type

/-- The function `TerrainGenericAction::redo`, with checked subscripts. -/
def TerrainGenericAction.redo_checked (env : Assets) (a : TerrainGenericAction) (t : Terrain) :
    Option Terrain := do
  let t ← restore_checked t a.area a.new_corners
  recompute_checked env t a.area a.undo_type

/-! ## Projections used to state the properties -/

/-- A corner without its derived `romp` flag. -/
def no_romp (c : Corner) : Corner := { c with romp := false }

/-- A corner without its derived flags `cliff` and `romp`. -/
def no_flags (c : Corner) : Corner := { c with cliff := false, romp := false }

/-- The header fields of the terrain file held in a `Terrain`. -/
def Terrain.header (t : Terrain) : Header :=
  ⟨t.tileset, t.tileset_ids, t.cliffset_ids, t.width, t.height, t.offset⟩

/-- The part of a `Terrain` that the mirror updates leave alone: header, grid, undo snapshot
and cliff placements. -/
def Terrain.stored (t : Terrain) :
    Header × (Int → Int → Corner) × (Int → Int → Corner) × List (Int × Int × Int) :=
  (t.header, t.corners, t.old_corners, t.cliffs)

/-- The part of a `Terrain` that `update_cliff_meshes` leaves alone: header, undo snapshot, and
the grid up to the derived `romp` flags. -/
def Terrain.stored_no_romp (t : Terrain) : Header × (Int → Int → Corner) × (Int → Int → Corner) :=
  (t.header, (fun x y => no_romp (t.corners x y)), t.old_corners)

/-- The byte at position `k` of a buffer. -/
def byte_at (rs : List Nat) (k : Nat) : Nat := rs.getD k 0 % 256

/-- The little-endian 16-bit value at position `k` of a buffer. -/
def u16_at (rs : List Nat) (k : Nat) : Nat := byte_at rs k + 256 * byte_at rs (k + 1)

/-- The decoding of the `k`-th 7-byte record of the record area `rs` into the corner `c`. -/
def decode_at (rs : List Nat) (k : Nat) (c : Corner) : Corner :=
  decode_corner c (u16_at rs (7 * k)) (u16_at rs (7 * k + 2)) (byte_at rs (7 * k + 4))
    (byte_at rs (7 * k + 5)) (byte_at rs (7 * k + 6))

/-- The terrain that `load` leaves behind (the terrain itself when `load` throws). -/
def loaded (env : Assets) (t : Terrain) (buffer : List Nat) : Terrain :=
  ((load env t buffer).getD (false, t)).2

/-- The state in which `create` reaches its calls of `update_cliff_meshes`,
`update_ground_textures` and `update_ground_heights`: cliff flags, tables and mirrors are set. -/
def create_tables (env : Assets) (t : Terrain) : Terrain :=
  fill_mirrors (load_ground_textures env (load_cliff_meshes env (determine_cliffs t)))

/-! ## Example inputs -/

/-- An asset store without ramp meshes whose `Cliffs.slk` has the single row `AAAB`. -/
def env0 : Assets where
  file_exists := fun _ => false
  cliffs_variation_slk := [(cstr "AAAB", 1)]
  tile_extended := fun _ => false
  blight_extended := false
  cliff_groundtile := fun _ => []

/-- A 5 x 5 grid with the tiles `Ldrt`, `Lgrs` and one cliff texture, flat except for the
corner `(0, 0)` that is one layer up. -/
def grid5 : Terrain :=
  { Terrain.fresh with
    width := 5
    height := 5
    tileset_ids := [cstr "Ldrt", cstr "Lgrs"]
    cliffset_ids := [cstr "CLdi"]
    corners := fun x y =>
      if x = 0 ∧ y = 0 then { Corner.zero with layer_height := 1 } else Corner.zero }

/-- A 2 x 2 grid of uniform layer_height whose corners all carry a set `cliff` flag. -/
def flat_cliff2 : Terrain :=
  { Terrain.fresh with
    width := 2
    height := 2
    corners := fun _ _ => { Corner.zero with cliff := true } }

/-- A terrain that carries the header of a 2 x 2 map with four tiles and two cliff textures. -/
def sample_header : Terrain :=
  { Terrain.fresh with
    tileset := 76
    tileset_ids := [cstr "Ldrt", cstr "Lgrs", cstr "Lrok", cstr "Ldro"]
    cliffset_ids := [cstr "CLdi", cstr "CLgr"]
    width := 2
    height := 2 }

/-- Four corner records: the first has height 0, water height 0 with the map-edge bit, ground
texture 3 with the ramp flag, variations 5 and 1, cliff texture 1 and layer 2; the others are
plain corners of layer 2. -/
def sample_recs : List Nat :=
  [0, 32, 0, 96, 19, 37, 18, 0, 32, 0, 32, 0, 0, 2, 0, 32, 0, 32, 0, 0, 2, 0, 32, 0, 32, 0, 0, 2]

/-- The bytes of a `war3map.w3e` file: the header of `sample_header` as `save` writes it, then
the records `sample_recs`. -/
def sample_file : List Nat := save_header sample_header ++ sample_recs

/-- An asset store whose only ramp mesh is `clifftransLABH0.mdx`. -/
def ramp_env : Assets :=
  { env0 with
    file_exists := fun f => f == cstr "doodads/terrain/clifftrans/clifftransLABH0.mdx" }

/-- A 4 x 4 grid with the tiles `Ldrt`, `Lgrs` and one cliff texture and with a vertical ramp
at the quad `(1, 0)`: the row `y = 0` is one layer up and the corners `(1, 0)`, `(1, 1)`,
`(1, 2)` carry the `ramp` flag. -/
def ramp_grid : Terrain :=
  { Terrain.fresh with
    width := 4
    height := 4
    tileset_ids := [cstr "Ldrt", cstr "Lgrs"]
    cliffset_ids := [cstr "CLdi"]
    corners := fun x y =>
      { Corner.zero with
        layer_height := if y = 0 then 1 else 0
        ramp := decide (x = 1 ∧ 0 ≤ y ∧ y ≤ 2) } }

/-- The terrain `create` makes of `ramp_grid`, after an edit that takes the `ramp` flag off the
corner `(1, 2)` and recomputes the cliff meshes over the one-cell area of that corner. -/
def ramp_removed : Terrain :=
  update_cliff_meshes ramp_env
    { create ramp_env ramp_grid with
      corners := set_corner (create ramp_env ramp_grid).corners 1 2
        { (create ramp_env ramp_grid).corners 1 2 with ramp := false } }
    (QRect.make 1 2 1 1)

/-- The terrain `ramp_removed` after `new_undo_group` and an edit that raises the corner
`(2, 1)`. -/
def ramp_edited : Terrain :=
  { new_undo_group ramp_removed with
    corners := set_corner ramp_removed.corners 2 1
      { ramp_removed.corners 2 1 with layer_height := 1 } }

/-- The rectangle of the corners `(1, 0) .. (2, 1)`. -/
def ramp_edit_area : QRect := QRect.make 1 0 2 2

/-! ## Branch conditions, access lists and further example inputs -/

/-- The condition under which the block "Vertical ramps" builds a mesh name at quad `(i, j)`:
row `j + 2` exists, the layer heights step uniformly and the `ramp` flags split by column. -/
def vertical_ramp_matches (t : Terrain) (i j : Int) : Prop :=
  j < t.height - 2
  ∧ ((t.corners i (j + 1)).layer_height
        = min (t.corners i j).layer_height (t.corners i (j + 2)).layer_height
    ∧ (t.corners (i + 1) (j + 1)).layer_height
        = min (t.corners (i + 1) j).layer_height (t.corners (i + 1) (j + 2)).layer_height)
  ∧ ((t.corners i j).ramp = (t.corners i (j + 1)).ramp
    ∧ (t.corners i j).ramp = (t.corners i (j + 2)).ramp
    ∧ (t.corners (i + 1) j).ramp = (t.corners (i + 1) (j + 1)).ramp
    ∧ (t.corners (i + 1) j).ramp = (t.corners (i + 1) (j + 2)).ramp
    ∧ (t.corners i j).ramp ≠ (t.corners (i + 1) j).ramp)

instance (t : Terrain) (i j : Int) : Decidable (vertical_ramp_matches t i j) := by
  unfold vertical_ramp_matches
  infer_instance

/-- The file name the block "Vertical ramps" computes at quad `(i, j)`. -/
def vertical_ramp_name (t : Terrain) (i j : Int) : CString :=
  let base := min (min (t.corners i j).layer_height (t.corners i (j + 2)).layer_height)
    (min (t.corners (i + 1) j).layer_height (t.corners (i + 1) (j + 2)).layer_height)
  cstr "doodads/terrain/clifftrans/clifftrans"
    ++ [ramp_char (t.corners i (j + 2)) base, ramp_char (t.corners (i + 1) (j + 2)) base,
      ramp_char (t.corners (i + 1) j) base, ramp_char (t.corners i j) base]
    ++ cstr "0.mdx"

/-- The condition under which the block "Horizontal ramps" builds a mesh name at quad `(i, j)`:
column `i + 2` exists, the layer heights step uniformly and the `ramp` flags split by row. -/
def horizontal_ramp_matches (t : Terrain) (i j : Int) : Prop :=
  i < t.width - 2
  ∧ ((t.corners (i + 1) j).layer_height
        = min (t.corners i j).layer_height (t.corners (i + 2) j).layer_height
    ∧ (t.corners (i + 1) (j + 1)).layer_height
        = min (t.corners i (j + 1)).layer_height (t.corners (i + 2) (j + 1)).layer_height)
  ∧ ((t.corners i j).ramp = (t.corners (i + 1) j).ramp
    ∧ (t.corners i j).ramp = (t.corners (i + 2) j).ramp
    ∧ (t.corners i (j + 1)).ramp = (t.corners (i + 1) (j + 1)).ramp
    ∧ (t.corners i (j + 1)).ramp = (t.corners (i + 2) (j + 1)).ramp
    ∧ (t.corners i j).ramp ≠ (t.corners i (j + 1)).ramp)

instance (t : Terrain) (i j : Int) : Decidable (horizontal_ramp_matches t i j) := by
  unfold horizontal_ramp_matches
  infer_instance

/-- The file name the block "Horizontal ramps" computes at quad `(i, j)`. -/
def horizontal_ramp_name (t : Terrain) (i j : Int) : CString :=
  let base := min (min (t.corners i j).layer_height (t.corners (i + 2) j).layer_height)
    (min (t.corners i (j + 1)).layer_height (t.corners (i + 2) (j + 1)).layer_height)
  cstr "doodads/terrain/clifftrans/clifftrans"
    ++ [ramp_char (t.corners i (j + 1)) base, ramp_char (t.corners (i + 2) (j + 1)) base,
      ramp_char (t.corners (i + 2) j) base, ramp_char (t.corners i j) base]
    ++ cstr "0.mdx"

/-- The key under which the plain-cliff branch looks up the mesh of quad `(i, j)`: the four
letters followed by the clamped variation. -/
def cliff_key (t : Terrain) (i j : Int) : CString :=
  cliff_letters t i j ++ to_string (clamp (t.corners i j).cliff_variation 0
    (StrMap.index t.cliff_variations (cliff_letters t i j)).1)

/-- A 4 x 4 grid with the tiles `Ldrt`, `Lgrs` and one cliff texture and with a horizontal
ramp at the quad `(0, 1)`: the column `x = 0` is one layer up and the corners `(0, 1)`,
`(1, 1)`, `(2, 1)` carry the `ramp` flag. -/
def ramp_grid_h : Terrain :=
  { Terrain.fresh with
    width := 4
    height := 4
    tileset_ids := [cstr "Ldrt", cstr "Lgrs"]
    cliffset_ids := [cstr "CLdi"]
    corners := fun x y =>
      { Corner.zero with
        layer_height := if x = 0 then 1 else 0
        ramp := decide (y = 1 ∧ 0 ≤ x ∧ x ≤ 2) } }

/-- An asset store without ramp meshes whose `Cliffs.slk` has the rows `BAAA` and `BBBA`, each
with the single variation 0. -/
def env_bbba : Assets :=
  { env0 with cliffs_variation_slk := [(cstr "BAAA", 0), (cstr "BBBA", 0)] }

/-- A 2 x 2 grid with the tiles `Ldrt`, `Lgrs` and one cliff texture whose bottom-left corner
`(0, 0)` has layer height 0 and whose other three corners have layer height 1, without ramp
flags. -/
def lower_bottom_left2 : Terrain :=
  { Terrain.fresh with
    width := 2
    height := 2
    tileset_ids := [cstr "Ldrt", cstr "Lgrs"]
    cliffset_ids := [cstr "CLdi"]
    corners := fun x y =>
      if x = 0 ∧ y = 0 then Corner.zero else { Corner.zero with layer_height := 1 } }

/-- An asset store without ramp meshes whose `Cliffs.slk` has the single row `AABA`. -/
def env_aaba : Assets :=
  { env0 with cliffs_variation_slk := [(cstr "AABA", 0)] }

/-- The corners a position `p` may name: those inside the grid of `t`. -/
def in_grid (t : Terrain) (p : Int × Int) : Prop :=
  (0 ≤ p.1 ∧ p.1 < t.width) ∧ (0 ≤ p.2 ∧ p.2 < t.height)

instance (t : Terrain) (p : Int × Int) : Decidable (in_grid t p) := by
  unfold in_grid
  infer_instance

/-- The index pairs `[x][y]` at which `is_corner_ramp_entrance(x, y)` subscripts `corners`:
none after the early return, else the four references it binds. -/
def is_corner_ramp_entrance_accesses (t : Terrain) (x y : Int) : List (Int × Int) :=
  if x = t.width ∨ y = t.height then []
  else [(x, y), (x + 1, y), (x, y + 1), (x + 1, y + 1)]

/-- A 2 x 2 grid; the total map also holds, beyond the grid, corners with the `ramp` flag whose
layer height grows with `x`, standing for whatever lies behind the vectors. -/
def overrun2 : Terrain :=
  { Terrain.fresh with
    width := 2
    height := 2
    corners := fun x _ => { Corner.zero with ramp := true, layer_height := x } }

/-- The read `tiles[component]` of a `glm::u16vec4`. -/
def U16Vec4.get (tiles : U16Vec4) (component : Nat) : Nat :=
  match component with
  | 0 => tiles.x
  | 1 => tiles.y
  | 2 => tiles.z
  | _ => tiles.w

/-- The locals `bottom_left`, `bottom_right`, `top_left`, `top_right` of
`get_texture_variations(x, y)`, in the order of the initializer list of its `std::set`. -/
def quad_textures (t : Terrain) (x y : Int) : List Int :=
  [real_tile_texture t x y, real_tile_texture t (x + 1) y, real_tile_texture t x (y + 1),
    real_tile_texture t (x + 1) (y + 1)]

/-- A 2 x 2 grid without cliffs whose bottom-right corner has ground texture 3 and whose other
corners have ground texture 1. -/
def two_textures : Terrain :=
  { Terrain.fresh with
    width := 2
    height := 2
    ground_textures := [false, false, false, false]
    corners := fun x y =>
      if x = 1 ∧ y = 0 then { Corner.zero with ground_texture := 3 }
      else { Corner.zero with ground_texture := 1 } }

/-- The corners `(x + i, y + j)` that the search loop of `real_tile_texture(x, y)` visits, in
loop order. -/
def texture_window (x y : Int) : List (Int × Int) :=
  (rect_xy (-1) 1 (-1) 1).map (fun p => (x + p.1, y + p.2))

/-- The test of `real_tile_texture` that ends the search at the corner `(a, b)`: the corner is
inside the grid and carries `romp` or `cliff`. -/
def ends_search (t : Terrain) (a b : Int) : Bool :=
  decide (a ≥ 0 ∧ a < t.width ∧ b ≥ 0 ∧ b < t.height)
    && ((t.corners a b).romp || (t.corners a b).cliff)

/-- The test of `real_tile_texture` that leads to `goto out_of_loop` at the corner `(a, b)`: the
corner is a cliff, it is the origin of a quad, and the four corners of that quad all carry
`ramp` and none carries `romp`. -/
def entrance_cliff (t : Terrain) (a b : Int) : Bool :=
  (t.corners a b).cliff && decide (a < t.width - 1 ∧ b < t.height - 1)
    && ((t.corners a b).ramp && (t.corners a (b + 1)).ramp && (t.corners (a + 1) b).ramp
      && (t.corners (a + 1) (b + 1)).ramp && !(t.corners a b).romp && !(t.corners (a + 1) b).romp
      && !(t.corners a (b + 1)).romp && !(t.corners (a + 1) (b + 1)).romp)

/-- The value `cliff_to_ground_texture[texture]` that `real_tile_texture` returns for the
`cliff_texture` of the corner `(a, b)`, where 15 is read as 1. -/
def cliff_ground_texture (t : Terrain) (a b : Int) : Int :=
  t.cliff_to_ground_texture.getD
    (if (t.corners a b).cliff_texture = 15 then (t.corners a b).cliff_texture - 14
      else (t.corners a b).cliff_texture).toNat 0

/-- The value `real_tile_texture(x, y)` returns after the label `out_of_loop`. -/
def own_texture (t : Terrain) (x y : Int) : Int :=
  if (t.corners x y).blight then t.blight_texture else (t.corners x y).ground_texture

/-- An asset store without ramp meshes whose cliff textures all name the ground tile `Lgrs`. -/
def entrance_env : Assets :=
  { env0 with cliff_groundtile := fun _ => cstr "Lgrs" }

/-- A 3 x 3 grid with the tiles `Ldrt`, `Lgrs` and one cliff texture, whose corners `(0, 0)` and
`(2, 2)` are one layer up and whose corners `(0, 0)`, `(1, 0)`, `(0, 1)`, `(1, 1)` carry the
`ramp` flag. -/
def entrance_grid : Terrain :=
  { Terrain.fresh with
    width := 3
    height := 3
    tileset_ids := [cstr "Ldrt", cstr "Lgrs"]
    cliffset_ids := [cstr "CLdi"]
    corners := fun x y =>
      { Corner.zero with
        layer_height := if (x = 0 ∧ y = 0) ∨ (x = 2 ∧ y = 2) then 1 else 0
        ramp := decide (0 ≤ x ∧ x ≤ 1 ∧ 0 ≤ y ∧ y ≤ 1) } }

/-- Modelled from the spec: the function `split` of `Utilities.h` (not among the sources), which
cuts a value at every delimiter; it instantiates the parameter `split` in the example inputs. -/
def split_on (value : CString) (delimiter : Nat) : List CString :=
  getlines (value.map (fun c => if c = delimiter then 10 else c))

/-- The value of a key/value line after the `'\r'` at its end, if any, is taken off. -/
def line_value (line : CString) (found : Nat) : CString :=
  if (line.drop (found + 1)).getLast? = some 13 then (line.drop (found + 1)).dropLast
  else line.drop (found + 1)

/-- A file whose section `s` is followed by a line that begins with `;` and a key/value line. -/
def semicolon_file : List Nat := cstr "[s]\n;a=b\nc=d\n"

/-- A file that names the section `a` a second time after the section `b`. -/
def repeated_file : List Nat := cstr "[a]\nx=1\n[b]\ny=2\n[a]\nz=3\n"

/-- The value `index.to_ulong()` that the loop of `get_texture_variations(x, y)` computes for
`texture`: bit 0 for `bottom_right`, bit 1 for `bottom_left`, bit 2 for `top_right`, bit 3 for
`top_left`. -/
def blend_mask (t : Terrain) (x y : Int) (texture : Int) : Int :=
  b2i (real_tile_texture t (x + 1) y == texture) + 2 * b2i (real_tile_texture t x y == texture)
    + 4 * b2i (real_tile_texture t (x + 1) (y + 1) == texture)
    + 8 * b2i (real_tile_texture t x (y + 1) == texture)

/-- The effective texture of the corner that bit `bit` of a blend mask stands for. -/
def mask_corner (t : Terrain) (x y : Int) (bit : Nat) : Int :=
  match bit with
  | 0 => real_tile_texture t (x + 1) y
  | 1 => real_tile_texture t x y
  | 2 => real_tile_texture t (x + 1) (y + 1)
  | _ => real_tile_texture t x (y + 1)

/-- The bit `bit` of a mask. -/
def test_bit (mask : Int) (bit : Nat) : Bool := decide (mask / 2 ^ bit % 2 = 1)

/-- A 2 x 2 grid without cliffs whose bottom-left corner has ground texture 3 and ground
variation 1 and whose other corners have ground texture 1 and ground variation 0. -/
def base_elsewhere : Terrain :=
  { Terrain.fresh with
    width := 2
    height := 2
    ground_textures := [false, false, false, false]
    corners := fun x y =>
      if x = 0 ∧ y = 0 then { Corner.zero with ground_texture := 3, ground_variation := 1 }
      else { Corner.zero with ground_texture := 1 } }

/-- The tables of the cliff identifiers held in a `Terrain`. -/
def Terrain.cliff_tables (t : Terrain) : StrMap × StrMap := (t.cliff_variations, t.path_to_cliff)

/-- The tables `cliff_variations` and `path_to_cliff` of `s` hold every entry that those of `s0`
hold, with the same value. -/
def tables_extend (s0 s : Terrain) : Prop :=
  (∀ (k : CString) (v : Int),
      s0.cliff_variations.lookup k = some v → s.cliff_variations.lookup k = some v)
  ∧ (∀ (k : CString) (v : Int),
      s0.path_to_cliff.lookup k = some v → s.path_to_cliff.lookup k = some v)

/-- The tables after processing rows of `Cliffs.slk`: every entry of `cliff_variations` is a
processed row, its keys are registered, and every processed row has an entry. -/
def registered (rows : List (CString × Int)) (t : Terrain) : Prop :=
  (∀ (n : CString) (c : Int), t.cliff_variations.lookup n = some c →
      (n, c) ∈ rows ∧ ∀ k : Int, 0 ≤ k → k ≤ c →
        StrMap.contains t.path_to_cliff (n ++ to_string k) = true)
  ∧ (∀ row ∈ rows, StrMap.contains t.cliff_variations row.1 = true)

/-- A 4 x 4 grid with the tiles `Ldrt`, `Lgrs` and one cliff texture, whose corner `(2, 1)` is one
layer up and whose corners `(1, 0)`, `(1, 1)`, `(2, 1)` carry the `ramp` flag. -/
def stale_grid : Terrain :=
  { Terrain.fresh with
    width := 4
    height := 4
    tileset_ids := [cstr "Ldrt", cstr "Lgrs"]
    cliffset_ids := [cstr "CLdi"]
    corners := fun x y =>
      { Corner.zero with
        layer_height := if x = 2 ∧ y = 1 then 1 else 0
        ramp := decide ((x = 1 ∧ y = 0) ∨ (x = 1 ∧ y = 1) ∨ (x = 2 ∧ y = 1)) } }

/-- The terrain `create` makes of `stale_grid`, after `new_undo_group` and an edit that sets the
`ramp` flag of the corner `(2, 0)`. -/
def stale_edited : Terrain :=
  { new_undo_group (create entrance_env stale_grid) with
    corners := set_corner (create entrance_env stale_grid).corners 2 0
      { (create entrance_env stale_grid).corners 2 0 with ramp := true } }

/-- The one-cell rectangle of the corner `(2, 0)`. -/
def stale_area : QRect := QRect.make 2 0 1 1

/-- The quads `(i, j)` of a 4 x 4 grid. -/
def quads4 : List (Int × Int) := rect_xy 0 3 0 3

/-- A 4 x 4 grid with the tiles `Ldrt`, `Lgrs` and one cliff texture, flat except for the
corner `(0, 2)` that is one layer up. -/
def exists_grid : Terrain :=
  { Terrain.fresh with
    width := 4
    height := 4
    tileset_ids := [cstr "Ldrt", cstr "Lgrs"]
    cliffset_ids := [cstr "CLdi"]
    corners := fun x y =>
      if x = 0 ∧ y = 2 then { Corner.zero with layer_height := 1 } else Corner.zero }

/-- A flat 3 x 3 grid without `ramp` flags whose corner `(1, 1)` holds the `romp` flag `b`. -/
def romp_grid (b : Bool) : Terrain :=
  { Terrain.fresh with
    width := 3
    height := 3
    corners := fun x y => if x = 1 ∧ y = 1 then { Corner.zero with romp := b } else Corner.zero }

/-- An asset store without ramp meshes whose `Cliffs.slk` has the single row `ABAA`. -/
def env_abaa : Assets :=
  { env0 with cliffs_variation_slk := [(cstr "ABAA", 0)] }

/-- A 5 x 5 grid with the tiles `Ldrt`, `Lgrs` and one cliff texture, flat except for the
corner `(4, 4)` that is one layer up. -/
def far_cliff5 : Terrain :=
  { Terrain.fresh with
    width := 5
    height := 5
    tileset_ids := [cstr "Ldrt", cstr "Lgrs"]
    cliffset_ids := [cstr "CLdi"]
    corners := fun x y =>
      if x = 4 ∧ y = 4 then { Corner.zero with layer_height := 1 } else Corner.zero }

/-- The placements of `t` all name a quad of the grid of `t`. -/
def cliffs_in_grid (t : Terrain) : Prop :=
  ∀ pos ∈ t.cliffs, (0 ≤ pos.1 ∧ pos.1 < t.width - 1) ∧ (0 ≤ pos.2.1 ∧ pos.2.1 < t.height - 1)

instance (t : Terrain) : Decidable (cliffs_in_grid t) := by
  unfold cliffs_in_grid
  exact inferInstance

/-! ## Texture tables that cover the grid -/

/-- The subscript at which `real_tile_texture` reads `cliff_to_ground_texture` for a corner:
its `cliff_texture`, with 15 read as 1. -/
def cliff_texture_index (c : Corner) : Int :=
  if c.cliff_texture = 15 then c.cliff_texture - 14 else c.cliff_texture

/-- The texture tables cover the grid: for every corner of the grid, `ground_texture` is a
subscript of `ground_textures` and the cliff texture subscript is one of
`cliff_to_ground_texture`; `blight_texture` and the entries of `cliff_to_ground_texture` are
subscripts of `ground_textures`. -/
def tables_cover (t : Terrain) : Prop :=
  (∀ x y : Int, 0 ≤ x → x < t.width → 0 ≤ y → y < t.height →
      (0 ≤ (t.corners x y).ground_texture
        ∧ (t.corners x y).ground_texture < (t.ground_textures.length : Int))
      ∧ (0 ≤ cliff_texture_index (t.corners x y)
        ∧ cliff_texture_index (t.corners x y) < (t.cliff_to_ground_texture.length : Int)))
  ∧ (0 ≤ t.blight_texture ∧ t.blight_texture < (t.ground_textures.length : Int))
  ∧ ∀ v ∈ t.cliff_to_ground_texture, 0 ≤ v ∧ v < (t.ground_textures.length : Int)

/-- The texture tables that `create` fills and the later updates read. -/
def Terrain.texture_tables (t : Terrain) : List Bool × StrMap × Int × List Int :=
  (t.ground_textures, t.ground_texture_to_id, t.blight_texture, t.cliff_to_ground_texture)

/-- Every texture index held in `ground_texture_to_id` and `cliff_to_ground_texture` names an
entry of `ground_textures`. -/
def tables_consistent (t : Terrain) : Prop :=
  (∀ kv ∈ t.ground_texture_to_id, 0 ≤ kv.2 ∧ kv.2 < (t.ground_textures.length : Int))
  ∧ ∀ v ∈ t.cliff_to_ground_texture, 0 ≤ v ∧ v < (t.ground_textures.length : Int)

/-- Every corner of the grid names a ground texture and a cliff type that `create` loads:
`ground_texture` is at most the number of tile ids, which is the index of the blight texture,
and the index that `real_tile_texture` makes of `cliff_texture` is below the number of cliff
ids.  The entries that the tables hold before `create` are counted as well. -/
def palette_covers (t : Terrain) : Prop :=
  ∀ p ∈ rect_xy 0 t.width 0 t.height,
    (0 ≤ (t.corners p.1 p.2).ground_texture
      ∧ (t.corners p.1 p.2).ground_texture
        ≤ ((t.ground_textures.length + t.tileset_ids.length : Nat) : Int))
    ∧ (0 ≤ cliff_texture_index (t.corners p.1 p.2)
      ∧ cliff_texture_index (t.corners p.1 p.2)
        < ((t.cliff_to_ground_texture.length + t.cliffset_ids.length : Nat) : Int))

instance palette_covers_decidable (t : Terrain) : Decidable (palette_covers t) :=
  List.decidableBAll _ _

instance tables_consistent_decidable (t : Terrain) : Decidable (tables_consistent t) :=
  instDecidableAnd

/-! ## What a checked run returns -/

/-- The checked run `x`, when it returns at all, returns the value `a`: the link from a function
with checked subscripts back to the function with total subscripts. -/
def returns_only {α : Type} (x : Option α) (a : α) : Prop := ∀ r, x = some r → r = a

/-! # Properties -/

set_option maxRecDepth 100000

/-! ## General lemmas -/

theorem foldl_preserves {σ α β : Type} (proj : σ → β) (f : σ → α → σ)
    (h : ∀ s a, proj (f s a) = proj s) (l : List α) (s : σ) :
    proj (l.foldl f s) = proj s := by
  induction l generalizing s with
  | nil => rfl
  | cons a l ih => rw [List.foldl_cons, ih, h]

/-- The function create is the state `create_tables` followed by the three recomputation calls
over the whole grid. -/
theorem create_of_create_tables (env : Assets) (t : Terrain) :
    create env t =
      (let s := create_tables env t
      let s := update_cliff_meshes env s (QRect.make 0 0 (s.width - 1) (s.height - 1))
      let s := update_ground_textures s (QRect.make 0 0 (s.width - 1) (s.height - 1))
      update_ground_heights s (QRect.make 0 0 (s.width - 1) (s.height - 1))) :=
  rfl

/-! ## The "AAAA" identifier -/

/-- C9: in the plain-cliff branch of update_cliff_meshes a quad whose four letters are "AAAA" adds
no placement, and a quad whose four corners have the same layer_height has the letters "AAAA";
so the plain-cliff branch adds no placement for a quad of uniform layer_height. -/
theorem plain_cliff_uniform_no_placement (t : Terrain) (i j : Int) :
    (cliff_letters t i j = cstr "AAAA" → (plain_cliff t i j).cliffs = t.cliffs)
    ∧ ((t.corners i j).layer_height = (t.corners (i + 1) j).layer_height
        ∧ (t.corners i j).layer_height = (t.corners i (j + 1)).layer_height
        ∧ (t.corners i j).layer_height = (t.corners (i + 1) (j + 1)).layer_height →
      cliff_letters t i j = cstr "AAAA" ∧ (plain_cliff t i j).cliffs = t.cliffs) := by
  have h1 : cliff_letters t i j = cstr "AAAA" → (plain_cliff t i j).cliffs = t.cliffs := by
    intro h
    unfold plain_cliff
    simp only [h]
    split_ifs <;> rfl
  refine ⟨h1, ?_⟩
  rintro ⟨hr, hl, hd⟩
  have h2 : cliff_letters t i j = cstr "AAAA" := by
    unfold cliff_letters
    simp only [← hr, ← hl, ← hd, min_self]
    have : (65 : Int) + (t.corners i j).layer_height - (t.corners i j).layer_height = 65 := by
      omega
    rw [this]
    decide
  exact ⟨h2, h1 h2⟩

theorem map_mod_bytes (l : List Nat) (hb : ∀ b ∈ l, b < 256) : l.map (fun b => b % 256) = l := by
  induction l with
  | nil => rfl
  | cons a l ih =>
    simp only [List.map_cons]
    rw [ih (fun b hb2 => hb b (List.mem_cons_of_mem _ hb2)),
      Nat.mod_eq_of_lt (hb a (List.mem_cons_self _ _))]

/-! ## The magic number -/

/-- C3: on a buffer of bytes that has its first 4 bytes, load returns false if and only if these
bytes are not the literal "W3E!", and when it returns false the whole Terrain (width, height, the
tileset and cliffset id lists, corners) is exactly what it was before the call. -/
theorem load_fails_iff_bad_magic (env : Assets) (t : Terrain) (buffer : List Nat)
    (hbytes : ∀ b ∈ buffer, b < 256) (hlen : 4 ≤ buffer.length) :
    ((∃ t1, load env t buffer = some (false, t1)) ↔ buffer.take 4 ≠ cstr "W3E!")
    ∧ (∀ t1, load env t buffer = some (false, t1) → t1 = t) := by
  have hm : (buffer.take 4).map (fun b => b % 256) = buffer.take 4 :=
    map_mod_bytes _ (fun b hb => hbytes b (List.mem_of_mem_take hb))
  have hr : read_string 4 buffer = some (buffer.take 4, buffer.drop 4) := by
    simp [read_string, hlen, hm]
  by_cases hmagic : buffer.take 4 = cstr "W3E!"
  · have hl : load env t buffer = (load_parse t (buffer.drop 4)).bind
        (fun t2 => some (true, create env t2)) := by
      simp [load, hr, hmagic]
    rw [hl]
    constructor
    · constructor
      · rintro ⟨t1, h⟩
        cases hp : load_parse t (buffer.drop 4) <;> simp [hp] at h
      · intro h; exact absurd hmagic h
    · intro t1 h
      cases hp : load_parse t (buffer.drop 4) <;> simp [hp] at h
  · have hl : load env t buffer = some (false, t) := by
      simp [load, hr, hmagic]
    rw [hl]
    constructor
    · exact ⟨fun _ => hmagic, fun _ => ⟨t, rfl⟩⟩
    · intro t1 h
      simp at h
      exact h.symm

/-! ## Loops over rectangles -/

theorem mem_irange (lo hi k : Int) : k ∈ irange lo hi ↔ lo ≤ k ∧ k < hi := by
  unfold irange
  simp only [List.mem_map, List.mem_range]
  constructor
  · rintro ⟨n, hn, rfl⟩
    constructor <;> omega
  · rintro ⟨h1, h2⟩
    refine ⟨(k - lo).toNat, ?_, ?_⟩ <;> omega

theorem mem_rect_xy (x0 x1 y0 y1 : Int) (p : Int × Int) :
    p ∈ rect_xy x0 x1 y0 y1 ↔ (x0 ≤ p.1 ∧ p.1 < x1) ∧ (y0 ≤ p.2 ∧ p.2 < y1) := by
  obtain ⟨a, b⟩ := p
  unfold rect_xy
  simp only [List.mem_flatMap, List.mem_map, mem_irange, Prod.mk.injEq]
  constructor
  · rintro ⟨i, hi, j, hj, rfl, rfl⟩
    exact ⟨hi, hj⟩
  · rintro ⟨hi, hj⟩
    exact ⟨a, hi, b, hj, rfl, rfl⟩

theorem mem_rect_yx (x0 x1 y0 y1 : Int) (p : Int × Int) :
    p ∈ rect_yx x0 x1 y0 y1 ↔ (x0 ≤ p.1 ∧ p.1 < x1) ∧ (y0 ≤ p.2 ∧ p.2 < y1) := by
  obtain ⟨a, b⟩ := p
  unfold rect_yx
  simp only [List.mem_flatMap, List.mem_map, mem_irange, Prod.mk.injEq]
  constructor
  · rintro ⟨j, hj, i, hi, rfl, rfl⟩
    exact ⟨hi, hj⟩
  · rintro ⟨hi, hj⟩
    exact ⟨b, hj, a, hi, rfl, rfl⟩

theorem set_corner_same (g : Int → Int → Corner) (i j : Int) (c : Corner) :
    set_corner g i j c i j = c := by
  simp [set_corner]

theorem set_corner_other (g : Int → Int → Corner) (i j x y : Int) (c : Corner)
    (h : ¬ (x = i ∧ y = j)) : set_corner g i j c x y = g x y := by
  simp [set_corner, h]

theorem foldl_corners (f : Terrain → Int × Int → Terrain)
    (G : (Int → Int → Corner) → Int × Int → (Int → Int → Corner))
    (h : ∀ s p, (f s p).corners = G s.corners p) (ps : List (Int × Int)) (s : Terrain) :
    (ps.foldl f s).corners = ps.foldl G s.corners := by
  induction ps generalizing s with
  | nil => rfl
  | cons p ps ih => rw [List.foldl_cons, List.foldl_cons, ih, h]

/-- A loop that rewrites each visited corner by a function of the position and the corner. -/
theorem foldl_set_corner (v : Int × Int → Corner → Corner)
    (hv : ∀ p c, v p (v p c) = v p c) (ps : List (Int × Int)) (g : Int → Int → Corner)
    (x y : Int) :
    (ps.foldl (fun g p => set_corner g p.1 p.2 (v p (g p.1 p.2))) g) x y
      = if (x, y) ∈ ps then v (x, y) (g x y) else g x y := by
  induction ps generalizing g with
  | nil => simp
  | cons p ps ih =>
    rw [List.foldl_cons, ih]
    obtain ⟨i, j⟩ := p
    by_cases hp : x = i ∧ y = j
    · obtain ⟨rfl, rfl⟩ := hp
      simp [set_corner_same, hv]
    · have hne : ¬ ((x, y) = (i, j)) := by
        intro h
        exact hp (by simpa using h)
      simp [set_corner_other _ _ _ _ _ _ hp, hne]

/-! ## The cliff flag -/

theorem quad_is_cliff_congr (g g0 : Int → Int → Corner)
    (h : ∀ x y, (g x y).layer_height = (g0 x y).layer_height) (i j : Int) :
    quad_is_cliff g i j = quad_is_cliff g0 i j := by
  simp [quad_is_cliff, h]

theorem determine_cliffs_grid (g0 : Int → Int → Corner) (ps : List (Int × Int))
    (g : Int → Int → Corner) (h : ∀ x y, (g x y).layer_height = (g0 x y).layer_height)
    (x y : Int) :
    (ps.foldl (fun g p =>
        set_corner g p.1 p.2 { g p.1 p.2 with cliff := quad_is_cliff g p.1 p.2 }) g) x y
      = if (x, y) ∈ ps then { g x y with cliff := quad_is_cliff g0 x y } else g x y := by
  induction ps generalizing g with
  | nil => simp
  | cons p ps ih =>
    obtain ⟨i, j⟩ := p
    rw [List.foldl_cons, ih]
    · by_cases hp : x = i ∧ y = j
      · obtain ⟨rfl, rfl⟩ := hp
        simp [set_corner_same, quad_is_cliff_congr g g0 h]
      · have hne : ¬ ((x, y) = (i, j)) := by
          intro h
          exact hp (by simpa using h)
        simp [set_corner_other _ _ _ _ _ _ hp, hne]
    · intro a b
      by_cases hp : a = i ∧ b = j
      · obtain ⟨rfl, rfl⟩ := hp
        simp [set_corner_same, h]
      · simp [set_corner_other _ _ _ _ _ _ hp, h]

theorem determine_cliffs_corners (t : Terrain) (x y : Int) :
    (determine_cliffs t).corners x y
      = if (0 ≤ x ∧ x < t.width - 1) ∧ (0 ≤ y ∧ y < t.height - 1)
        then { t.corners x y with cliff := quad_is_cliff t.corners x y } else t.corners x y := by
  unfold determine_cliffs
  rw [foldl_corners _ (fun g p =>
        set_corner g p.1 p.2 { g p.1 p.2 with cliff := quad_is_cliff g p.1 p.2 }) (fun s p => rfl),
    determine_cliffs_grid t.corners _ _ (fun _ _ => rfl)]
  simp only [mem_rect_xy]

theorem determine_cliffs_header (t : Terrain) : (determine_cliffs t).header = t.header := by
  unfold determine_cliffs
  apply foldl_preserves Terrain.header
  intro s p
  rfl

/-! ## Frame properties of the recomputation steps -/

theorem update_ground_heights_stored (t : Terrain) (area : QRect) :
    (update_ground_heights t area).stored = t.stored := by
  unfold update_ground_heights
  apply foldl_preserves Terrain.stored
  intro s p
  rfl

theorem update_ground_textures_stored (t : Terrain) (area : QRect) :
    (update_ground_textures t area).stored = t.stored := by
  unfold update_ground_textures
  apply foldl_preserves Terrain.stored
  intro s p
  rfl

theorem update_ground_exists_stored (t : Terrain) (area : QRect) :
    (update_ground_exists t area).stored = t.stored := by
  unfold update_ground_exists
  apply foldl_preserves Terrain.stored
  intro s p
  rfl

theorem update_water_stored (t : Terrain) (area : QRect) :
    (update_water t area).stored = t.stored := by
  unfold update_water
  apply foldl_preserves Terrain.stored
  intro s p
  rfl

theorem fill_mirrors_stored (t : Terrain) : (fill_mirrors t).stored = t.stored := by
  unfold fill_mirrors
  apply foldl_preserves Terrain.stored
  intro s p
  rfl

theorem load_cliff_meshes_stored (env : Assets) (t : Terrain) :
    (load_cliff_meshes env t).stored = t.stored := by
  unfold load_cliff_meshes
  apply foldl_preserves Terrain.stored
  intro s row
  show Terrain.stored (List.foldl _ s _) = _
  apply foldl_preserves Terrain.stored
  intro s2 j
  rfl

theorem load_ground_textures_stored (env : Assets) (t : Terrain) :
    (load_ground_textures env t).stored = t.stored := by
  unfold load_ground_textures
  have h1 : ∀ s : Terrain, (t.tileset_ids.foldl (fun t tile_id =>
      { t with
        ground_textures := t.ground_textures ++ [env.tile_extended tile_id]
        ground_texture_to_id := StrMap.emplace t.ground_texture_to_id tile_id
          (((t.ground_textures.length + 1 : Nat) : Int) - 1) }) s).stored = s.stored := by
    intro s
    apply foldl_preserves Terrain.stored
    intro s2 p
    rfl
  simp only []
  rw [foldl_preserves Terrain.stored]
  · exact h1 t
  · intro s c
    rfl

theorem stored_no_romp_of_stored (s t : Terrain) (h : s.stored = t.stored) :
    s.stored_no_romp = t.stored_no_romp := by
  simp only [Terrain.stored, Prod.mk.injEq] at h
  simp only [Terrain.stored_no_romp, h.1, h.2.1, h.2.2.1]

theorem place_ramp_stored_no_romp (t : Terrain) (i j i2 j2 : Int) (file_name : CString) :
    (place_ramp t i j i2 j2 file_name).stored_no_romp = t.stored_no_romp := by
  unfold place_ramp
  simp only [Terrain.stored_no_romp, Terrain.header, Prod.mk.injEq]
  refine ⟨?_, ?_, ?_⟩
  · split_ifs <;> rfl
  · funext x y
    split_ifs <;> simp only [set_corner] <;> split_ifs <;> simp_all [no_romp]
  · split_ifs <;> rfl

theorem plain_cliff_stored_no_romp (t : Terrain) (i j : Int) :
    (plain_cliff t i j).stored_no_romp = t.stored_no_romp := by
  unfold plain_cliff
  simp only []
  split_ifs <;> rfl

theorem cliff_quad_stored_no_romp (env : Assets) (t : Terrain) (i j : Int) :
    (cliff_quad env t i j).stored_no_romp = t.stored_no_romp := by
  unfold cliff_quad
  cases hv : vertical_ramp env t i j with
  | some t1 =>
    simp only []
    unfold vertical_ramp at hv
    simp only [] at hv
    split_ifs at hv
    all_goals (cases hv; exact place_ramp_stored_no_romp _ _ _ _ _ _)
  | none =>
    simp only []
    cases hh : horizontal_ramp env t i j with
    | some t1 =>
      simp only []
      unfold horizontal_ramp at hh
      simp only [] at hh
      split_ifs at hh
      all_goals (cases hh; exact place_ramp_stored_no_romp _ _ _ _ _ _)
    | none => exact plain_cliff_stored_no_romp t i j

theorem clear_romp_stored_no_romp (t : Terrain) (area : QRect) :
    (clear_romp t area).stored_no_romp = t.stored_no_romp := by
  unfold clear_romp
  apply foldl_preserves Terrain.stored_no_romp
  intro s p
  simp only [Terrain.stored_no_romp, Terrain.header, Prod.mk.injEq, true_and, and_true]
  funext x y
  simp only [set_corner]
  split_ifs <;> simp_all [no_romp]

theorem add_cliff_meshes_stored_no_romp (env : Assets) (t : Terrain) (area : QRect) :
    (add_cliff_meshes env t area).stored_no_romp = t.stored_no_romp := by
  unfold add_cliff_meshes
  apply foldl_preserves Terrain.stored_no_romp
  intro s p
  exact cliff_quad_stored_no_romp env s p.1 p.2

theorem update_cliff_meshes_stored_no_romp (env : Assets) (t : Terrain) (area : QRect) :
    (update_cliff_meshes env t area).stored_no_romp = t.stored_no_romp := by
  unfold update_cliff_meshes
  simp only []
  rw [stored_no_romp_of_stored _ _ (update_ground_exists_stored _ _),
    add_cliff_meshes_stored_no_romp, clear_romp_stored_no_romp]
  rfl

theorem recompute_all_stored_no_romp (env : Assets) (t : Terrain) (a b c : QRect) :
    (update_ground_heights (update_ground_textures (update_cliff_meshes env t a) b) c).stored_no_romp
      = t.stored_no_romp := by
  rw [stored_no_romp_of_stored _ _ (update_ground_heights_stored _ _),
    stored_no_romp_of_stored _ _ (update_ground_textures_stored _ _),
    update_cliff_meshes_stored_no_romp]

theorem create_stored_no_romp (env : Assets) (t : Terrain) :
    (create env t).stored_no_romp = (determine_cliffs t).stored_no_romp := by
  unfold create
  simp only []
  rw [recompute_all_stored_no_romp,
    stored_no_romp_of_stored _ _ (fill_mirrors_stored _),
    stored_no_romp_of_stored _ _ (load_ground_textures_stored _ _),
    stored_no_romp_of_stored _ _ (load_cliff_meshes_stored _ _)]

theorem resize_stored_no_romp (env : Assets) (t : Terrain) (new_width new_height : Nat) :
    (resize env t new_width new_height).stored_no_romp
      = (determine_cliffs (fill_mirrors { t with
          width := (new_width : Int)
          height := (new_height : Int)
          corners := fun _ _ => t.corners 0 0 })).stored_no_romp := by
  unfold resize
  simp only []
  rw [recompute_all_stored_no_romp]

theorem stored_no_romp_fields (r s : Terrain) (h : r.stored_no_romp = s.stored_no_romp) :
    r.header = s.header ∧ r.old_corners = s.old_corners
      ∧ ∀ x y, no_romp (r.corners x y) = no_romp (s.corners x y) := by
  simp only [Terrain.stored_no_romp, Prod.mk.injEq] at h
  exact ⟨h.1, h.2.2, fun x y => congrFun (congrFun h.2.1 x) y⟩

theorem header_fields (r s : Terrain) (h : r.header = s.header) :
    r.tileset = s.tileset ∧ r.tileset_ids = s.tileset_ids ∧ r.cliffset_ids = s.cliffset_ids
      ∧ r.width = s.width ∧ r.height = s.height ∧ r.offset = s.offset := by
  simpa [Terrain.header] using h

theorem no_romp_fields (c d : Corner) (h : no_romp c = no_romp d) :
    c.map_edge = d.map_edge ∧ c.ground_texture = d.ground_texture ∧ c.height = d.height
      ∧ c.water_height = d.water_height ∧ c.ramp = d.ramp ∧ c.blight = d.blight
      ∧ c.water = d.water ∧ c.boundary = d.boundary ∧ c.cliff = d.cliff
      ∧ c.special_doodad = d.special_doodad ∧ c.ground_variation = d.ground_variation
      ∧ c.cliff_variation = d.cliff_variation ∧ c.cliff_texture = d.cliff_texture
      ∧ c.layer_height = d.layer_height := by
  cases c
  cases d
  simp only [no_romp, Corner.mk.injEq] at h
  simp only []
  tauto

theorem quad_is_cliff_iff (g : Int → Int → Corner) (i j : Int) :
    quad_is_cliff g i j = true ↔
      ¬ ((g i j).layer_height = (g (i + 1) j).layer_height
        ∧ (g i j).layer_height = (g i (j + 1)).layer_height
        ∧ (g i j).layer_height = (g (i + 1) (j + 1)).layer_height) := by
  simp only [quad_is_cliff, Bool.or_eq_true, bne_iff_ne, ne_eq]
  tauto

theorem cliff_flag_of_determine_cliffs (r s : Terrain)
    (h : r.stored_no_romp = (determine_cliffs s).stored_no_romp) (x y : Int)
    (hx0 : 0 ≤ x) (hx : x < r.width - 1) (hy0 : 0 ≤ y) (hy : y < r.height - 1) :
    (r.corners x y).cliff = quad_is_cliff r.corners x y := by
  obtain ⟨hh, -, hc⟩ := stored_no_romp_fields _ _ h
  rw [determine_cliffs_header] at hh
  obtain ⟨-, -, -, hw, hht, -⟩ := header_fields _ _ hh
  have hl : ∀ a b, (r.corners a b).layer_height = (s.corners a b).layer_height := by
    intro a b
    have h1 := (no_romp_fields _ _ (hc a b)).2.2.2.2.2.2.2.2.2.2.2.2.2
    rw [h1, determine_cliffs_corners]
    split_ifs <;> rfl
  have h2 := (no_romp_fields _ _ (hc x y)).2.2.2.2.2.2.2.2.1
  rw [h2, determine_cliffs_corners, if_pos ⟨⟨hx0, by omega⟩, ⟨hy0, by omega⟩⟩]
  exact (quad_is_cliff_congr _ _ hl x y).symm

/-- C7: after load (which ends in create), after create and after resize, for every quad (x, y)
with x < width - 1 and y < height - 1 the flag corners[x][y].cliff is true if and only if the
layer_height values of the quad's four corners are not all equal. -/
theorem cliff_flag_iff_not_uniform (env : Assets) (t r : Terrain) (buffer : List Nat)
    (new_width new_height : Nat)
    (hfrom : load env t buffer = some (true, r) ∨ r = create env t
      ∨ r = resize env t new_width new_height)
    (x y : Int) (hx0 : 0 ≤ x) (hx : x < r.width - 1) (hy0 : 0 ≤ y) (hy : y < r.height - 1) :
    (r.corners x y).cliff = true ↔
      ¬ ((r.corners x y).layer_height = (r.corners (x + 1) y).layer_height
        ∧ (r.corners x y).layer_height = (r.corners x (y + 1)).layer_height
        ∧ (r.corners x y).layer_height = (r.corners (x + 1) (y + 1)).layer_height) := by
  rw [← quad_is_cliff_iff]
  have key : ∃ s, r.stored_no_romp = (determine_cliffs s).stored_no_romp := by
    rcases hfrom with h | h | h
    · unfold load at h
      cases hr : read_string 4 buffer with
      | none => simp [hr] at h
      | some mr =>
        obtain ⟨m, rest⟩ := mr
        simp only [hr, Option.bind_eq_bind, Option.some_bind] at h
        split_ifs at h with hm
        · simp at h
        · cases hp : load_parse t rest with
          | none => simp [hp] at h
          | some t2 =>
            simp only [hp, Option.some_bind, Option.some.injEq, Prod.mk.injEq, true_and] at h
            exact ⟨t2, h ▸ create_stored_no_romp env t2⟩
    · exact ⟨t, h ▸ create_stored_no_romp env t⟩
    · exact ⟨_, h ▸ resize_stored_no_romp env t new_width new_height⟩
  obtain ⟨s, hs⟩ := key
  rw [cliff_flag_of_determine_cliffs r s hs x y hx0 hx hy0 hy]

/-- Witness of C7 on the 5 x 5 example grid after create, at the quad (0, 0). -/
theorem cliff_flag_iff_not_uniform_witness :
    (0 : Int) < (create env0 grid5).width - 1 ∧ (0 : Int) < (create env0 grid5).height - 1
    ∧ (((create env0 grid5).corners 0 0).cliff = true ↔
      ¬ (((create env0 grid5).corners 0 0).layer_height
          = ((create env0 grid5).corners (0 + 1) 0).layer_height
        ∧ ((create env0 grid5).corners 0 0).layer_height
          = ((create env0 grid5).corners 0 (0 + 1)).layer_height
        ∧ ((create env0 grid5).corners 0 0).layer_height
          = ((create env0 grid5).corners (0 + 1) (0 + 1)).layer_height)) :=
  ⟨by decide!, by decide!,
    cliff_flag_iff_not_uniform env0 grid5 (create env0 grid5) [] 0 0 (Or.inr (Or.inl rfl)) 0 0
      (by decide) (by decide!) (by decide) (by decide!)⟩

/-! ## Undo and redo -/

theorem irange_length (lo hi : Int) : (irange lo hi).length = (hi - lo).toNat := by
  simp [irange]

theorem irange_getD (lo hi : Int) (k : Nat) (hk : k < (hi - lo).toNat) :
    (irange lo hi).getD k 0 = lo + (k : Int) := by
  unfold irange
  rw [List.getD_eq_getElem?_getD, List.getElem?_map, List.getElem?_range hk]
  rfl

theorem getD_rows {α : Type} (js is : List Int) (f : Int × Int → α) (d : α) (b a : Nat)
    (hb : b < js.length) (ha : a < is.length) :
    ((js.flatMap (fun j => is.map (fun i => (i, j)))).map f).getD (b * is.length + a) d
      = f (is.getD a 0, js.getD b 0) := by
  induction js generalizing b with
  | nil => simp at hb
  | cons j js ih =>
    rw [List.flatMap_cons, List.map_append]
    cases b with
    | zero =>
      rw [List.getD_append _ _ _ _ (by simpa using ha)]
      simp only [Nat.zero_mul, Nat.zero_add, List.map_map, List.getD_cons_zero]
      rw [List.getD_eq_getElem?_getD, List.getD_eq_getElem?_getD, List.getElem?_map,
        List.getElem?_eq_getElem ha]
      simp
    | succ b =>
      have hlen : (List.map f (List.map (fun i => (i, j)) is)).length ≤ (b + 1) * is.length + a := by
        simp only [List.length_map]
        nlinarith
      rw [List.getD_append_right _ _ _ _ hlen]
      simp only [List.length_map, List.getD_cons_succ]
      have : (b + 1) * is.length + a - is.length = b * is.length + a := by
        rw [Nat.add_mul, Nat.one_mul]
        omega
      rw [this]
      exact ih b (by simpa using hb)

theorem slice_getD {α : Type} (area : QRect) (f : Int × Int → α) (d : α) (x y : Int)
    (hx : area.left ≤ x ∧ x ≤ area.right) (hy : area.top ≤ y ∧ y ≤ area.bottom) :
    ((rect_yx area.left (area.right + 1) area.top (area.bottom + 1)).map f).getD
        ((y - area.top) * area.width + x - area.left).toNat d = f (x, y) := by
  unfold rect_yx
  have hw : area.width = (((irange area.left (area.right + 1)).length : Nat) : Int) := by
    rw [irange_length]
    simp only [QRect.width, QRect.left, QRect.right] at *
    omega
  have hidx : ((y - area.top) * area.width + x - area.left).toNat
      = (y - area.top).toNat * (irange area.left (area.right + 1)).length
        + (x - area.left).toNat := by
    rw [hw]
    have h1 : y - area.top = (((y - area.top).toNat : Nat) : Int) := by omega
    have h2 : ((y - area.top) * ((irange area.left (area.right + 1)).length : Int) + x - area.left)
        = (((y - area.top).toNat * (irange area.left (area.right + 1)).length
          + (x - area.left).toNat : Nat) : Int) := by
      push_cast
      rw [← h1]
      omega
    rw [h2, Int.toNat_ofNat]
  rw [hidx, getD_rows _ _ _ _ _ _ (by rw [irange_length]; omega) (by rw [irange_length]; omega),
    irange_getD _ _ _ (by omega), irange_getD _ _ _ (by omega)]
  congr 1
  ext <;> simp <;> omega

theorem restore_corners (t : Terrain) (area : QRect) (slice : List Corner) (x y : Int) :
    (restore t area slice).corners x y
      = if (area.left ≤ x ∧ x ≤ area.right) ∧ (area.top ≤ y ∧ y ≤ area.bottom)
        then slice.getD ((y - area.top) * area.width + x - area.left).toNat Corner.zero
        else t.corners x y := by
  unfold restore
  rw [foldl_corners _ (fun g p => set_corner g p.1 p.2
      ((fun (q : Int × Int) (_ : Corner) =>
        slice.getD ((q.2 - area.top) * area.width + q.1 - area.left).toNat Corner.zero)
        p (g p.1 p.2))) (fun s p => rfl),
    foldl_set_corner (fun (q : Int × Int) (_ : Corner) =>
        slice.getD ((q.2 - area.top) * area.width + q.1 - area.left).toNat Corner.zero)
      (fun p c => rfl)]
  simp only [mem_rect_yx]
  have e : ((area.left ≤ x ∧ x < area.right + 1) ∧ (area.top ≤ y ∧ y < area.bottom + 1))
      ↔ ((area.left ≤ x ∧ x ≤ area.right) ∧ (area.top ≤ y ∧ y ≤ area.bottom)) := by
    constructor <;> rintro ⟨⟨a, b⟩, c, d⟩ <;> exact ⟨⟨a, by omega⟩, c, by omega⟩
  simp only [e]

theorem restore_stored (t : Terrain) (area : QRect) (slice : List Corner) :
    (restore t area slice).header = t.header ∧ (restore t area slice).old_corners = t.old_corners := by
  unfold restore
  constructor
  · apply foldl_preserves Terrain.header
    intro s p
    rfl
  · apply foldl_preserves Terrain.old_corners
    intro s p
    rfl

theorem recompute_stored_no_romp (env : Assets) (t : Terrain) (area : QRect) (type : undo_type) :
    (recompute env t area type).stored_no_romp = t.stored_no_romp := by
  unfold recompute
  cases type
  · simp only [reduceCtorEq, if_true, if_false]
    exact stored_no_romp_of_stored _ _ (update_ground_heights_stored _ _)
  · simp only [reduceCtorEq, if_true, if_false]
    exact stored_no_romp_of_stored _ _ (update_ground_textures_stored _ _)
  · simp only [reduceCtorEq, if_true, if_false]
    rw [stored_no_romp_of_stored _ _ (update_water_stored _ _),
      stored_no_romp_of_stored _ _ (update_ground_textures_stored _ _),
      update_cliff_meshes_stored_no_romp,
      stored_no_romp_of_stored _ _ (update_ground_heights_stored _ _)]

theorem recompute_corners (env : Assets) (t : Terrain) (area : QRect) (type : undo_type)
    (h : type ≠ undo_type.cliff) : (recompute env t area type).corners = t.corners := by
  unfold recompute
  cases type
  · simp only [reduceCtorEq, if_true, if_false]
    exact congrArg (fun s => s.2.1) (update_ground_heights_stored _ _)
  · simp only [reduceCtorEq, if_true, if_false]
    exact congrArg (fun s => s.2.1) (update_ground_textures_stored _ _)
  · exact absurd rfl h

theorem recompute_restore_no_romp (env : Assets) (t : Terrain) (area : QRect)
    (slice : List Corner) (type : undo_type) (x y : Int) :
    no_romp ((recompute env (restore t area slice) area type).corners x y)
      = no_romp (if (area.left ≤ x ∧ x ≤ area.right) ∧ (area.top ≤ y ∧ y ≤ area.bottom)
        then slice.getD ((y - area.top) * area.width + x - area.left).toNat Corner.zero
        else t.corners x y) := by
  rw [(stored_no_romp_fields _ _ (recompute_stored_no_romp env _ area type)).2.2 x y,
    restore_corners]

theorem recompute_restore_corners (env : Assets) (t : Terrain) (area : QRect)
    (slice : List Corner) (type : undo_type) (h : type ≠ undo_type.cliff) (x y : Int) :
    (recompute env (restore t area slice) area type).corners x y
      = if (area.left ≤ x ∧ x ≤ area.right) ∧ (area.top ≤ y ∧ y ≤ area.bottom)
        then slice.getD ((y - area.top) * area.width + x - area.left).toNat Corner.zero
        else t.corners x y := by
  rw [recompute_corners env _ area type h, restore_corners]

/-- C5 (amended): when new_undo_group snapshotted the grid of t, the edit that led to t2 changed
corners only inside area, and add_undo(area, kind) recorded the action, then redo followed by
undo, and undo alone, leave every corner of the live grid equal to its snapshot value in every
field other than the derived romp flag; for the kinds height and texture romp agrees too. -/
theorem undo_restores_snapshot (env : Assets) (t t2 : Terrain) (area : QRect) (kind : undo_type)
    (hsnap : t2.old_corners = (new_undo_group t).old_corners)
    (hedit : ∀ x y, ¬ ((area.left ≤ x ∧ x ≤ area.right) ∧ (area.top ≤ y ∧ y ≤ area.bottom)) →
      t2.corners x y = t.corners x y)
    (x y : Int) :
    (no_romp (((add_undo t2 area kind).undo env ((add_undo t2 area kind).redo env t2)).corners x y)
        = no_romp (t.corners x y)
      ∧ no_romp (((add_undo t2 area kind).undo env t2).corners x y) = no_romp (t.corners x y))
    ∧ (kind ≠ undo_type.cliff →
      ((add_undo t2 area kind).undo env ((add_undo t2 area kind).redo env t2)).corners x y
          = t.corners x y
        ∧ ((add_undo t2 area kind).undo env t2).corners x y = t.corners x y) := by
  have hold : ∀ a b, (area.left ≤ a ∧ a ≤ area.right) ∧ (area.top ≤ b ∧ b ≤ area.bottom) →
      (add_undo t2 area kind).old_corners.getD
        ((b - area.top) * area.width + a - area.left).toNat Corner.zero = t.corners a b := by
    intro a b hab
    have h1 : (add_undo t2 area kind).old_corners
        = (rect_yx area.left (area.right + 1) area.top (area.bottom + 1)).map
          (fun p => t.corners p.1 p.2) := by
      simp only [add_undo, hsnap, new_undo_group]
    rw [h1]
    exact slice_getD area (fun p => t.corners p.1 p.2) Corner.zero a b hab.1 hab.2
  simp only [TerrainGenericAction.undo, TerrainGenericAction.redo]
  have harea : (add_undo t2 area kind).area = area := rfl
  have hkind : (add_undo t2 area kind).undo_type = kind := rfl
  rw [harea, hkind]
  refine ⟨⟨?_, ?_⟩, fun hk => ⟨?_, ?_⟩⟩
  · rw [recompute_restore_no_romp]
    split_ifs with hin
    · rw [hold x y hin]
    · rw [recompute_restore_no_romp, if_neg hin, hedit x y hin]
  · rw [recompute_restore_no_romp]
    split_ifs with hin
    · rw [hold x y hin]
    · rw [hedit x y hin]
  · rw [recompute_restore_corners _ _ _ _ _ hk]
    split_ifs with hin
    · exact hold x y hin
    · rw [recompute_restore_corners _ _ _ _ _ hk, if_neg hin, hedit x y hin]
  · rw [recompute_restore_corners _ _ _ _ _ hk]
    split_ifs with hin
    · exact hold x y hin
    · exact hedit x y hin

/-- C6 (amended): for the action recorded by add_undo(area, kind) on the post-edit terrain t2,
undo followed by redo leaves every corner of the live grid equal to the post-edit grid that
add_undo captured in every field other than the derived romp flag; for the kinds height and
texture romp agrees too. -/
theorem redo_restores_edit (env : Assets) (t2 : Terrain) (area : QRect) (kind : undo_type)
    (x y : Int) :
    no_romp (((add_undo t2 area kind).redo env ((add_undo t2 area kind).undo env t2)).corners x y)
        = no_romp (t2.corners x y)
    ∧ (kind ≠ undo_type.cliff →
      ((add_undo t2 area kind).redo env ((add_undo t2 area kind).undo env t2)).corners x y
        = t2.corners x y) := by
  have hnew : ∀ a b, (area.left ≤ a ∧ a ≤ area.right) ∧ (area.top ≤ b ∧ b ≤ area.bottom) →
      (add_undo t2 area kind).new_corners.getD
        ((b - area.top) * area.width + a - area.left).toNat Corner.zero = t2.corners a b := by
    intro a b hab
    exact slice_getD area (fun p => t2.corners p.1 p.2) Corner.zero a b hab.1 hab.2
  simp only [TerrainGenericAction.undo, TerrainGenericAction.redo]
  have harea : (add_undo t2 area kind).area = area := rfl
  have hkind : (add_undo t2 area kind).undo_type = kind := rfl
  rw [harea, hkind]
  refine ⟨?_, fun hk => ?_⟩
  · rw [recompute_restore_no_romp]
    split_ifs with hin
    · rw [hnew x y hin]
    · rw [recompute_restore_no_romp, if_neg hin]
  · rw [recompute_restore_corners _ _ _ _ _ hk]
    split_ifs with hin
    · exact hnew x y hin
    · rw [recompute_restore_corners _ _ _ _ _ hk, if_neg hin]

theorem ramp_edited_outside (x y : Int)
    (h : ¬ ((ramp_edit_area.left ≤ x ∧ x ≤ ramp_edit_area.right)
      ∧ (ramp_edit_area.top ≤ y ∧ y ≤ ramp_edit_area.bottom))) :
    ramp_edited.corners x y = ramp_removed.corners x y := by
  have hne : ¬ (x = 2 ∧ y = 1) := by
    rintro ⟨rfl, rfl⟩
    exact h (by decide)
  simp only [ramp_edited, new_undo_group]
  exact set_corner_other _ _ _ _ _ _ hne

/-- A leftover romp flag arises from the code itself: create places the ramp of `ramp_grid` at
the quad (1, 0) and sets romp on the corners (1, 0) and (1, 1); once the ramp flag of (1, 2) is
taken off and update_cliff_meshes runs over that corner's one-cell area, no ramp is found at the
quad any more, yet both corners keep romp, because the reset loop of update_cliff_meshes runs
over [area.x, area.right) x [area.y, area.bottom), which is empty for a one-cell area. -/
theorem leftover_romp_reachable :
    ((create ramp_env ramp_grid).corners 1 0).romp = true
    ∧ ((create ramp_env ramp_grid).corners 1 1).romp = true
    ∧ (vertical_ramp ramp_env ramp_removed 1 0).isNone = true
    ∧ (horizontal_ramp ramp_env ramp_removed 1 0).isNone = true
    ∧ (ramp_removed.corners 1 0).romp = true
    ∧ (ramp_removed.corners 1 1).romp = true := by
  decide!

/-- Witness of C5 for a height-kind action on the example edit, at the edited corner (2, 1). -/
theorem undo_restores_snapshot_witness :
    ((add_undo ramp_edited ramp_edit_area undo_type.height).undo ramp_env
        ((add_undo ramp_edited ramp_edit_area undo_type.height).redo ramp_env
          ramp_edited)).corners 2 1
      = ramp_removed.corners 2 1
    ∧ ((add_undo ramp_edited ramp_edit_area undo_type.height).undo ramp_env
        ramp_edited).corners 2 1
      = ramp_removed.corners 2 1 :=
  (undo_restores_snapshot ramp_env ramp_removed ramp_edited ramp_edit_area undo_type.height rfl
    ramp_edited_outside 2 1).2 (by decide)

/-- Witness of C6 for a height-kind action on the example edit, at the edited corner (2, 1). -/
theorem redo_restores_edit_witness :
    ((add_undo ramp_edited ramp_edit_area undo_type.height).redo ramp_env
        ((add_undo ramp_edited ramp_edit_area undo_type.height).undo ramp_env
          ramp_edited)).corners 2 1
      = ramp_edited.corners 2 1 :=
  (redo_restores_edit ramp_env ramp_edited ramp_edit_area undo_type.height 2 1).2 (by decide)

/-- Witness of C9 on a 2 x 2 grid of uniform layer_height whose cliff flags are set. -/
theorem plain_cliff_uniform_witness :
    cliff_letters flat_cliff2 0 0 = cstr "AAAA"
    ∧ (plain_cliff flat_cliff2 0 0).cliffs = flat_cliff2.cliffs
    ∧ (plain_cliff flat_cliff2 0 0).cliffs = flat_cliff2.cliffs :=
  ⟨((plain_cliff_uniform_no_placement flat_cliff2 0 0).2 ⟨by decide, by decide, by decide⟩).1,
    ((plain_cliff_uniform_no_placement flat_cliff2 0 0).2 ⟨by decide, by decide, by decide⟩).2,
    (plain_cliff_uniform_no_placement flat_cliff2 0 0).1 (by decide)⟩

/-- Witness of C3 on a buffer of four zero bytes. -/
theorem load_fails_witness :
    ((∃ t1, load env0 Terrain.fresh [0, 0, 0, 0] = some (false, t1))
      ↔ List.take 4 ([0, 0, 0, 0] : List Nat) ≠ cstr "W3E!")
    ∧ (∀ t1, load env0 Terrain.fresh [0, 0, 0, 0] = some (false, t1) → t1 = Terrain.fresh) :=
  load_fails_iff_bad_magic env0 Terrain.fresh [0, 0, 0, 0] (by decide) (by decide)

/-! ## The corner records of the file -/

theorem read_corner_some (c : Corner) (rs : List Nat) (h : 7 ≤ rs.length) :
    read_corner c rs = some (decode_at rs 0 c, rs.drop 7) := by
  rcases rs with _ | ⟨h0, _ | ⟨h1, _ | ⟨w0, _ | ⟨w1, _ | ⟨a, _ | ⟨b, _ | ⟨d, rest⟩⟩⟩⟩⟩⟩⟩
  all_goals first
    | (simp only [List.length_nil, List.length_cons] at h; omega)
    | rfl

theorem read_corner_none (c : Corner) (rs : List Nat) (h : rs.length < 7) :
    read_corner c rs = none := by
  rcases rs with _ | ⟨h0, _ | ⟨h1, _ | ⟨w0, _ | ⟨w1, _ | ⟨a, _ | ⟨b, _ | ⟨d, rest⟩⟩⟩⟩⟩⟩⟩
  all_goals first
    | rfl
    | (simp only [List.length_cons] at h; omega)

theorem byte_at_drop (rs : List Nat) (n k : Nat) : byte_at (rs.drop n) k = byte_at rs (n + k) := by
  simp [byte_at, List.getElem?_drop]

theorem decode_at_drop (rs : List Nat) (k : Nat) (c : Corner) :
    decode_at (rs.drop 7) k c = decode_at rs (k + 1) c := by
  simp only [decode_at, u16_at, byte_at_drop]
  have e : ∀ n, 7 + (7 * k + n) = 7 * (k + 1) + n := by intro n; omega
  have e0 : 7 + 7 * k = 7 * (k + 1) := by omega
  simp only [e, e0, Nat.add_assoc]

theorem load_corners_spec (ps : List (Int × Int)) (g : Int → Int → Corner) (rs : List Nat)
    (g1 : Int → Int → Corner) (rs1 : List Nat) (h : load_corners g rs ps = some (g1, rs1)) :
    7 * ps.length ≤ rs.length
    ∧ (∀ q : Int × Int, q ∉ ps → g1 q.1 q.2 = g q.1 q.2)
    ∧ (ps.Nodup → ∀ k (hk : k < ps.length),
        g1 ps[k].1 ps[k].2 = decode_at rs k (g ps[k].1 ps[k].2)) := by
  induction ps generalizing g rs with
  | nil =>
    simp only [load_corners, Option.some.injEq, Prod.mk.injEq] at h
    refine ⟨by simp, fun q _ => by rw [h.1], fun _ k hk => absurd hk (by simp)⟩
  | cons p ps ih =>
    by_cases h7 : 7 ≤ rs.length
    · simp only [load_corners, read_corner_some _ _ h7, Option.bind_eq_bind, Option.some_bind] at h
      obtain ⟨hlen, hout, hin⟩ := ih _ _ h
      rw [List.length_drop] at hlen
      refine ⟨by simp only [List.length_cons]; omega, ?_, ?_⟩
      · intro q hq
        rw [hout q (fun hq2 => hq (List.mem_cons_of_mem _ hq2))]
        apply set_corner_other
        rintro ⟨h1, h2⟩
        exact hq (by rw [show q = p from Prod.ext h1 h2]; exact List.mem_cons_self _ _)
      · intro hnd k hk
        rw [List.nodup_cons] at hnd
        cases k with
        | zero =>
          simp only [List.getElem_cons_zero]
          rw [hout p hnd.1, set_corner_same]
        | succ k =>
          simp only [List.getElem_cons_succ]
          have hk2 : k < ps.length := by simpa using hk
          rw [hin hnd.2 k hk2, decode_at_drop]
          congr 1
          apply set_corner_other
          rintro ⟨h1, h2⟩
          exact hnd.1 (by rw [show p = ps[k] from (Prod.ext h1 h2).symm]; exact List.getElem_mem _)
    · simp [load_corners, read_corner_none _ _ (by omega : rs.length < 7)] at h

/-! ## Raw values and fields -/

theorem land_3FFF (w : Nat) : w &&& 0x3FFF = w % 16384 :=
  Nat.and_pow_two_sub_one_eq_mod w 14

theorem land_4000 (w : Nat) : (w &&& 0x4000 != 0) = w.testBit 14 := by
  have h := Nat.and_two_pow w 14
  norm_num at h
  rw [h]
  cases w.testBit 14 <;> simp

theorem byte_fields : ∀ b < 256,
    b &&& 0b00001111 = b % 16 ∧ (b &&& 0b00010000 != 0) = b.testBit 4
    ∧ (b &&& 0b00100000 != 0) = b.testBit 5 ∧ (b &&& 0b01000000 != 0) = b.testBit 6
    ∧ (b &&& 0b10000000 != 0) = b.testBit 7 ∧ b &&& 0b00011111 = b % 32
    ∧ (b &&& 0b11100000) >>> 5 = b / 32 % 8 ∧ (b &&& 0b11110000) >>> 4 = b / 16 % 16 := by
  decide

theorem irange_nodup (lo hi : Int) : (irange lo hi).Nodup := by
  unfold irange
  apply List.Nodup.map _ (List.nodup_range _)
  intro a b h
  simpa using h

theorem rect_yx_nodup (x0 x1 y0 y1 : Int) : (rect_yx x0 x1 y0 y1).Nodup := by
  unfold rect_yx
  rw [List.nodup_flatMap]
  constructor
  · intro j _
    apply List.Nodup.map _ (irange_nodup _ _)
    intro a b h
    simpa using h
  · apply List.Pairwise.imp _ (irange_nodup y0 y1)
    intro a b hab
    simp only [Function.onFun, List.disjoint_left, List.mem_map, not_exists, not_and]
    rintro p ⟨i, _, rfl⟩ i2 _ h
    exact hab (by simpa using (congrArg Prod.snd h).symm)

theorem rect_yx_length (x0 x1 y0 y1 : Int) :
    (rect_yx x0 x1 y0 y1).length = (y1 - y0).toNat * (x1 - x0).toNat := by
  unfold rect_yx
  have h : ∀ js : List Int,
      (js.flatMap (fun j => (irange x0 x1).map (fun i => (i, j)))).length
        = js.length * (x1 - x0).toNat := by
    intro js
    induction js with
    | nil => simp
    | cons j js ih =>
      rw [List.flatMap_cons, List.length_append, ih, List.length_map, irange_length,
        List.length_cons, Nat.add_mul, Nat.one_mul, Nat.add_comm]
  rw [h, irange_length]

theorem rect_yx_index (w h x y : Int) (hx : 0 ≤ x ∧ x < w) (hy : 0 ≤ y ∧ y < h) :
    ∃ hk : (y * w + x).toNat < (rect_yx 0 w 0 h).length,
      (rect_yx 0 w 0 h)[(y * w + x).toNat] = (x, y) := by
  have hlt : (y * w + x).toNat < (rect_yx 0 w 0 h).length := by
    rw [rect_yx_length]
    have h1 : (0 : Int) ≤ y * w := Int.mul_nonneg hy.1 (by omega)
    have h2 : y * w + x < h * w := by nlinarith
    have h3 : (((h - 0).toNat * (w - 0).toNat : Nat) : Int) = h * w := by
      push_cast
      rw [Int.toNat_of_nonneg (by omega), Int.toNat_of_nonneg (by omega)]
      ring
    omega
  refine ⟨hlt, ?_⟩
  have hs := slice_getD (⟨0, 0, w - 1, h - 1⟩ : QRect) (fun p => p) ((0 : Int), (0 : Int)) x y
    (by simp only [QRect.left, QRect.right]; omega) (by simp only [QRect.top, QRect.bottom]; omega)
  simp only [QRect.left, QRect.right, QRect.top, QRect.bottom, QRect.width, List.map_id',
    sub_add_cancel, sub_zero] at hs
  rw [List.getD_eq_getElem _ _ hlt] at hs
  exact hs

/-! ## Records laid out one after the other -/

theorem load_eq_loaded (env : Assets) (t : Terrain) (buffer : List Nat)
    (h : (load env t buffer).map Prod.fst = some true) :
    load env t buffer = some (true, loaded env t buffer) := by
  unfold loaded
  cases hl : load env t buffer with
  | none => simp [hl] at h
  | some p =>
    obtain ⟨b, r⟩ := p
    simp only [hl, Option.map_some', Option.some.injEq] at h
    simp [h]

theorem load_true (env : Assets) (t r : Terrain) (buffer : List Nat)
    (h : load env t buffer = some (true, r)) :
    ∃ t2, load_parse t (buffer.drop 4) = some t2 ∧ r = create env t2 := by
  unfold load at h
  cases hr : read_string 4 buffer with
  | none => simp [hr] at h
  | some mr =>
    obtain ⟨m, rest⟩ := mr
    have hrest : rest = buffer.drop 4 := by
      unfold read_string at hr
      split_ifs at hr
      simp only [Option.some.injEq, Prod.mk.injEq] at hr
      exact hr.2.symm
    simp only [hr, Option.bind_eq_bind, Option.some_bind] at h
    split_ifs at h with hm
    · simp at h
    · cases hp : load_parse t rest with
      | none => simp [hp] at h
      | some t2 =>
        simp only [hp, Option.some_bind, Option.some.injEq, Prod.mk.injEq, true_and] at h
        exact ⟨t2, hrest ▸ hp, h.symm⟩

theorem load_parse_some (t t2 : Terrain) (rs : List Nat) (hd : Header) (recs : List Nat)
    (hh : load_header rs = some (hd, recs)) (hp : load_parse t rs = some t2) :
    (0 ≤ hd.width ∧ 0 ≤ hd.height) ∧ t2.width = hd.width ∧ t2.height = hd.height
    ∧ ∃ rest, load_corners (fun x y => if x < t.width then t.corners x y else Corner.zero) recs
        (rect_yx 0 hd.width 0 hd.height) = some (t2.corners, rest) := by
  unfold load_parse at hp
  simp only [hh, Option.bind_eq_bind, Option.some_bind] at hp
  split_ifs at hp with hneg
  cases hc : load_corners (fun x y => if x < t.width then t.corners x y else Corner.zero) recs
      (rect_yx 0 hd.width 0 hd.height) with
  | none => simp [hc] at hp
  | some gr =>
    obtain ⟨g, rest⟩ := gr
    simp only [hc, Option.some_bind, Option.some.injEq] at hp
    subst hp
    exact ⟨by omega, rfl, rfl, rest, rfl⟩

theorem no_flags_of_no_romp (c d : Corner) (h : no_romp c = no_romp d) :
    no_flags c = no_flags d := by
  cases c
  cases d
  simp only [no_romp, no_flags, Corner.mk.injEq] at *
  tauto

theorem no_flags_set_cliff (d : Corner) (b : Bool) : no_flags { d with cliff := b } = no_flags d := by
  cases d
  rfl

theorem create_no_flags (env : Assets) (t : Terrain) (x y : Int) :
    (create env t).header = t.header
    ∧ no_flags ((create env t).corners x y) = no_flags (t.corners x y) := by
  obtain ⟨hh, -, hc⟩ := stored_no_romp_fields _ _ (create_stored_no_romp env t)
  rw [determine_cliffs_header] at hh
  refine ⟨hh, ?_⟩
  have h1 := no_flags_of_no_romp _ _ (hc x y)
  rw [determine_cliffs_corners] at h1
  rw [h1]
  split_ifs
  · exact no_flags_set_cliff _ _
  · rfl

theorem no_flags_fields (c d : Corner) (h : no_flags c = no_flags d) :
    c.map_edge = d.map_edge ∧ c.ground_texture = d.ground_texture ∧ c.height = d.height
      ∧ c.water_height = d.water_height ∧ c.ramp = d.ramp ∧ c.blight = d.blight
      ∧ c.water = d.water ∧ c.boundary = d.boundary
      ∧ c.special_doodad = d.special_doodad ∧ c.ground_variation = d.ground_variation
      ∧ c.cliff_variation = d.cliff_variation ∧ c.cliff_texture = d.cliff_texture
      ∧ c.layer_height = d.layer_height := by
  cases c
  cases d
  simp only [no_flags, Corner.mk.injEq] at h
  simp only []
  tauto

/-- The corner that `load` leaves at `(x, y)` is, up to the derived flags, the decoding of the
record number `y * width + x`. -/
theorem load_corner_record (env : Assets) (t r : Terrain) (buffer : List Nat) (hd : Header)
    (recs : List Nat) (hload : load env t buffer = some (true, r))
    (hhead : load_header (buffer.drop 4) = some (hd, recs))
    (x y : Int) (hx0 : 0 ≤ x) (hx : x < r.width) (hy0 : 0 ≤ y) (hy : y < r.height) :
    r.width = hd.width ∧ r.height = hd.height
    ∧ 7 * (y * r.width + x).toNat + 7 ≤ recs.length
    ∧ ∃ c, no_flags (r.corners x y) = no_flags (decode_at recs (y * r.width + x).toNat c) := by
  obtain ⟨t2, hp, hr⟩ := load_true env t r buffer hload
  obtain ⟨-, hw, hh, rest, hc⟩ := load_parse_some t t2 _ hd recs hhead hp
  have hcr := create_no_flags env t2 x y
  rw [← hr] at hcr
  obtain ⟨hhdr, hnf⟩ := hcr
  obtain ⟨-, -, -, hw2, hh2, -⟩ := header_fields _ _ hhdr
  rw [hw2, hw] at hx ⊢
  rw [hh2, hh] at hy ⊢
  obtain ⟨hk, hget⟩ := rect_yx_index hd.width hd.height x y ⟨hx0, hx⟩ ⟨hy0, hy⟩
  obtain ⟨hlen, -, hin⟩ := load_corners_spec _ _ _ _ _ hc
  have hdec := hin (rect_yx_nodup _ _ _ _) _ hk
  rw [hget] at hdec
  refine ⟨rfl, rfl, by omega, (if x < t.width then t.corners x y else Corner.zero), ?_⟩
  rw [hnf]
  exact congrArg no_flags hdec

/-- C4: load decodes the k-th 7-byte corner record, k = y * width + x, into corners[x][y] per
the documented layout: height = (raw - 8192) / 512; water_height = ((raw & 0x3FFF) - 8192) / 512
and map_edge = bit 14; ground_texture = bits 0-3, ramp = bit 4, blight = bit 5, water = bit 6,
boundary = bit 7; ground_variation = bits 0-4, cliff_variation = bits 5-7; cliff_texture =
bits 4-7, layer_height = bits 0-3.  Here recs is the record area that follows the header. -/
theorem load_decodes_records (env : Assets) (t r : Terrain) (buffer : List Nat) (hd : Header)
    (recs : List Nat) (hload : load env t buffer = some (true, r))
    (hhead : load_header (buffer.drop 4) = some (hd, recs))
    (x y : Int) (hx0 : 0 ≤ x) (hx : x < r.width) (hy0 : 0 ≤ y) (hy : y < r.height)
    (k : Nat) (hk : (k : Int) = y * r.width + x) :
    7 * k + 7 ≤ recs.length
    ∧ (r.corners x y).height = ((u16_at recs (7 * k) : ℚ) - 8192) / 512
    ∧ (r.corners x y).water_height = (((u16_at recs (7 * k + 2) % 16384 : Nat) : ℚ) - 8192) / 512
    ∧ (r.corners x y).map_edge = (u16_at recs (7 * k + 2)).testBit 14
    ∧ (r.corners x y).ground_texture = ((byte_at recs (7 * k + 4) % 16 : Nat) : Int)
    ∧ (r.corners x y).ramp = (byte_at recs (7 * k + 4)).testBit 4
    ∧ (r.corners x y).blight = (byte_at recs (7 * k + 4)).testBit 5
    ∧ (r.corners x y).water = (byte_at recs (7 * k + 4)).testBit 6
    ∧ (r.corners x y).boundary = (byte_at recs (7 * k + 4)).testBit 7
    ∧ (r.corners x y).ground_variation = ((byte_at recs (7 * k + 5) % 32 : Nat) : Int)
    ∧ (r.corners x y).cliff_variation = ((byte_at recs (7 * k + 5) / 32 % 8 : Nat) : Int)
    ∧ (r.corners x y).cliff_texture = ((byte_at recs (7 * k + 6) / 16 % 16 : Nat) : Int)
    ∧ (r.corners x y).layer_height = ((byte_at recs (7 * k + 6) % 16 : Nat) : Int) := by
  obtain ⟨-, -, hlen, c, hc⟩ := load_corner_record env t r buffer hd recs hload hhead x y hx0 hx
    hy0 hy
  have hk2 : (y * r.width + x).toNat = k := by omega
  rw [hk2] at hlen hc
  obtain ⟨f1, f2, f3, f4, f5, f6, f7, f8, -, f10, f11, f12, f13⟩ := no_flags_fields _ _ hc
  have hb : ∀ n, byte_at recs n < 256 := fun n => Nat.mod_lt _ (by norm_num)
  obtain ⟨a1, a2, a3, a4, a5, -, -, -⟩ := byte_fields _ (hb (7 * k + 4))
  obtain ⟨-, -, -, -, -, b1, b2, -⟩ := byte_fields _ (hb (7 * k + 5))
  obtain ⟨c1, -, -, -, -, -, -, c2⟩ := byte_fields _ (hb (7 * k + 6))
  simp only [decode_at, decode_corner] at f1 f2 f3 f4 f5 f6 f7 f8 f10 f11 f12 f13
  refine ⟨hlen, f3, ?_, ?_, ?_, ?_, ?_, ?_, ?_, ?_, ?_, ?_, ?_⟩
  · rw [f4, land_3FFF]
  · rw [f1, land_4000]
  · rw [f2, a1]
  · rw [f5, a2]
  · rw [f6, a3]
  · rw [f7, a4]
  · rw [f8, a5]
  · rw [f10, b1]
  · rw [f11, b2]
  · rw [f12, c2]
  · rw [f13, c1]

/-! ## Round trips through the file -/

/-- Witness of C4 on the sample file, at the corner (0, 0) and its record 0. -/
theorem load_decodes_records_witness :
    ((loaded env0 Terrain.fresh sample_file).corners 0 0).ground_texture
        = ((byte_at sample_recs (7 * 0 + 4) % 16 : Nat) : Int)
    ∧ ((loaded env0 Terrain.fresh sample_file).corners 0 0).ramp
        = (byte_at sample_recs (7 * 0 + 4)).testBit 4 :=
  have h := load_decodes_records env0 Terrain.fresh (loaded env0 Terrain.fresh sample_file)
    sample_file ⟨76, [cstr "Ldrt", cstr "Lgrs", cstr "Lrok", cstr "Ldro"],
      [cstr "CLdi", cstr "CLgr"], 2, 2, [0, 0, 0, 0, 0, 0, 0, 0]⟩ sample_recs
    (load_eq_loaded env0 Terrain.fresh sample_file (by decide!)) (by decide!)
    0 0 (by decide) (by decide!) (by decide) (by decide!) 0 (by decide!)
  ⟨h.2.2.2.2.1, h.2.2.2.2.2.1⟩

theorem sample_header_corners (x y : Int) : sample_header.corners x y = Corner.zero := rfl

/-- C13: update_ground_heights(area), which is all that undo and redo of a height-kind action
recompute, leaves the texture-descriptor mirror ground_texture_list, the cliff placement list,
the existence mask ground_exists_data and every corner of the grid unchanged. -/
theorem update_ground_heights_isolated (env : Assets) (t : Terrain) (area : QRect) :
    (update_ground_heights t area).ground_texture_list = t.ground_texture_list
    ∧ (update_ground_heights t area).cliffs = t.cliffs
    ∧ (update_ground_heights t area).ground_exists_data = t.ground_exists_data
    ∧ (update_ground_heights t area).corners = t.corners
    ∧ recompute env t area undo_type.height = update_ground_heights t area := by
  refine ⟨?_, ?_, ?_, ?_, ?_⟩
  · unfold update_ground_heights
    apply foldl_preserves Terrain.ground_texture_list
    intro s p
    rfl
  · unfold update_ground_heights
    apply foldl_preserves Terrain.cliffs
    intro s p
    rfl
  · unfold update_ground_heights
    apply foldl_preserves Terrain.ground_exists_data
    intro s p
    rfl
  · unfold update_ground_heights
    apply foldl_preserves Terrain.corners
    intro s p
    rfl
  · simp [recompute]

/-! ## Sub-tile selection -/

theorem vertical_ramp_eq (env : Assets) (t : Terrain) (i j : Int) :
    vertical_ramp env t i j
      = if vertical_ramp_matches t i j ∧ env.file_exists (vertical_ramp_name t i j) = true
        then some (place_ramp t i j i (j + 1) (vertical_ramp_name t i j)) else none := by
  unfold vertical_ramp vertical_ramp_matches vertical_ramp_name
  simp only []
  split_ifs <;> first | rfl | tauto

theorem horizontal_ramp_eq (env : Assets) (t : Terrain) (i j : Int) :
    horizontal_ramp env t i j
      = if horizontal_ramp_matches t i j ∧ env.file_exists (horizontal_ramp_name t i j) = true
        then some (place_ramp t i j (i + 1) j (horizontal_ramp_name t i j)) else none := by
  unfold horizontal_ramp horizontal_ramp_matches horizontal_ramp_name
  simp only []
  split_ifs <;> first | rfl | tauto

theorem ramp_patterns_exclusive (t : Terrain) (i j : Int)
    (hv : vertical_ramp_matches t i j) (hh : horizontal_ramp_matches t i j) : False := by
  obtain ⟨-, -, v1, -, -, -, v5⟩ := hv
  obtain ⟨-, -, h1, -, -, -, h5⟩ := hh
  exact v5 h1

theorem plain_cliff_cases (t : Terrain) (i j : Int) :
    (plain_cliff t i j).corners = t.corners
    ∧ ((plain_cliff t i j).cliffs = t.cliffs
      ∨ (plain_cliff t i j).cliffs
        = t.cliffs ++ [(i, j, (StrMap.index t.path_to_cliff (cliff_key t i j)).1)]) := by
  unfold plain_cliff cliff_key
  simp only []
  split_ifs
  · exact ⟨rfl, Or.inl rfl⟩
  · exact ⟨rfl, Or.inl rfl⟩
  · exact ⟨rfl, Or.inl rfl⟩
  · exact ⟨rfl, Or.inr rfl⟩

/-- C18: when a ramp pattern matches at a quad and the asset store reports that the computed
ramp mesh name does not exist, the quad is handled by the plain-cliff branch exactly as a quad
at which no ramp pattern matches: no ramp is placed, no corner gets romp (the plain-cliff branch
leaves the corners alone), and the only placement the quad can get is the plain cliff's. -/
theorem ramp_rejected_without_asset (env : Assets) (t : Terrain) (i j : Int) :
    (vertical_ramp_matches t i j → env.file_exists (vertical_ramp_name t i j) = false →
      cliff_quad env t i j = plain_cliff t i j)
    ∧ (horizontal_ramp_matches t i j → env.file_exists (horizontal_ramp_name t i j) = false →
      cliff_quad env t i j = plain_cliff t i j)
    ∧ (¬ vertical_ramp_matches t i j → ¬ horizontal_ramp_matches t i j →
      cliff_quad env t i j = plain_cliff t i j)
    ∧ (plain_cliff t i j).corners = t.corners
    ∧ ((plain_cliff t i j).cliffs = t.cliffs
      ∨ (plain_cliff t i j).cliffs
        = t.cliffs ++ [(i, j, (StrMap.index t.path_to_cliff (cliff_key t i j)).1)]) := by
  refine ⟨fun hv hf => ?_, fun hh hf => ?_, fun hv hh => ?_, (plain_cliff_cases t i j).1,
    (plain_cliff_cases t i j).2⟩
  · have hh : ¬ horizontal_ramp_matches t i j := fun hh => ramp_patterns_exclusive t i j hv hh
    simp [cliff_quad, vertical_ramp_eq, horizontal_ramp_eq, hf, hh]
  · have hv : ¬ vertical_ramp_matches t i j := fun hv => ramp_patterns_exclusive t i j hv hh
    simp [cliff_quad, vertical_ramp_eq, horizontal_ramp_eq, hf, hv]
  · simp [cliff_quad, vertical_ramp_eq, horizontal_ramp_eq, hv, hh]

/-- Witness of C18: a vertical pattern at the quad (1, 0) of `ramp_grid`, a horizontal pattern at
the quad (0, 1) of `ramp_grid_h`, both without an asset, and the quad (0, 0) of `grid5` at which
no pattern matches. -/
theorem ramp_rejected_without_asset_witness :
    cliff_quad env0 ramp_grid 1 0 = plain_cliff ramp_grid 1 0
    ∧ cliff_quad env0 ramp_grid_h 0 1 = plain_cliff ramp_grid_h 0 1
    ∧ cliff_quad env0 grid5 0 0 = plain_cliff grid5 0 0 :=
  ⟨(ramp_rejected_without_asset env0 ramp_grid 1 0).1 (by decide!) rfl,
    (ramp_rejected_without_asset env0 ramp_grid_h 0 1).2.1 (by decide!) rfl,
    (ramp_rejected_without_asset env0 grid5 0 0).2.2.1 (by decide!) (by decide!)⟩

/-! ## The identifier of a quad with a lower bottom-left corner -/

theorem no_ramp_no_pattern (t : Terrain) (i j : Int)
    (hramp : (t.corners i j).ramp = false ∧ (t.corners (i + 1) j).ramp = false
      ∧ (t.corners i (j + 1)).ramp = false) :
    ¬ vertical_ramp_matches t i j ∧ ¬ horizontal_ramp_matches t i j := by
  obtain ⟨h1, h2, h3⟩ := hramp
  constructor
  · rintro ⟨-, -, -, -, -, -, h⟩
    exact h (by rw [h1, h2])
  · rintro ⟨-, -, -, -, -, -, h⟩
    exact h (by rw [h1, h3])

/-- C11 (amended): for a quad whose bottom-left corner has layer_height 0 and whose other three
corners have layer_height 1, without ramp flags: when the bottom-left corner carries the cliff
flag that create and resize compute for the quad (true when the four layer heights are not all
equal) and is not ramp-active (romp is false), then the cliff flag is true and
update_cliff_meshes synthesizes at this quad the letters "BBBA" (top-left, top-right,
bottom-right, bottom-left), looks up "BBBA" followed by the variation clamped to the authored
variation count, and emits exactly one placement for it. -/
theorem lower_bottom_left_is_BBBA (env : Assets) (t : Terrain) (i j : Int)
    (hbl : (t.corners i j).layer_height = 0) (hbr : (t.corners (i + 1) j).layer_height = 1)
    (htl : (t.corners i (j + 1)).layer_height = 1)
    (htr : (t.corners (i + 1) (j + 1)).layer_height = 1)
    (hramp : (t.corners i j).ramp = false ∧ (t.corners (i + 1) j).ramp = false
      ∧ (t.corners i (j + 1)).ramp = false ∧ (t.corners (i + 1) (j + 1)).ramp = false)
    (hcliff : (t.corners i j).cliff = quad_is_cliff t.corners i j)
    (hromp : (t.corners i j).romp = false) :
    (t.corners i j).cliff = true
    ∧ cliff_letters t i j = cstr "BBBA"
    ∧ cliff_key t i j = cstr "BBBA" ++ to_string (clamp (t.corners i j).cliff_variation 0
        (StrMap.index t.cliff_variations (cstr "BBBA")).1)
    ∧ (cliff_quad env t i j).cliffs
        = t.cliffs ++ [(i, j, (StrMap.index t.path_to_cliff (cliff_key t i j)).1)] := by
  have hc : (t.corners i j).cliff = true := by
    rw [hcliff]
    simp [quad_is_cliff, hbl, hbr]
  have hl : cliff_letters t i j = cstr "BBBA" := by
    unfold cliff_letters
    simp only [hbl, hbr, htl, htr]
    decide
  obtain ⟨hv, hh⟩ := no_ramp_no_pattern t i j ⟨hramp.1, hramp.2.1, hramp.2.2.1⟩
  have hq : cliff_quad env t i j = plain_cliff t i j := by
    simp [cliff_quad, vertical_ramp_eq, horizontal_ramp_eq, hv, hh]
  have he : is_corner_ramp_entrance t i j = false := by
    simp [is_corner_ramp_entrance, hramp.1]
  refine ⟨hc, hl, by rw [cliff_key, hl], ?_⟩
  rw [hq]
  unfold plain_cliff cliff_key
  simp only [hc, hromp, he, hl]
  rfl

/-- Witness of C11 on the 2 x 2 example grid, in the state in which create calls
update_cliff_meshes: the key is "BBBA0" and the placement is the mesh 1 registered for it. -/
theorem lower_bottom_left_is_BBBA_witness :
    ((create_tables env_bbba lower_bottom_left2).corners 0 0).cliff = true
    ∧ cliff_letters (create_tables env_bbba lower_bottom_left2) 0 0 = cstr "BBBA"
    ∧ cliff_key (create_tables env_bbba lower_bottom_left2) 0 0
        = cstr "BBBA" ++ to_string (clamp
          ((create_tables env_bbba lower_bottom_left2).corners 0 0).cliff_variation 0
          (StrMap.index (create_tables env_bbba lower_bottom_left2).cliff_variations
            (cstr "BBBA")).1)
    ∧ (cliff_quad env_bbba (create_tables env_bbba lower_bottom_left2) 0 0).cliffs
        = (create_tables env_bbba lower_bottom_left2).cliffs
          ++ [(0, 0, (StrMap.index (create_tables env_bbba lower_bottom_left2).path_to_cliff
            (cliff_key (create_tables env_bbba lower_bottom_left2) 0 0)).1)] :=
  lower_bottom_left_is_BBBA env_bbba (create_tables env_bbba lower_bottom_left2) 0 0
    (by decide!) (by decide!) (by decide!) (by decide!)
    ⟨by decide!, by decide!, by decide!, by decide!⟩ (by decide!) (by decide!)

/-! ## Accesses to `corners` -/

/-- C19: on a 2 x 2 grid, the call is_corner_ramp_entrance(1, 0), whose x is width - 1 and so not
the origin of a quad, passes the guard `x == width || y == height`, subscripts corners[2][0] and
corners[2][1] outside the grid, and returns true when the corners found there carry ramp
flags; only at x = width itself does the guard return false without an access. -/
theorem is_corner_ramp_entrance_overruns :
    is_corner_ramp_entrance_accesses overrun2 1 0 = [(1, 0), (2, 0), (1, 1), (2, 1)]
    ∧ ¬ in_grid overrun2 (2, 0)
    ∧ ¬ in_grid overrun2 (2, 1)
    ∧ is_corner_ramp_entrance overrun2 1 0 = true
    ∧ is_corner_ramp_entrance_accesses overrun2 2 0 = []
    ∧ is_corner_ramp_entrance overrun2 2 0 = false := by
  decide!

theorem intersected_bounds (a : QRect) (W H : Int) (hW : 0 ≤ W) (hH : 0 ≤ H) :
    0 ≤ (a.intersected (QRect.make 0 0 W H)).x1
    ∧ (a.intersected (QRect.make 0 0 W H)).x2 ≤ W - 1
    ∧ 0 ≤ (a.intersected (QRect.make 0 0 W H)).y1
    ∧ (a.intersected (QRect.make 0 0 W H)).y2 ≤ H - 1 := by
  unfold QRect.intersected QRect.make QRect.null
  simp only []
  split_ifs <;> simp only [] <;> refine ⟨?_, ?_, ?_, ?_⟩ <;> omega

/-! ## Texture descriptors -/

theorem mem_set_insert (a x : Int) (s : List Int) : x ∈ set_insert a s ↔ x = a ∨ x ∈ s := by
  induction s with
  | nil => simp [set_insert]
  | cons b s ih =>
    unfold set_insert
    split_ifs with h1 h2
    · simp
    · subst h2
      simp
    · simp only [List.mem_cons, ih]
      tauto

theorem sorted_set_insert (a : Int) (s : List Int) (hs : s.Pairwise (fun u v => u < v)) :
    (set_insert a s).Pairwise (fun u v => u < v) := by
  induction s with
  | nil => simp [set_insert]
  | cons b s ih =>
    rw [List.pairwise_cons] at hs
    unfold set_insert
    split_ifs with h1 h2
    · refine List.pairwise_cons.mpr ⟨?_, List.pairwise_cons.mpr hs⟩
      intro v hv
      rcases List.mem_cons.mp hv with rfl | hv
      · exact h1
      · exact lt_trans h1 (hs.1 v hv)
    · exact List.pairwise_cons.mpr hs
    · refine List.pairwise_cons.mpr ⟨?_, ih hs.2⟩
      intro v hv
      rcases (mem_set_insert a v s).mp hv with rfl | hv
      · omega
      · exact hs.1 v hv

theorem length_set_insert (a : Int) (s : List Int) : (set_insert a s).length ≤ s.length + 1 := by
  induction s with
  | nil => simp [set_insert]
  | cons b s ih =>
    unfold set_insert
    split_ifs <;> simp only [List.length_cons] <;> omega

theorem foldl_set_insert (l s : List Int) (hs : s.Pairwise (fun u v => u < v)) :
    (l.foldl (fun s a => set_insert a s) s).Pairwise (fun u v => u < v)
    ∧ (l.foldl (fun s a => set_insert a s) s).length ≤ s.length + l.length
    ∧ ∀ x, x ∈ l.foldl (fun s a => set_insert a s) s ↔ x ∈ s ∨ x ∈ l := by
  induction l generalizing s with
  | nil => simp [hs]
  | cons a l ih =>
    obtain ⟨h1, h2, h3⟩ := ih (set_insert a s) (sorted_set_insert a s hs)
    refine ⟨h1, ?_, ?_⟩
    · have := length_set_insert a s
      simp only [List.foldl_cons, List.length_cons]
      omega
    · intro x
      simp only [List.foldl_cons, h3, mem_set_insert, List.mem_cons]
      tauto

/-- The `std::set` built from a list holds the list's elements in strictly ascending order. -/
theorem std_set_spec (l : List Int) :
    (std_set l).Pairwise (fun u v => u < v) ∧ (std_set l).length ≤ l.length
    ∧ ∀ x, x ∈ std_set l ↔ x ∈ l := by
  obtain ⟨h1, h2, h3⟩ := foldl_set_insert l [] List.Pairwise.nil
  refine ⟨h1, by simpa using h2, ?_⟩
  intro x
  simpa using h3 x

theorem mask_bits (p q r s : Bool) :
    0 ≤ b2i p + 2 * b2i q + 4 * b2i r + 8 * b2i s
    ∧ b2i p + 2 * b2i q + 4 * b2i r + 8 * b2i s < 16
    ∧ ((b2i p + 2 * b2i q + 4 * b2i r + 8 * b2i s) % 2 = 1 ↔ p = true)
    ∧ ((b2i p + 2 * b2i q + 4 * b2i r + 8 * b2i s) / 2 % 2 = 1 ↔ q = true)
    ∧ ((b2i p + 2 * b2i q + 4 * b2i r + 8 * b2i s) / 4 % 2 = 1 ↔ r = true)
    ∧ ((b2i p + 2 * b2i q + 4 * b2i r + 8 * b2i s) / 8 % 2 = 1 ↔ s = true) := by
  cases p <;> cases q <;> cases r <;> cases s <;> decide

theorem to_u16_small (v : Int) (h0 : 0 ≤ v) (h1 : v < 65536) : ((to_u16 v : Nat) : Int) = v := by
  unfold to_u16
  omega

theorem get_texture_variations_eq (t : Terrain) (x y : Int) :
    get_texture_variations t x y =
      match std_set (quad_textures t x y) with
      | [] => ⟨17, 17, 17, 17⟩
      | first :: rest =>
        (rest.foldl (fun (acc : U16Vec4 × Nat) texture =>
          (U16Vec4.set acc.1 acc.2 (texture
            + (b2i (real_tile_texture t (x + 1) y == texture)
              + 2 * b2i (real_tile_texture t x y == texture)
              + 4 * b2i (real_tile_texture t (x + 1) (y + 1) == texture)
              + 8 * b2i (real_tile_texture t x (y + 1) == texture)) * 2 ^ 5), acc.2 + 1))
          (U16Vec4.set ⟨17, 17, 17, 17⟩ 0
            (first + get_tile_variation t first (t.corners x y).ground_variation * 2 ^ 5), 1)).1 :=
  rfl

/-- C15: in get_texture_variations, every effective texture of the quad's four corners other
than the base (the least one, stored first in the set) is encoded in a component 1..3 of its
own as texture + (mask << 5), where bit 0 of the 4-bit mask is set iff the bottom-right corner's
effective texture is that texture, bit 1 iff the bottom-left's is, bit 2 iff the top-right's is
and bit 3 iff the top-left's is; for a texture index in 0..31 the low 5 bits of the component
are the texture index and the bits above them are the mask. -/
theorem texture_variations_blend_mask (t : Terrain) (x y : Int) (texture : Int)
    (hmem : texture ∈ quad_textures t x y)
    (hbase : ∃ b ∈ quad_textures t x y, b < texture) :
    ∃ (component : Nat) (mask : Int),
      (1 ≤ component ∧ component ≤ 3)
      ∧ (std_set (quad_textures t x y))[component]? = some texture
      ∧ (0 ≤ mask ∧ mask < 16)
      ∧ (mask % 2 = 1 ↔ real_tile_texture t (x + 1) y = texture)
      ∧ (mask / 2 % 2 = 1 ↔ real_tile_texture t x y = texture)
      ∧ (mask / 4 % 2 = 1 ↔ real_tile_texture t (x + 1) (y + 1) = texture)
      ∧ (mask / 8 % 2 = 1 ↔ real_tile_texture t x (y + 1) = texture)
      ∧ (get_texture_variations t x y).get component = to_u16 (texture + mask * 2 ^ 5)
      ∧ (0 ≤ texture → texture < 32 →
          ((get_texture_variations t x y).get component : Int) % 32 = texture
          ∧ ((get_texture_variations t x y).get component : Int) / 32 = mask) := by
  obtain ⟨hsorted, hlen, hmemset⟩ := std_set_spec (quad_textures t x y)
  obtain ⟨m0, m1, m2, m3, m4, m5⟩ := mask_bits (real_tile_texture t (x + 1) y == texture)
    (real_tile_texture t x y == texture) (real_tile_texture t (x + 1) (y + 1) == texture)
    (real_tile_texture t x (y + 1) == texture)
  simp only [beq_iff_eq] at m2 m3 m4 m5
  have hlen4 : (std_set (quad_textures t x y)).length ≤ 4 := by
    simpa [quad_textures] using hlen
  obtain ⟨b, hb, hlt⟩ := hbase
  have htex := (hmemset texture).mpr hmem
  have hbs := (hmemset b).mpr hb
  have hlow : ∀ v : Int, 0 ≤ texture → texture < 32 →
      v = b2i (real_tile_texture t (x + 1) y == texture)
        + 2 * b2i (real_tile_texture t x y == texture)
        + 4 * b2i (real_tile_texture t (x + 1) (y + 1) == texture)
        + 8 * b2i (real_tile_texture t x (y + 1) == texture) →
      ((to_u16 (texture + v * 2 ^ 5) : Nat) : Int) % 32 = texture
        ∧ ((to_u16 (texture + v * 2 ^ 5) : Nat) : Int) / 32 = v := by
    intro v h0 h1 hv
    rw [← hv] at m0 m1
    rw [to_u16_small _ (by omega) (by omega)]
    omega
  rw [get_texture_variations_eq]
  generalize std_set (quad_textures t x y) = s at hsorted hlen4 htex hbs
  have key : ∀ (component : Nat) (tiles : U16Vec4),
      (1 ≤ component ∧ component ≤ 3) → s[component]? = some texture →
      tiles.get component = to_u16 (texture
        + (b2i (real_tile_texture t (x + 1) y == texture)
          + 2 * b2i (real_tile_texture t x y == texture)
          + 4 * b2i (real_tile_texture t (x + 1) (y + 1) == texture)
          + 8 * b2i (real_tile_texture t x (y + 1) == texture)) * 2 ^ 5) →
      ∃ (component : Nat) (mask : Int),
      (1 ≤ component ∧ component ≤ 3)
      ∧ s[component]? = some texture
      ∧ (0 ≤ mask ∧ mask < 16)
      ∧ (mask % 2 = 1 ↔ real_tile_texture t (x + 1) y = texture)
      ∧ (mask / 2 % 2 = 1 ↔ real_tile_texture t x y = texture)
      ∧ (mask / 4 % 2 = 1 ↔ real_tile_texture t (x + 1) (y + 1) = texture)
      ∧ (mask / 8 % 2 = 1 ↔ real_tile_texture t x (y + 1) = texture)
      ∧ tiles.get component = to_u16 (texture + mask * 2 ^ 5)
      ∧ (0 ≤ texture → texture < 32 →
          (tiles.get component : Int) % 32 = texture
          ∧ (tiles.get component : Int) / 32 = mask) := by
    intro component tiles hc hs ht
    refine ⟨component, _, hc, hs, ⟨m0, m1⟩, m2, m3, m4, m5, ht, ?_⟩
    intro h0 h1
    rw [ht]
    exact hlow _ h0 h1 rfl
  rcases s with _ | ⟨first, rest⟩
  · simp at htex
  · rw [List.pairwise_cons] at hsorted
    have hne : texture ≠ first := by
      rintro rfl
      rcases List.mem_cons.mp hbs with rfl | hbr
      · omega
      · have := hsorted.1 b hbr
        omega
    have hrest : texture ∈ rest := by
      rcases List.mem_cons.mp htex with h | h
      · exact absurd h hne
      · exact h
    rcases rest with _ | ⟨a, _ | ⟨b2, _ | ⟨c, _ | ⟨d, r⟩⟩⟩⟩
    · simp at hrest
    · simp only [List.mem_singleton] at hrest
      subst hrest
      exact key 1 _ ⟨by omega, by omega⟩ rfl rfl
    · have hab : a < b2 := by
        have := hsorted.2
        simp only [List.pairwise_cons, List.mem_cons, List.mem_singleton, forall_eq_or_imp,
          forall_eq] at this
        tauto
      simp only [List.mem_cons, List.mem_singleton, List.not_mem_nil, or_false] at hrest
      rcases hrest with rfl | rfl
      · exact key 1 _ ⟨by omega, by omega⟩ rfl rfl
      · exact key 2 _ ⟨by omega, by omega⟩ rfl rfl
    · simp only [List.mem_cons, List.mem_singleton, List.not_mem_nil, or_false] at hrest
      rcases hrest with rfl | rfl | rfl
      · exact key 1 _ ⟨by omega, by omega⟩ rfl rfl
      · exact key 2 _ ⟨by omega, by omega⟩ rfl rfl
      · exact key 3 _ ⟨by omega, by omega⟩ rfl rfl
    · simp only [List.length_cons] at hlen4
      omega

theorem texture_variations_blend_mask_witness :
    ∃ (component : Nat) (mask : Int),
      (1 ≤ component ∧ component ≤ 3)
      ∧ (std_set (quad_textures two_textures 0 0))[component]? = some 3
      ∧ (0 ≤ mask ∧ mask < 16)
      ∧ (mask % 2 = 1 ↔ real_tile_texture two_textures (0 + 1) 0 = 3)
      ∧ (mask / 2 % 2 = 1 ↔ real_tile_texture two_textures 0 0 = 3)
      ∧ (mask / 4 % 2 = 1 ↔ real_tile_texture two_textures (0 + 1) (0 + 1) = 3)
      ∧ (mask / 8 % 2 = 1 ↔ real_tile_texture two_textures 0 (0 + 1) = 3)
      ∧ (get_texture_variations two_textures 0 0).get component = to_u16 (3 + mask * 2 ^ 5)
      ∧ (0 ≤ (3 : Int) → (3 : Int) < 32 →
          ((get_texture_variations two_textures 0 0).get component : Int) % 32 = 3
          ∧ ((get_texture_variations two_textures 0 0).get component : Int) / 32 = mask) :=
  texture_variations_blend_mask two_textures 0 0 3 (by decide!) ⟨1, by decide!, by decide⟩

theorem two_textures_descriptor :
    get_texture_variations two_textures 0 0 = ⟨1, 3 + 1 * 32, 17, 17⟩ := by
  decide!

/-! ## Effective texture of a corner -/

theorem real_tile_texture_step_eq (t : Terrain) (x y i j : Int) :
    real_tile_texture_step t x y i j =
      if ends_search t (x + i) (y + j) = true then
        if entrance_cliff t (x + i) (y + j) = true then Scan.out
        else Scan.ret (cliff_ground_texture t (x + i) (y + j))
      else Scan.next := by
  unfold real_tile_texture_step ends_search entrance_cliff cliff_ground_texture
  by_cases hb : x + i ≥ 0 ∧ x + i < t.width ∧ y + j ≥ 0 ∧ y + j < t.height
  · by_cases hc : (t.corners (x + i) (y + j)).cliff = true
    · by_cases hr : (t.corners (x + i) (y + j)).romp = true
      · simp [hb, hc, hr]
      · simp [hb, hc, hr]
    · by_cases hr : (t.corners (x + i) (y + j)).romp = true
      · simp [hb, hc, hr]
      · simp [hb, hc, hr]
  · simp [hb]

theorem real_tile_texture_scan_eq (t : Terrain) (x y : Int) (ps : List (Int × Int)) :
    (match real_tile_texture_scan t x y ps with
      | some v => v
      | none => own_texture t x y)
    = match (ps.map (fun p => (x + p.1, y + p.2))).find?
          (fun p => ends_search t p.1 p.2) with
      | some p =>
        if entrance_cliff t p.1 p.2 = true then own_texture t x y
        else cliff_ground_texture t p.1 p.2
      | none => own_texture t x y := by
  induction ps with
  | nil => rfl
  | cons p ps ih =>
    simp only [real_tile_texture_scan, real_tile_texture_step_eq, List.map_cons, List.find?_cons]
    by_cases h1 : ends_search t (x + p.1) (y + p.2) = true
    · by_cases h2 : entrance_cliff t (x + p.1) (y + p.2) = true
      · simp [h1, h2]
      · simp [h1, h2]
    · rw [Bool.not_eq_true] at h1
      simp only [h1, Bool.false_eq_true, if_false]
      exact ih

/-- C16 (amended): real_tile_texture(x, y) visits the window corners (x-1, y-1), (x-1, y),
(x, y-1), (x, y) in this order, and the first in-bounds one that carries romp or cliff decides
alone: if it is a cliff at the origin of a quad whose four corners all carry ramp and none
carries romp, the search is abandoned and the result is blight_texture when corners[x][y].blight
is set and corners[x][y].ground_texture otherwise, whatever the later window corners hold;
otherwise the result is cliff_to_ground_texture at that corner's cliff_texture (15 read as 1).
When no in-bounds window corner carries romp or cliff the result is blight_texture when
corners[x][y].blight is set and corners[x][y].ground_texture otherwise. -/
theorem real_tile_texture_first_hit (t : Terrain) (x y : Int) :
    texture_window x y = [(x + -1, y + -1), (x + -1, y + 0), (x + 0, y + -1), (x + 0, y + 0)]
    ∧ real_tile_texture t x y =
      match (texture_window x y).find? (fun p => ends_search t p.1 p.2) with
      | some p =>
        if entrance_cliff t p.1 p.2 = true then
          (if (t.corners x y).blight = true then t.blight_texture
            else (t.corners x y).ground_texture)
        else cliff_ground_texture t p.1 p.2
      | none =>
        if (t.corners x y).blight = true then t.blight_texture
        else (t.corners x y).ground_texture := by
  refine ⟨rfl, ?_⟩
  exact real_tile_texture_scan_eq t x y (rect_xy (-1) 1 (-1) 1)

/-- C16: on the 3 x 3 grid entrance_grid after create, the window of real_tile_texture(1, 1)
holds the corner (1, 1), a cliff that is not a fully-ramped entrance (its quad neighbour (2, 1)
carries no ramp flag), and every window corner's cliff texture maps to ground texture 1; the
function nevertheless returns corners[1][1].ground_texture = 0, because the corner (0, 0)
visited first is a fully-ramped entrance cliff and ends the whole search. -/
theorem real_tile_texture_abandons_search :
    ((create entrance_env entrance_grid).corners 1 1).cliff = true
    ∧ ((create entrance_env entrance_grid).corners 2 1).ramp = false
    ∧ is_corner_ramp_entrance (create entrance_env entrance_grid) 1 1 = false
    ∧ entrance_cliff (create entrance_env entrance_grid) 1 1 = false
    ∧ (∀ p ∈ texture_window 1 1,
        cliff_ground_texture (create entrance_env entrance_grid) p.1 p.2 = 1)
    ∧ ((create entrance_env entrance_grid).corners 1 1).blight = false
    ∧ ((create entrance_env entrance_grid).corners 1 1).ground_texture = 0
    ∧ entrance_cliff (create entrance_env entrance_grid) 0 0 = true
    ∧ real_tile_texture (create entrance_env entrance_grid) 1 1 = 0 := by
  decide!

/-! ## Flat grids -/

theorem foldl_invariant {α β : Type} (P : α → Prop) (f : α → β → α) (ps : List β)
    (h : ∀ s p, p ∈ ps → P s → P (f s p)) (s : α) (hs : P s) : P (ps.foldl f s) := by
  induction ps generalizing s with
  | nil => exact hs
  | cons p ps ih =>
    rw [List.foldl_cons]
    exact ih (fun s q hq => h s q (List.mem_cons_of_mem _ hq)) _
      (h s p (List.mem_cons_self _ _) hs)

theorem lookup_cons_if {V : Type} (m : StdMap V) (a k : CString) (b : V) :
    List.lookup k ((a, b) :: m) = if k = a then some b else m.lookup k := by
  rw [List.lookup_cons]
  by_cases h : k = a
  · subst h
    simp
  · have : (k == a) = false := by simpa using h
    simp [this, h]

theorem lookup_map_assign {V : Type} (m : StdMap V) (k k2 : CString) (v : V) :
    (m.map (fun e => if e.1 = k then (k, v) else e)).lookup k2
      = if k2 = k then (m.lookup k).map (fun _ => v) else m.lookup k2 := by
  induction m with
  | nil => simp
  | cons e m ih =>
    obtain ⟨a, b⟩ := e
    rw [List.map_cons]
    by_cases ha : a = k
    · subst ha
      rw [if_pos rfl, lookup_cons_if, lookup_cons_if, lookup_cons_if, ih]
      by_cases hk : k2 = a
      · simp [hk]
      · simp [hk]
    · rw [if_neg ha, lookup_cons_if, lookup_cons_if, lookup_cons_if, ih]
      by_cases hk : k2 = k
      · subst hk
        have : ¬ k2 = a := fun h => ha h.symm
        simp [this]
      · simp [hk]

theorem lookup_assign {V : Type} (m : StdMap V) (k k2 : CString) (v : V) :
    (StdMap.assign m k v).lookup k2 = if k2 = k then some v else m.lookup k2 := by
  unfold StdMap.assign StdMap.contains
  split_ifs with hc hk hk
  · rw [lookup_map_assign, if_pos hk]
    obtain ⟨w, hw⟩ := Option.isSome_iff_exists.mp hc
    rw [hw]
    rfl
  · rw [lookup_map_assign, if_neg hk]
  · subst hk
    have hn : m.lookup k2 = none := by
      cases h : m.lookup k2 with
      | none => rfl
      | some w => simp [h] at hc
    rw [List.lookup_append, hn, lookup_cons_if]
    simp
  · rw [List.lookup_append, lookup_cons_if, if_neg hk]
    simp

/-! ## `INI::load` -/

theorem cstr_slashes : cstr "//" = [47, 47] := by decide

theorem load_line_key_value (split : CString → Nat → List CString) (s : IniState)
    (line : CString) (found : Nat)
    (hcomment : ¬ (line.take 2 = cstr "//" ∨ line = [] ∨ line.head? = some 59))
    (hhead : line.head? ≠ some 91) (hfound : find line 61 = some found)
    (hkey : fix_key (line.take found) ≠ []) (hvalue : line.drop (found + 1) ≠ []) :
    load_line split s line =
      ⟨StdMap.assign s.ini_data s.current_section
        (StdMap.assign ((s.ini_data.lookup s.current_section).getD [])
          (fix_key (line.take found)) ((split (line_value line found) 44).map strip_quotes)),
        s.current_section⟩ := by
  unfold load_line line_value
  rw [if_neg hcomment, if_neg hhead, hfound]
  simp only []
  rw [if_neg (by tauto)]

theorem whole_data_assign (d : IniData) (sect key : CString) (parts : List CString) :
    INI.whole_data (StdMap.assign d sect (StdMap.assign ((d.lookup sect).getD []) key parts))
      sect key = parts := by
  unfold INI.whole_data StdMap.contains
  simp [lookup_assign]

/-- C21 (amended): INI::load treats a line as a comment when it begins with "//" and also when
it begins with ';': such a line is skipped, it leaves ini_data and the current section as they
are, so a line ";a=b" is not stored. A line that is not empty, begins with neither "//" nor ';'
nor '[' and has a non-empty key before its first '=' and a non-empty value after it is stored
under the current section. -/
theorem comment_lines_skipped (split : CString → Nat → List CString) (s : IniState)
    (line : CString) :
    (line.take 2 = cstr "//" ∨ line.head? = some 59 → load_line split s line = s)
    ∧ (∀ found : Nat, ¬ (line.take 2 = cstr "//" ∨ line = [] ∨ line.head? = some 59) →
        line.head? ≠ some 91 → find line 61 = some found →
        fix_key (line.take found) ≠ [] → line.drop (found + 1) ≠ [] →
        (load_line split s line).current_section = s.current_section
        ∧ INI.whole_data (load_line split s line).ini_data s.current_section
            (fix_key (line.take found)) = (split (line_value line found) 44).map strip_quotes) := by
  constructor
  · intro h
    unfold load_line
    rw [if_pos (by tauto)]
  · intro found h1 h2 h3 h4 h5
    rw [load_line_key_value split s line found h1 h2 h3 h4 h5]
    exact ⟨rfl, whole_data_assign _ _ _ _⟩

theorem comment_lines_skipped_witness :
    load_line split_on ⟨[(cstr "s", [])], cstr "s"⟩ (cstr ";a=b")
        = ⟨[(cstr "s", [])], cstr "s"⟩
    ∧ INI.whole_data (load_line split_on ⟨[(cstr "s", [])], cstr "s"⟩ (cstr "c=d")).ini_data
        (cstr "s") (cstr "c") = [cstr "d"] :=
  ⟨(comment_lines_skipped split_on ⟨[(cstr "s", [])], cstr "s"⟩ (cstr ";a=b")).1
      (Or.inr (by decide)),
    ((comment_lines_skipped split_on ⟨[(cstr "s", [])], cstr "s"⟩ (cstr "c=d")).2 1
      (by decide!) (by decide) (by decide!) (by decide!) (by decide!)).2⟩

/-- C21: the file "[s]", ";a=b", "c=d" has a line that begins with ';' and contains '='; the
claim has it stored as a key/value entry of the section s, but INI::load skips it: the
section s holds the key c alone and no key ";a". -/
theorem semicolon_line_not_stored :
    load_lines semicolon_file = [cstr "[s]", cstr ";a=b", cstr "c=d"]
    ∧ INI.load split_on [] semicolon_file = [(cstr "s", [(cstr "c", [cstr "d"])])]
    ∧ INI.key_exists (INI.load split_on [] semicolon_file) (cstr "s") (cstr ";a") = false
    ∧ INI.key_exists (INI.load split_on [] semicolon_file) (cstr "s") (cstr "c") = true := by
  decide!

/-- C30: a section header that names a section ini_data already contains changes neither
ini_data nor the current section, so the keys stored under the first occurrence are kept and
the lines that follow are processed as if the header were not there; a key/value line after
it is stored under the section that was current before the header, and the section the header
names, when it is another one, stays as it was. -/
theorem repeated_header_keeps_section (split : CString → Nat → List CString) (s : IniState)
    (line : CString) (hhead : line.head? = some 91)
    (hexists : StdMap.contains s.ini_data (section_name line) = true) :
    load_line split s line = s
    ∧ (∀ lines : List CString,
        (line :: lines).foldl (load_line split) s = lines.foldl (load_line split) s)
    ∧ (∀ (kv : CString) (found : Nat),
        ¬ (kv.take 2 = cstr "//" ∨ kv = [] ∨ kv.head? = some 59) →
        kv.head? ≠ some 91 → find kv 61 = some found →
        fix_key (kv.take found) ≠ [] → kv.drop (found + 1) ≠ [] →
        (load_line split (load_line split s line) kv).current_section = s.current_section
        ∧ INI.whole_data (load_line split (load_line split s line) kv).ini_data
            s.current_section (fix_key (kv.take found))
            = (split (line_value kv found) 44).map strip_quotes
        ∧ (section_name line ≠ s.current_section →
            (load_line split (load_line split s line) kv).ini_data.lookup (section_name line)
              = s.ini_data.lookup (section_name line))) := by
  have hc : ¬ (line.take 2 = cstr "//" ∨ line = [] ∨ line.head? = some 59) := by
    cases line with
    | nil => simp at hhead
    | cons c rest =>
      simp only [List.head?_cons, Option.some.injEq] at hhead
      subst hhead
      simp [cstr_slashes]
  have h0 : load_line split s line = s := by
    unfold load_line
    rw [if_neg hc, if_pos hhead]
    simp only [hexists, if_true]
  refine ⟨h0, ?_, ?_⟩
  · intro lines
    rw [List.foldl_cons, h0]
  · intro kv found h1 h2 h3 h4 h5
    rw [h0, load_line_key_value split s kv found h1 h2 h3 h4 h5]
    refine ⟨rfl, whole_data_assign _ _ _ _, ?_⟩
    intro hne
    simp only []
    rw [lookup_assign, if_neg hne]

theorem repeated_header_keeps_section_witness :
    load_line split_on ⟨[(cstr "a", [(cstr "x", [cstr "1"])]), (cstr "b", [])], cstr "b"⟩
        (cstr "[a]")
      = ⟨[(cstr "a", [(cstr "x", [cstr "1"])]), (cstr "b", [])], cstr "b"⟩ :=
  (repeated_header_keeps_section split_on
    ⟨[(cstr "a", [(cstr "x", [cstr "1"])]), (cstr "b", [])], cstr "b"⟩ (cstr "[a]")
    (by decide) (by decide!)).1

theorem repeated_file_loaded :
    INI.load split_on [] repeated_file
      = [(cstr "a", [(cstr "x", [cstr "1"])]),
          (cstr "b", [(cstr "y", [cstr "2"]), (cstr "z", [cstr "3"])])] := by
  decide!

/-! ## Base layer and blend masks of a texture descriptor -/

theorem blend_mask_bit (t : Terrain) (x y : Int) (texture : Int) (bit : Nat) (hbit : bit < 4) :
    test_bit (blend_mask t x y texture) bit = true ↔ mask_corner t x y bit = texture := by
  obtain ⟨-, -, m2, m3, m4, m5⟩ := mask_bits (real_tile_texture t (x + 1) y == texture)
    (real_tile_texture t x y == texture) (real_tile_texture t (x + 1) (y + 1) == texture)
    (real_tile_texture t x (y + 1) == texture)
  simp only [beq_iff_eq] at m2 m3 m4 m5
  unfold test_bit blend_mask mask_corner
  rw [decide_eq_true_iff]
  rcases bit with _ | _ | _ | _ | bit
  · simpa using m2
  · simpa using m3
  · simpa using m4
  · simpa using m5
  · omega

theorem blend_mask_range (t : Terrain) (x y : Int) (texture : Int) :
    0 ≤ blend_mask t x y texture ∧ blend_mask t x y texture < 16 := by
  obtain ⟨m0, m1, -⟩ := mask_bits (real_tile_texture t (x + 1) y == texture)
    (real_tile_texture t x y == texture) (real_tile_texture t (x + 1) (y + 1) == texture)
    (real_tile_texture t x (y + 1) == texture)
  exact ⟨m0, m1⟩

theorem mask_corner_mem (t : Terrain) (x y : Int) (bit : Nat) :
    mask_corner t x y bit ∈ quad_textures t x y := by
  unfold mask_corner quad_textures
  rcases bit with _ | _ | _ | bit <;> simp

theorem mem_quad_textures (t : Terrain) (x y : Int) (u : Int) (h : u ∈ quad_textures t x y) :
    ∃ bit, bit < 4 ∧ mask_corner t x y bit = u := by
  unfold quad_textures at h
  simp only [List.mem_cons, List.mem_singleton, List.not_mem_nil, or_false] at h
  rcases h with rfl | rfl | rfl | rfl
  · exact ⟨1, by omega, rfl⟩
  · exact ⟨0, by omega, rfl⟩
  · exact ⟨3, by omega, rfl⟩
  · exact ⟨2, by omega, rfl⟩

theorem get_texture_variations_masks (t : Terrain) (x y : Int) :
    get_texture_variations t x y =
      match std_set (quad_textures t x y) with
      | [] => ⟨17, 17, 17, 17⟩
      | first :: rest =>
        (rest.foldl (fun (acc : U16Vec4 × Nat) texture =>
          (U16Vec4.set acc.1 acc.2 (texture + blend_mask t x y texture * 2 ^ 5), acc.2 + 1))
          (U16Vec4.set ⟨17, 17, 17, 17⟩ 0
            (first + get_tile_variation t first (t.corners x y).ground_variation * 2 ^ 5), 1)).1 :=
  rfl

/-- The components that the loop of `get_texture_variations` leaves behind, for a set of at
most four textures. -/
theorem descriptor_components (rest : List Int) (v : Int) (M : Int → Int)
    (hlen : rest.length ≤ 3) :
    ((rest.foldl (fun (acc : U16Vec4 × Nat) texture =>
        (U16Vec4.set acc.1 acc.2 (texture + M texture * 2 ^ 5), acc.2 + 1))
        (U16Vec4.set ⟨17, 17, 17, 17⟩ 0 v, 1)).1.get 0 = to_u16 v)
    ∧ (∀ (k : Nat) (u : Int), rest[k]? = some u →
        (rest.foldl (fun (acc : U16Vec4 × Nat) texture =>
          (U16Vec4.set acc.1 acc.2 (texture + M texture * 2 ^ 5), acc.2 + 1))
          (U16Vec4.set ⟨17, 17, 17, 17⟩ 0 v, 1)).1.get (k + 1) = to_u16 (u + M u * 2 ^ 5))
    ∧ (∀ k : Nat, rest.length < k → k ≤ 3 →
        (rest.foldl (fun (acc : U16Vec4 × Nat) texture =>
          (U16Vec4.set acc.1 acc.2 (texture + M texture * 2 ^ 5), acc.2 + 1))
          (U16Vec4.set ⟨17, 17, 17, 17⟩ 0 v, 1)).1.get k = 17) := by
  rcases rest with _ | ⟨a, _ | ⟨b, _ | ⟨c, _ | ⟨d, r⟩⟩⟩⟩
  · refine ⟨rfl, ?_, ?_⟩
    · intro k u h
      simp at h
    · intro k h1 h2
      rcases k with _ | _ | _ | _ | k
      · simp at h1
      · rfl
      · rfl
      · rfl
      · omega
  · refine ⟨rfl, ?_, ?_⟩
    · intro k u h
      rcases k with _ | k
      · simp at h
        subst h
        rfl
      · simp at h
    · intro k h1 h2
      simp at h1
      rcases k with _ | _ | _ | _ | k
      · omega
      · omega
      · rfl
      · rfl
      · omega
  · refine ⟨rfl, ?_, ?_⟩
    · intro k u h
      rcases k with _ | _ | k
      · simp at h
        subst h
        rfl
      · simp at h
        subst h
        rfl
      · simp at h
    · intro k h1 h2
      simp at h1
      rcases k with _ | _ | _ | _ | k
      · omega
      · omega
      · omega
      · rfl
      · omega
  · refine ⟨rfl, ?_, ?_⟩
    · intro k u h
      rcases k with _ | _ | _ | k
      · simp at h
        subst h
        rfl
      · simp at h
        subst h
        rfl
      · simp at h
        subst h
        rfl
      · simp at h
    · intro k h1 h2
      simp at h1
      omega
  · simp at hlen

/-- C22: in get_texture_variations(x, y), component 0 is b + (get_tile_variation(b,
corners[x][y].ground_variation) << 5), as a 16-bit value, where b is the first element of the
ordered set of the four effective textures, that is the least effective texture of the quad's
corners; the variation is that of the corner (x, y), whichever corner has the texture b. -/
theorem base_component_least_texture (t : Terrain) (x y : Int) :
    ∃ b : Int, (std_set (quad_textures t x y)).head? = some b
      ∧ b ∈ quad_textures t x y
      ∧ (∀ u ∈ quad_textures t x y, b ≤ u)
      ∧ (get_texture_variations t x y).get 0
          = to_u16 (b + get_tile_variation t b (t.corners x y).ground_variation * 2 ^ 5) := by
  obtain ⟨hsorted, hlen, hmemset⟩ := std_set_spec (quad_textures t x y)
  have hlen4 : (std_set (quad_textures t x y)).length ≤ 4 := by
    simpa [quad_textures] using hlen
  have hne : real_tile_texture t x y ∈ std_set (quad_textures t x y) :=
    (hmemset _).mpr (by simp [quad_textures])
  rw [get_texture_variations_masks]
  generalize std_set (quad_textures t x y) = s at hsorted hlen4 hmemset hne
  rcases s with _ | ⟨first, rest⟩
  · simp at hne
  · rw [List.pairwise_cons] at hsorted
    refine ⟨first, rfl, (hmemset first).mp (List.mem_cons_self _ _), ?_, ?_⟩
    · intro u hu
      rcases List.mem_cons.mp ((hmemset u).mpr hu) with rfl | h
      · exact le_refl _
      · exact le_of_lt (hsorted.1 u h)
    · exact (descriptor_components rest _ (blend_mask t x y)
        (by simpa using hlen4)).1

/-- On the grid base_elsewhere the base texture of the quad (0, 0) is 1, the texture of the
three other corners, and it is stored with the variation of the corner (0, 0), whose own
texture is 3. -/
theorem base_component_example :
    quad_textures base_elsewhere 0 0 = [3, 1, 1, 1]
    ∧ (base_elsewhere.corners 0 0).ground_variation = 1
    ∧ get_tile_variation base_elsewhere 1 1 = 15
    ∧ get_texture_variations base_elsewhere 0 0 = ⟨1 + 15 * 32, 3 + 2 * 32, 17, 17⟩ := by
  decide!

/-- C28: in the descriptor of get_texture_variations the distinct effective textures of the
quad's corners are held in ascending order: the base b in component 0 and every further
texture u in the next component as u + (mask << 5) with a mask in 1..15; the components
after them hold the unused value 17, so the number of used components is the number of
distinct effective textures (1 to 4). The masks partition the corners: a corner whose
effective texture is the base has its bit in no mask, any other corner has its bit in the
mask of its own texture and in no other mask. -/
theorem blend_masks_partition (t : Terrain) (x y : Int) :
    ∃ (b : Int) (rest : List Int),
      std_set (quad_textures t x y) = b :: rest
      ∧ (b :: rest).Pairwise (fun u v => u < v)
      ∧ (∀ u, u ∈ b :: rest ↔ u ∈ quad_textures t x y)
      ∧ (b :: rest).length = (quad_textures t x y).dedup.length
      ∧ (1 ≤ (b :: rest).length ∧ (b :: rest).length ≤ 4)
      ∧ (∀ (k : Nat) (u : Int), rest[k]? = some u →
          (get_texture_variations t x y).get (k + 1)
              = to_u16 (u + blend_mask t x y u * 2 ^ 5)
            ∧ 1 ≤ blend_mask t x y u ∧ blend_mask t x y u ≤ 15)
      ∧ (∀ k : Nat, rest.length < k → k ≤ 3 → (get_texture_variations t x y).get k = 17)
      ∧ (∀ u ∈ rest, ∀ v ∈ rest, u ≠ v → ∀ bit : Nat, bit < 4 →
          ¬ (test_bit (blend_mask t x y u) bit = true
            ∧ test_bit (blend_mask t x y v) bit = true))
      ∧ (∀ bit : Nat, bit < 4 →
          (mask_corner t x y bit = b
            ∧ ∀ u ∈ rest, test_bit (blend_mask t x y u) bit = false)
          ∨ (mask_corner t x y bit ≠ b ∧ mask_corner t x y bit ∈ rest
            ∧ ∀ u ∈ rest, (test_bit (blend_mask t x y u) bit = true
                ↔ u = mask_corner t x y bit))) := by
  obtain ⟨hsorted, hlen, hmemset⟩ := std_set_spec (quad_textures t x y)
  have hlen4 : (std_set (quad_textures t x y)).length ≤ 4 := by
    simpa [quad_textures] using hlen
  have hne : real_tile_texture t x y ∈ std_set (quad_textures t x y) :=
    (hmemset _).mpr (by simp [quad_textures])
  have hdedup : (std_set (quad_textures t x y)).length
      = (quad_textures t x y).dedup.length := by
    apply List.Perm.length_eq
    rw [List.perm_ext_iff_of_nodup (hsorted.imp (fun h => ne_of_lt h))
      (List.nodup_dedup _)]
    intro a
    rw [hmemset, List.mem_dedup]
  rw [get_texture_variations_masks]
  generalize std_set (quad_textures t x y) = s at hsorted hlen4 hmemset hne hdedup
  rcases s with _ | ⟨first, rest⟩
  · simp at hne
  · have hcomp := descriptor_components rest
      (first + get_tile_variation t first (t.corners x y).ground_variation * 2 ^ 5)
      (blend_mask t x y) (by simpa using hlen4)
    have hlt : ∀ u ∈ rest, first < u := (List.pairwise_cons.mp hsorted).1
    refine ⟨first, rest, rfl, hsorted, hmemset, hdedup, ⟨by simp, hlen4⟩, ?_, hcomp.2.2, ?_, ?_⟩
    · intro k u hu
      refine ⟨hcomp.2.1 k u hu, ?_, ?_⟩
      · obtain ⟨bit, hbit, hc⟩ := mem_quad_textures t x y u
          ((hmemset u).mp (List.mem_cons_of_mem _ (List.getElem?_mem hu)))
        have hb := (blend_mask_bit t x y u bit hbit).mpr hc
        have h0 := (blend_mask_range t x y u).1
        by_contra hcon
        have hz : blend_mask t x y u = 0 := by omega
        rw [hz] at hb
        simp [test_bit] at hb
      · have := (blend_mask_range t x y u).2
        omega
    · intro u _ v _ huv bit hbit ⟨h1, h2⟩
      rw [blend_mask_bit t x y u bit hbit] at h1
      rw [blend_mask_bit t x y v bit hbit] at h2
      exact huv (h1.symm.trans h2)
    · intro bit hbit
      by_cases hb : mask_corner t x y bit = first
      · left
        refine ⟨hb, ?_⟩
        intro u hu
        rw [Bool.eq_false_iff]
        intro hcon
        rw [blend_mask_bit t x y u bit hbit, hb] at hcon
        have := hlt u hu
        omega
      · right
        refine ⟨hb, ?_, ?_⟩
        · rcases List.mem_cons.mp ((hmemset _).mpr (mask_corner_mem t x y bit)) with h | h
          · exact absurd h hb
          · exact h
        · intro u _
          rw [blend_mask_bit t x y u bit hbit]
          exact eq_comm

/-! ## Registered cliff identifiers -/

theorem strmap_lookup_append (m : StrMap) (k k2 : CString) (v : Int) :
    (m ++ [(k, v)]).lookup k2 = if (m.lookup k2).isSome then m.lookup k2
      else if k2 = k then some v else none := by
  rw [List.lookup_append]
  cases h : m.lookup k2 with
  | some w => simp
  | none =>
    simp only [Option.none_or, Option.isSome_none, Bool.false_eq_true, if_false]
    rw [List.lookup_cons]
    by_cases hk : k2 = k
    · subst hk
      simp
    · have : (k2 == k) = false := by simpa using hk
      simp [this, hk]

theorem emplace_lookup_mono (m : StrMap) (k k2 : CString) (v w : Int)
    (h : m.lookup k2 = some w) : (StrMap.emplace m k v).lookup k2 = some w := by
  unfold StrMap.emplace
  split_ifs
  · exact h
  · rw [strmap_lookup_append, h]
    rfl

theorem emplace_contains_self (m : StrMap) (k : CString) (v : Int) :
    StrMap.contains (StrMap.emplace m k v) k = true := by
  unfold StrMap.emplace
  split_ifs with hc
  · exact hc
  · unfold StrMap.contains at hc ⊢
    rw [strmap_lookup_append]
    simp [hc]

theorem emplace_lookup_new (m : StrMap) (k k2 : CString) (v w : Int)
    (h : (StrMap.emplace m k v).lookup k2 = some w) :
    m.lookup k2 = some w ∨ (StrMap.contains m k = false ∧ k2 = k ∧ w = v) := by
  unfold StrMap.emplace at h
  split_ifs at h with hc
  · exact Or.inl h
  · rw [strmap_lookup_append] at h
    split_ifs at h with h1 h2
    · exact Or.inl h
    · right
      simp only [Option.some.injEq] at h
      exact ⟨by simpa using hc, h2, h.symm⟩

theorem index_lookup_mono (m : StrMap) (k k2 : CString) (w : Int)
    (h : m.lookup k2 = some w) : (StrMap.index m k).2.lookup k2 = some w := by
  unfold StrMap.index
  cases hk : m.lookup k with
  | some v => exact h
  | none =>
    simp only []
    rw [strmap_lookup_append, h]
    rfl

theorem index_of_lookup (m : StrMap) (k : CString) (w : Int) (h : m.lookup k = some w) :
    (StrMap.index m k).1 = w := by
  unfold StrMap.index
  rw [h]

theorem contains_of_lookup (m : StrMap) (k : CString) (w : Int) (h : m.lookup k = some w) :
    StrMap.contains m k = true := by
  unfold StrMap.contains
  rw [h]
  rfl

theorem lookup_of_contains (m : StrMap) (k : CString) (h : StrMap.contains m k = true) :
    ∃ w, m.lookup k = some w :=
  Option.isSome_iff_exists.mp h

/-- The inner loop of "Cliff Meshes" registers the keys `name + "0" .. name + count` and keeps
what is registered. -/
theorem register_variations (name : CString) (js : List Int) (t : Terrain) :
    (js.foldl (fun (t : Terrain) j =>
        { t with
          cliff_meshes := t.cliff_meshes
            ++ [cstr "Doodads/Terrain/Cliffs/Cliffs" ++ name ++ to_string j ++ cstr ".mdx"]
          path_to_cliff := StrMap.emplace t.path_to_cliff (name ++ to_string j)
            (((t.cliff_meshes.length + 1 : Nat) : Int) - 1) }) t).cliff_variations
      = t.cliff_variations
    ∧ (∀ (k : CString) (w : Int), t.path_to_cliff.lookup k = some w →
        (js.foldl (fun (t : Terrain) j =>
          { t with
            cliff_meshes := t.cliff_meshes
              ++ [cstr "Doodads/Terrain/Cliffs/Cliffs" ++ name ++ to_string j ++ cstr ".mdx"]
            path_to_cliff := StrMap.emplace t.path_to_cliff (name ++ to_string j)
              (((t.cliff_meshes.length + 1 : Nat) : Int) - 1) }) t).path_to_cliff.lookup k
          = some w)
    ∧ (∀ j ∈ js,
        StrMap.contains (js.foldl (fun (t : Terrain) j =>
          { t with
            cliff_meshes := t.cliff_meshes
              ++ [cstr "Doodads/Terrain/Cliffs/Cliffs" ++ name ++ to_string j ++ cstr ".mdx"]
            path_to_cliff := StrMap.emplace t.path_to_cliff (name ++ to_string j)
              (((t.cliff_meshes.length + 1 : Nat) : Int) - 1) }) t).path_to_cliff
          (name ++ to_string j) = true) := by
  induction js generalizing t with
  | nil => exact ⟨rfl, fun _ _ h => h, fun _ h => absurd h (List.not_mem_nil _)⟩
  | cons a js ih =>
    rw [List.foldl_cons]
    obtain ⟨h1, h2, h3⟩ := ih { t with
      cliff_meshes := t.cliff_meshes
        ++ [cstr "Doodads/Terrain/Cliffs/Cliffs" ++ name ++ to_string a ++ cstr ".mdx"]
      path_to_cliff := StrMap.emplace t.path_to_cliff (name ++ to_string a)
        (((t.cliff_meshes.length + 1 : Nat) : Int) - 1) }
    refine ⟨h1, ?_, ?_⟩
    · intro k w hk
      exact h2 k w (emplace_lookup_mono _ _ _ _ _ hk)
    · intro j hj
      rcases List.mem_cons.mp hj with rfl | hj
      · obtain ⟨w, hw⟩ := lookup_of_contains _ _
          (emplace_contains_self t.path_to_cliff (name ++ to_string j)
            (((t.cliff_meshes.length + 1 : Nat) : Int) - 1))
        exact contains_of_lookup _ _ w (h2 _ w hw)
      · exact h3 j hj

theorem load_cliff_meshes_registered (rows done : List (CString × Int)) (t : Terrain)
    (h : registered done t) :
    registered (done ++ rows) (rows.foldl (fun t row =>
      let t := (irange 0 (row.2 + 1)).foldl (fun t j =>
        let file_name :=
          cstr "Doodads/Terrain/Cliffs/Cliffs" ++ row.1 ++ to_string j ++ cstr ".mdx"
        { t with
          cliff_meshes := t.cliff_meshes ++ [file_name]
          path_to_cliff := StrMap.emplace t.path_to_cliff (row.1 ++ to_string j)
            (((t.cliff_meshes.length + 1 : Nat) : Int) - 1) }) t
      { t with cliff_variations := StrMap.emplace t.cliff_variations row.1 row.2 }) t) := by
  induction rows generalizing done t with
  | nil => simpa using h
  | cons row rows ih =>
    rw [List.foldl_cons]
    have e : done ++ row :: rows = (done ++ [row]) ++ rows := by simp
    rw [e]
    apply ih
    obtain ⟨h1, h2, h3⟩ := register_variations row.1 (irange 0 (row.2 + 1)) t
    obtain ⟨g1, g2⟩ := h
    constructor
    · intro n c hl
      simp only [] at hl
      rw [h1] at hl
      rcases emplace_lookup_new _ _ _ _ _ hl with hold | ⟨-, rfl, rfl⟩
      · obtain ⟨a1, a2⟩ := g1 n c hold
        refine ⟨List.mem_append_left _ a1, ?_⟩
        intro k hk0 hk
        obtain ⟨w, hw⟩ := lookup_of_contains _ _ (a2 k hk0 hk)
        exact contains_of_lookup _ _ w (h2 _ w hw)
      · refine ⟨List.mem_append_right _ (List.mem_singleton.mpr rfl), ?_⟩
        intro k hk0 hk
        exact h3 k ((mem_irange 0 (row.2 + 1) k).mpr ⟨hk0, by omega⟩)
    · intro r hr
      simp only [] 
      rw [h1]
      rcases List.mem_append.mp hr with hr | hr
      · obtain ⟨w, hw⟩ := lookup_of_contains _ _ (g2 r hr)
        exact contains_of_lookup _ _ w (emplace_lookup_mono _ _ _ _ _ hw)
      · rw [List.mem_singleton.mp hr]
        exact emplace_contains_self _ _ _

theorem determine_cliffs_cliff_tables (t : Terrain) :
    (determine_cliffs t).cliff_tables = t.cliff_tables := by
  unfold determine_cliffs
  apply foldl_preserves Terrain.cliff_tables
  intro s p
  rfl

theorem fill_mirrors_cliff_tables (t : Terrain) : (fill_mirrors t).cliff_tables = t.cliff_tables := by
  unfold fill_mirrors
  apply foldl_preserves Terrain.cliff_tables
  intro s p
  rfl

theorem load_ground_textures_cliff_tables (env : Assets) (t : Terrain) :
    (load_ground_textures env t).cliff_tables = t.cliff_tables := by
  unfold load_ground_textures
  have h1 : ∀ s : Terrain, (t.tileset_ids.foldl (fun t tile_id =>
      { t with
        ground_textures := t.ground_textures ++ [env.tile_extended tile_id]
        ground_texture_to_id := StrMap.emplace t.ground_texture_to_id tile_id
          (((t.ground_textures.length + 1 : Nat) : Int) - 1) }) s).cliff_tables
        = s.cliff_tables := by
    intro s
    apply foldl_preserves Terrain.cliff_tables
    intro s2 p
    rfl
  simp only []
  rw [foldl_preserves Terrain.cliff_tables]
  · exact h1 t
  · intro s c
    rfl

theorem cliff_tables_fields (r s : Terrain) (h : r.cliff_tables = s.cliff_tables) :
    r.cliff_variations = s.cliff_variations ∧ r.path_to_cliff = s.path_to_cliff := by
  simpa [Terrain.cliff_tables] using h

theorem create_tables_registered (env : Assets) (t : Terrain)
    (hfresh : t.cliff_variations = [] ∧ t.path_to_cliff = []) :
    registered env.cliffs_variation_slk (create_tables env t) := by
  obtain ⟨e1, e2⟩ := cliff_tables_fields _ _ (determine_cliffs_cliff_tables t)
  have h0 : registered [] (determine_cliffs t) := by
    constructor
    · intro n c hl
      rw [e1, hfresh.1] at hl
      simp at hl
    · intro r hr
      simp at hr
  have h1 := load_cliff_meshes_registered env.cliffs_variation_slk [] (determine_cliffs t) h0
  rw [List.nil_append] at h1
  have e3 : (create_tables env t).cliff_tables
      = (load_cliff_meshes env (determine_cliffs t)).cliff_tables := by
    unfold create_tables
    rw [fill_mirrors_cliff_tables, load_ground_textures_cliff_tables]
  obtain ⟨e4, e5⟩ := cliff_tables_fields _ _ e3
  unfold registered
  rw [e4, e5]
  exact h1

theorem tables_extend_refl (s : Terrain) : tables_extend s s :=
  ⟨fun _ _ h => h, fun _ _ h => h⟩

theorem tables_extend_of_cliff_tables (s0 s r : Terrain) (h : r.cliff_tables = s.cliff_tables)
    (hs : tables_extend s0 s) : tables_extend s0 r := by
  obtain ⟨e1, e2⟩ := cliff_tables_fields _ _ h
  unfold tables_extend
  rw [e1, e2]
  exact hs

theorem place_ramp_tables_extend (s0 s : Terrain) (i j i2 j2 : Int) (file_name : CString)
    (hs : tables_extend s0 s) : tables_extend s0 (place_ramp s i j i2 j2 file_name) := by
  constructor
  · intro k v hk
    have h1 := hs.1 k v hk
    unfold place_ramp
    simp only []
    split_ifs <;> exact h1
  · intro k v hk
    have h1 := hs.2 k v hk
    unfold place_ramp
    simp only []
    split_ifs
    · exact index_lookup_mono _ _ _ _ (emplace_lookup_mono _ _ _ _ _ h1)
    · exact index_lookup_mono _ _ _ _ h1

theorem plain_cliff_tables_extend (s0 s : Terrain) (i j : Int) (hs : tables_extend s0 s) :
    tables_extend s0 (plain_cliff s i j) := by
  unfold plain_cliff
  simp only []
  split_ifs
  · exact hs
  · exact hs
  · exact hs
  · exact ⟨fun k v hk => index_lookup_mono _ _ _ _ (hs.1 k v hk),
      fun k v hk => index_lookup_mono _ _ _ _ (hs.2 k v hk)⟩

/-- The quad loop of update_cliff_meshes only adds entries to the tables of cliff identifiers. -/
theorem cliff_quad_tables_extend (env : Assets) (s0 s : Terrain) (i j : Int)
    (hs : tables_extend s0 s) : tables_extend s0 (cliff_quad env s i j) := by
  unfold cliff_quad
  rw [vertical_ramp_eq, horizontal_ramp_eq]
  by_cases hv : vertical_ramp_matches s i j ∧ env.file_exists (vertical_ramp_name s i j) = true
  · rw [if_pos hv]
    exact place_ramp_tables_extend s0 s i j i (j + 1) _ hs
  · rw [if_neg hv]
    by_cases hh : horizontal_ramp_matches s i j
        ∧ env.file_exists (horizontal_ramp_name s i j) = true
    · rw [if_pos hh]
      exact place_ramp_tables_extend s0 s i j (i + 1) j _ hs
    · rw [if_neg hh]
      exact plain_cliff_tables_extend s0 s i j hs

theorem update_cliff_meshes_tables_extend (env : Assets) (s0 s : Terrain) (area : QRect)
    (hs : tables_extend s0 s) : tables_extend s0 (update_cliff_meshes env s area) := by
  unfold update_cliff_meshes
  simp only []
  have e1 : ∀ (r : Terrain) (a : QRect), (update_ground_exists r a).cliff_tables = r.cliff_tables := by
    intro r a
    unfold update_ground_exists
    apply foldl_preserves Terrain.cliff_tables
    intro s p
    rfl
  have e2 : ∀ (r : Terrain) (a : QRect), (clear_romp r a).cliff_tables = r.cliff_tables := by
    intro r a
    unfold clear_romp
    apply foldl_preserves Terrain.cliff_tables
    intro s p
    rfl
  apply tables_extend_of_cliff_tables s0 _ _ (e1 _ _)
  unfold add_cliff_meshes
  apply foldl_invariant (fun r : Terrain => tables_extend s0 r)
  · intro r p _ hr
    exact cliff_quad_tables_extend env s0 r p.1 p.2 hr
  · exact tables_extend_of_cliff_tables s0 (erase_cliffs s area) _ (e2 _ _) hs

theorem clamp_range (v c : Int) (hc : 0 ≤ c) : 0 ≤ clamp v 0 c ∧ clamp v 0 c ≤ c := by
  unfold clamp
  split_ifs <;> omega

/-! ## The height mirrors -/

/-- C25: after create of stale_grid the mirror ground_texture_list equals
get_texture_variations for every quad. Setting the ramp flag of the corner (2, 0) and calling
update_ground_textures over the one-cell area of that corner re-derives the quads (1..2, 0..1)
only; the descriptor of the quad (0, 0), two columns away, changes with the edit (the cliff
corner (1, 0) becomes a fully-ramped entrance) and its mirror entry keeps the old value. The
same happens when undo of the recorded edit restores the corner. -/
theorem texture_mirror_left_stale :
    (∀ q ∈ quads4, (create entrance_env stale_grid).ground_texture_list (q.2 * (4 - 1) + q.1)
        = get_texture_variations (create entrance_env stale_grid) q.1 q.2)
    ∧ (∀ x y : Int, ¬ (x = 2 ∧ y = 0) →
        stale_edited.corners x y = (create entrance_env stale_grid).corners x y)
    ∧ stale_area.contains 2 0 = true
    ∧ (update_ground_textures stale_edited stale_area).corners 2 0 = stale_edited.corners 2 0
    ∧ (update_ground_textures stale_edited stale_area).ground_texture_list (0 * (4 - 1) + 0)
        = ⟨0, 1 + 5 * 32, 17, 17⟩
    ∧ get_texture_variations (update_ground_textures stale_edited stale_area) 0 0
        = ⟨0, 17, 17, 17⟩
    ∧ (∀ q ∈ quads4,
        (update_ground_textures stale_edited (QRect.make 0 0 4 4)).ground_texture_list
            (q.2 * (4 - 1) + q.1)
          = get_texture_variations
              (update_ground_textures stale_edited (QRect.make 0 0 4 4)) q.1 q.2)
    ∧ ((add_undo stale_edited stale_area undo_type.cliff).undo entrance_env
          (update_ground_textures stale_edited (QRect.make 0 0 4 4))).ground_texture_list 0
        = ⟨0, 17, 17, 17⟩
    ∧ get_texture_variations ((add_undo stale_edited stale_area undo_type.cliff).undo entrance_env
          (update_ground_textures stale_edited (QRect.make 0 0 4 4))) 0 0
        = ⟨0, 1 + 5 * 32, 17, 17⟩ := by
  refine ⟨by decide!, ?_, by decide!, by decide!, by decide!, by decide!, by decide!, by decide!,
    by decide!⟩
  intro x y h
  simp only [stale_edited, new_undo_group]
  exact set_corner_other _ _ _ _ _ _ h

/-! ## Leftover ramp-active flags -/

/-- C27: on a flat 3 x 3 grid without any ramp flag, update_cliff_meshes over the one-cell area
of the corner (1, 1), and over the area of the corners (0..1, 0..1), leaves the romp flag of
the corner (1, 1) as it was before the call: still set when it was set, although no corner has
a ramp flag. The reset loop runs over [area.x, area.right) x [area.y, area.bottom) and so
skips the last column and row of area. -/
theorem romp_survives_update :
    (∀ x y : Int, ((romp_grid true).corners x y).ramp = false)
    ∧ (QRect.make 1 1 1 1).contains 1 1 = true
    ∧ ((update_cliff_meshes env0 (romp_grid true) (QRect.make 1 1 1 1)).corners 1 1).romp = true
    ∧ ((update_cliff_meshes env0 (romp_grid false) (QRect.make 1 1 1 1)).corners 1 1).romp = false
    ∧ (QRect.make 0 0 2 2).contains 1 1 = true
    ∧ ((update_cliff_meshes env0 (romp_grid true) (QRect.make 0 0 2 2)).corners 1 1).romp = true
    ∧ ((update_cliff_meshes env0 (romp_grid false) (QRect.make 0 0 2 2)).corners 1 1).romp
        = false := by
  refine ⟨?_, by decide!, by decide!, by decide!, by decide!, by decide!, by decide!⟩
  intro x y
  simp only [romp_grid]
  split_ifs <;> rfl

/-! ## Placements after a resize -/

theorem cliffs_in_grid_of_stored (r s : Terrain) (h : r.stored = s.stored)
    (hs : cliffs_in_grid s) : cliffs_in_grid r := by
  simp only [Terrain.stored, Prod.mk.injEq] at h
  obtain ⟨hh, -, -, hl⟩ := h
  obtain ⟨-, -, -, hw, hht, -⟩ := header_fields _ _ hh
  unfold cliffs_in_grid
  rw [hl, hw, hht]
  exact hs

theorem place_ramp_cliffs (t : Terrain) (i j i2 j2 : Int) (file_name : CString) :
    ∃ mesh : Int, (place_ramp t i j i2 j2 file_name).cliffs = t.cliffs ++ [(i, j, mesh)] := by
  unfold place_ramp
  simp only []
  split_ifs
  · exact ⟨_, rfl⟩
  · exact ⟨_, rfl⟩

theorem cliff_quad_cliffs (env : Assets) (s : Terrain) (i j : Int) :
    (cliff_quad env s i j).width = s.width ∧ (cliff_quad env s i j).height = s.height
    ∧ ((cliff_quad env s i j).cliffs = s.cliffs
      ∨ ∃ mesh : Int, (cliff_quad env s i j).cliffs = s.cliffs ++ [(i, j, mesh)]) := by
  obtain ⟨hh, -, -⟩ := stored_no_romp_fields _ _ (cliff_quad_stored_no_romp env s i j)
  obtain ⟨-, -, -, hw, hht, -⟩ := header_fields _ _ hh
  refine ⟨hw, hht, ?_⟩
  unfold cliff_quad
  rw [vertical_ramp_eq, horizontal_ramp_eq]
  by_cases hv : vertical_ramp_matches s i j ∧ env.file_exists (vertical_ramp_name s i j) = true
  · rw [if_pos hv]
    exact Or.inr (place_ramp_cliffs s i j i (j + 1) _)
  · rw [if_neg hv]
    by_cases hz : horizontal_ramp_matches s i j
        ∧ env.file_exists (horizontal_ramp_name s i j) = true
    · rw [if_pos hz]
      exact Or.inr (place_ramp_cliffs s i j (i + 1) j _)
    · rw [if_neg hz]
      rcases (plain_cliff_cases s i j).2 with h | h
      · exact Or.inl h
      · exact Or.inr ⟨_, h⟩

/-- An update of the cliff meshes over any area keeps every placement on a quad of the grid. -/
theorem update_cliff_meshes_cliffs_in_grid (env : Assets) (t : Terrain) (area : QRect)
    (hw : 0 ≤ t.width) (hh : 0 ≤ t.height) (ht : cliffs_in_grid t) :
    cliffs_in_grid (update_cliff_meshes env t area) := by
  unfold update_cliff_meshes
  simp only []
  apply cliffs_in_grid_of_stored _ _ (update_ground_exists_stored _ _)
  have h1 : cliffs_in_grid (erase_cliffs t area) ∧ (erase_cliffs t area).width = t.width
      ∧ (erase_cliffs t area).height = t.height := by
    refine ⟨?_, rfl, rfl⟩
    intro pos hpos
    simp only [erase_cliffs, List.mem_filter] at hpos
    exact ht pos hpos.1
  have h2 : cliffs_in_grid (clear_romp (erase_cliffs t area) area)
      ∧ (clear_romp (erase_cliffs t area) area).width = t.width
      ∧ (clear_romp (erase_cliffs t area) area).height = t.height := by
    unfold clear_romp
    apply foldl_invariant (fun s : Terrain =>
      cliffs_in_grid s ∧ s.width = t.width ∧ s.height = t.height) _ _ _ _ h1
    rintro s p - hs
    exact hs
  generalize clear_romp (erase_cliffs t area) area = s at h2
  obtain ⟨b1, b2, b3, b4⟩ := intersected_bounds (area.adjusted (-2) (-2) 2 2) s.width
    s.height (by omega) (by omega)
  unfold add_cliff_meshes
  refine (foldl_invariant (fun r : Terrain =>
    cliffs_in_grid r ∧ r.width = t.width ∧ r.height = t.height) _ _ ?_ _ h2).1
  rintro r p hp ⟨hc, hrw, hrh⟩
  rw [mem_rect_xy] at hp
  simp only [ramp_area, QRect.x, QRect.y, QRect.right, QRect.bottom] at hp
  obtain ⟨e1, e2, e3⟩ := cliff_quad_cliffs env r p.1 p.2
  refine ⟨?_, by rw [e1, hrw], by rw [e2, hrh]⟩
  unfold cliffs_in_grid
  rw [e1, e2]
  rcases e3 with e | ⟨mesh, e⟩
  · rw [e]
    exact hc
  · rw [e]
    intro pos hpos
    rcases List.mem_append.mp hpos with h | h
    · exact hc pos h
    · rw [List.mem_singleton.mp h]
      simp only []
      omega

/-- The function create, started without placements, and undo and redo keep every placement on
a quad of the grid. -/
theorem create_undo_redo_cliffs_in_grid (env : Assets) (t : Terrain) (a : TerrainGenericAction)
    (hw : 0 ≤ t.width) (hh : 0 ≤ t.height) :
    (t.cliffs = [] → cliffs_in_grid (create env t))
    ∧ (cliffs_in_grid t → cliffs_in_grid (a.undo env t))
    ∧ (cliffs_in_grid t → cliffs_in_grid (a.redo env t)) := by
  have hrestore : ∀ slice : List Corner, cliffs_in_grid t →
      cliffs_in_grid (restore t a.area slice) ∧ (restore t a.area slice).width = t.width
        ∧ (restore t a.area slice).height = t.height := by
    intro slice ht
    obtain ⟨-, -, -, e1, e2, -⟩ := header_fields _ _ (restore_stored t a.area slice).1
    have e3 : (restore t a.area slice).cliffs = t.cliffs := by
      unfold restore
      apply foldl_preserves Terrain.cliffs
      intro s p
      rfl
    refine ⟨?_, e1, e2⟩
    unfold cliffs_in_grid
    rw [e1, e2, e3]
    exact ht
  have hrec : ∀ s : Terrain, 0 ≤ s.width → 0 ≤ s.height → cliffs_in_grid s →
      cliffs_in_grid (recompute env s a.area a.undo_type) := by
    intro s hsw hsh hs
    unfold recompute
    cases a.undo_type
    · simp only [reduceCtorEq, if_true, if_false]
      exact cliffs_in_grid_of_stored _ _ (update_ground_heights_stored _ _) hs
    · simp only [reduceCtorEq, if_true, if_false]
      exact cliffs_in_grid_of_stored _ _ (update_ground_textures_stored _ _) hs
    · simp only [reduceCtorEq, if_true, if_false]
      apply cliffs_in_grid_of_stored _ _ (update_water_stored _ _)
      apply cliffs_in_grid_of_stored _ _ (update_ground_textures_stored _ _)
      have e := update_ground_heights_stored s a.area
      obtain ⟨-, -, -, e1, e2, -⟩ := header_fields _ _ (congrArg Prod.fst e)
      exact update_cliff_meshes_cliffs_in_grid env _ _ (by rw [e1]; exact hsw)
        (by rw [e2]; exact hsh) (cliffs_in_grid_of_stored _ _ e hs)
  refine ⟨?_, ?_, ?_⟩
  · intro hc
    unfold create
    simp only []
    apply cliffs_in_grid_of_stored _ _ (update_ground_heights_stored _ _)
    apply cliffs_in_grid_of_stored _ _ (update_ground_textures_stored _ _)
    have e : (fill_mirrors (load_ground_textures env (load_cliff_meshes env
        (determine_cliffs t)))).stored = (determine_cliffs t).stored := by
      rw [fill_mirrors_stored, load_ground_textures_stored, load_cliff_meshes_stored]
    have ec : (determine_cliffs t).cliffs = [] := by
      have : (determine_cliffs t).cliffs = t.cliffs := by
        unfold determine_cliffs
        apply foldl_preserves Terrain.cliffs
        intro s p
        rfl
      rw [this, hc]
    obtain ⟨-, -, -, e1, e2, -⟩ := header_fields _ _ (determine_cliffs_header t)
    obtain ⟨-, -, -, e3, e4, -⟩ := header_fields _ _ (congrArg Prod.fst e)
    have h0 : cliffs_in_grid (fill_mirrors (load_ground_textures env (load_cliff_meshes env
        (determine_cliffs t)))) := by
      apply cliffs_in_grid_of_stored _ _ e
      intro pos hpos
      rw [ec] at hpos
      simp at hpos
    exact update_cliff_meshes_cliffs_in_grid env _ _ (by rw [e3, e1]; exact hw)
      (by rw [e4, e2]; exact hh) h0
  · intro ht
    obtain ⟨r1, r2, r3⟩ := hrestore a.old_corners ht
    exact hrec _ (by rw [r2]; exact hw) (by rw [r3]; exact hh) r1
  · intro ht
    obtain ⟨r1, r2, r3⟩ := hrestore a.new_corners ht
    exact hrec _ (by rw [r2]; exact hw) (by rw [r3]; exact hh) r1

/-! ## Checked subscripts inside the grid -/

theorem corner_at_eq (t : Terrain) (i j : Int)
    (h : 0 ≤ i ∧ i < t.width ∧ 0 ≤ j ∧ j < t.height) : corner_at t i j = some (t.corners i j) := by
  unfold corner_at
  rw [if_pos h]

theorem set_corner_checked_eq (t : Terrain) (i j : Int) (c : Corner)
    (h : 0 ≤ i ∧ i < t.width ∧ 0 ≤ j ∧ j < t.height) :
    set_corner_checked t i j c = some (set_corner t.corners i j c) := by
  unfold set_corner_checked
  rw [if_pos h]

theorem set_at_checked_eq {α : Type} (v : Int → α) (size k : Int) (a : α)
    (h : 0 ≤ k ∧ k < size) : set_at_checked v size k a = some (set_at v k a) := by
  unfold set_at_checked
  rw [if_pos h]

theorem vector_at_eq {α : Type} (v : List α) (k : Int) (d : α)
    (h : 0 ≤ k ∧ k < (v.length : Int)) : vector_at v k = some (v.getD k.toNat d) := by
  unfold vector_at
  rw [if_pos h.1]
  have hk : k.toNat < v.length := by omega
  rw [List.getD_eq_getElem?_getD, List.getElem?_eq_getElem hk]
  rfl

theorem foldlM_eq_some {σ α : Type} (P : σ → Prop) (f : σ → α → σ) (fc : σ → α → Option σ)
    (l : List α) (h : ∀ s a, a ∈ l → P s → fc s a = some (f s a) ∧ P (f s a))
    (s : σ) (hs : P s) : l.foldlM fc s = some (l.foldl f s) := by
  induction l generalizing s with
  | nil => rfl
  | cons a l ih =>
    obtain ⟨h1, h2⟩ := h s a (List.mem_cons_self _ _) hs
    rw [List.foldlM_cons, h1, List.foldl_cons]
    exact ih (fun s b hb => h s b (List.mem_cons_of_mem _ hb)) _ h2

theorem is_corner_ramp_entrance_checked_eq (t : Terrain) (x y : Int)
    (hx : 0 ≤ x ∧ x < t.width - 1) (hy : 0 ≤ y ∧ y < t.height - 1) :
    is_corner_ramp_entrance_checked t x y = some (is_corner_ramp_entrance t x y) := by
  unfold is_corner_ramp_entrance_checked is_corner_ramp_entrance
  rw [corner_at_eq t x y (by omega), corner_at_eq t (x + 1) y (by omega),
    corner_at_eq t x (y + 1) (by omega), corner_at_eq t (x + 1) (y + 1) (by omega)]
  split_ifs <;> rfl

theorem vertical_ramp_checked_eq (env : Assets) (t : Terrain) (i j : Int)
    (hi : 0 ≤ i ∧ i < t.width - 1) (hj : 0 ≤ j ∧ j < t.height - 1) :
    vertical_ramp_checked env t i j = some (vertical_ramp env t i j) := by
  unfold vertical_ramp_checked vertical_ramp
  rw [corner_at_eq t i j (by omega), corner_at_eq t (i + 1) j (by omega),
    corner_at_eq t i (j + 1) (by omega), corner_at_eq t (i + 1) (j + 1) (by omega)]
  by_cases h2 : j < t.height - 2
  · rw [corner_at_eq t i (j + 2) (by omega), corner_at_eq t (i + 1) (j + 2) (by omega)]
    simp only [h2, if_true, Option.bind_eq_bind, Option.some_bind]
    split_ifs <;> rfl
  · simp only [h2, if_false, Option.bind_eq_bind, Option.some_bind]

theorem horizontal_ramp_checked_eq (env : Assets) (t : Terrain) (i j : Int)
    (hi : 0 ≤ i ∧ i < t.width - 1) (hj : 0 ≤ j ∧ j < t.height - 1) :
    horizontal_ramp_checked env t i j = some (horizontal_ramp env t i j) := by
  unfold horizontal_ramp_checked horizontal_ramp
  rw [corner_at_eq t i j (by omega), corner_at_eq t (i + 1) j (by omega),
    corner_at_eq t i (j + 1) (by omega), corner_at_eq t (i + 1) (j + 1) (by omega)]
  by_cases h2 : i < t.width - 2
  · rw [corner_at_eq t (i + 2) j (by omega), corner_at_eq t (i + 2) (j + 1) (by omega)]
    simp only [h2, if_true, Option.bind_eq_bind, Option.some_bind]
    split_ifs <;> rfl
  · simp only [h2, if_false, Option.bind_eq_bind, Option.some_bind]

theorem plain_cliff_checked_eq (t : Terrain) (i j : Int)
    (hi : 0 ≤ i ∧ i < t.width - 1) (hj : 0 ≤ j ∧ j < t.height - 1) :
    plain_cliff_checked t i j = some (plain_cliff t i j) := by
  unfold plain_cliff_checked plain_cliff cliff_letters
  rw [corner_at_eq t i j (by omega), corner_at_eq t (i + 1) j (by omega),
    corner_at_eq t i (j + 1) (by omega), corner_at_eq t (i + 1) (j + 1) (by omega),
    is_corner_ramp_entrance_checked_eq t i j hi hj]
  simp only [Option.bind_eq_bind, Option.some_bind]
  split_ifs <;> rfl

theorem cliff_quad_checked_eq (env : Assets) (t : Terrain) (i j : Int)
    (hi : 0 ≤ i ∧ i < t.width - 1) (hj : 0 ≤ j ∧ j < t.height - 1) :
    cliff_quad_checked env t i j = some (cliff_quad env t i j) := by
  unfold cliff_quad_checked cliff_quad
  rw [vertical_ramp_checked_eq env t i j hi hj, horizontal_ramp_checked_eq env t i j hi hj]
  cases vertical_ramp env t i j with
  | some t1 => rfl
  | none =>
    simp only []
    cases horizontal_ramp env t i j with
    | some t1 => rfl
    | none => exact plain_cliff_checked_eq t i j hi hj

theorem index_bound (W H i j : Int) (hi : 0 ≤ i ∧ i < W) (hj : 0 ≤ j ∧ j < H) :
    0 ≤ j * W + i ∧ j * W + i < W * H := by
  have h1 : 0 ≤ j * W := mul_nonneg hj.1 (by omega)
  have h2 : j * W ≤ (H - 1) * W := mul_le_mul_of_nonneg_right (by omega) (by omega)
  have h3 : (H - 1) * W = W * H - W := by ring
  constructor
  · omega
  · omega

theorem clear_romp_checked_eq (t : Terrain) (area : QRect)
    (hx : 0 ≤ area.x1 ∧ area.x2 ≤ t.width) (hy : 0 ≤ area.y1 ∧ area.y2 ≤ t.height) :
    clear_romp_checked t area = some (clear_romp t area) := by
  unfold clear_romp_checked clear_romp
  apply foldlM_eq_some (fun s : Terrain => s.width = t.width ∧ s.height = t.height)
  · intro s p hp ⟨hw, hh⟩
    rw [mem_rect_xy] at hp
    simp only [QRect.x, QRect.y, QRect.right, QRect.bottom] at hp
    rw [corner_at_eq s p.1 p.2 (by omega)]
    simp only [Option.bind_eq_bind, Option.some_bind]
    rw [set_corner_checked_eq s p.1 p.2 _ (by omega)]
    exact ⟨rfl, hw, hh⟩
  · exact ⟨rfl, rfl⟩

theorem clear_romp_size (t : Terrain) (area : QRect) :
    (clear_romp t area).width = t.width ∧ (clear_romp t area).height = t.height := by
  obtain ⟨hh, -, -⟩ := stored_no_romp_fields _ _ (clear_romp_stored_no_romp t area)
  obtain ⟨-, -, -, hw, hht, -⟩ := header_fields _ _ hh
  exact ⟨hw, hht⟩

theorem cliff_quad_size (env : Assets) (t : Terrain) (i j : Int) :
    (cliff_quad env t i j).width = t.width ∧ (cliff_quad env t i j).height = t.height := by
  obtain ⟨hh, -, -⟩ := stored_no_romp_fields _ _ (cliff_quad_stored_no_romp env t i j)
  obtain ⟨-, -, -, hw, hht, -⟩ := header_fields _ _ hh
  exact ⟨hw, hht⟩

theorem add_cliff_meshes_size (env : Assets) (t : Terrain) (area : QRect) :
    (add_cliff_meshes env t area).width = t.width
    ∧ (add_cliff_meshes env t area).height = t.height := by
  obtain ⟨hh, -, -⟩ := stored_no_romp_fields _ _ (add_cliff_meshes_stored_no_romp env t area)
  obtain ⟨-, -, -, hw, hht, -⟩ := header_fields _ _ hh
  exact ⟨hw, hht⟩

theorem add_cliff_meshes_checked_eq (env : Assets) (t : Terrain) (area : QRect)
    (hw : 0 ≤ t.width) (hh : 0 ≤ t.height) :
    add_cliff_meshes_checked env t
        ((area.adjusted (-2) (-2) 2 2).intersected (QRect.make 0 0 t.width t.height))
      = some (add_cliff_meshes env t
        ((area.adjusted (-2) (-2) 2 2).intersected (QRect.make 0 0 t.width t.height))) := by
  obtain ⟨b1, b2, b3, b4⟩ := intersected_bounds (area.adjusted (-2) (-2) 2 2) t.width
    t.height hw hh
  unfold add_cliff_meshes_checked add_cliff_meshes
  apply foldlM_eq_some (fun s : Terrain => s.width = t.width ∧ s.height = t.height)
  · intro s p hp ⟨hsw, hsh⟩
    rw [mem_rect_xy] at hp
    simp only [QRect.x, QRect.y, QRect.right, QRect.bottom] at hp
    obtain ⟨e1, e2⟩ := cliff_quad_size env s p.1 p.2
    exact ⟨cliff_quad_checked_eq env s p.1 p.2 (by omega) (by omega),
      by rw [e1, hsw], by rw [e2, hsh]⟩
  · exact ⟨rfl, rfl⟩

theorem update_ground_exists_checked_eq (t : Terrain) (area : QRect)
    (hw : 1 ≤ t.width) (hh : 1 ≤ t.height) :
    update_ground_exists_checked t area = some (update_ground_exists t area) := by
  obtain ⟨b1, b2, b3, b4⟩ := intersected_bounds (area.adjusted (-1) (-1) 1 1)
    (t.width - 1) (t.height - 1) (by omega) (by omega)
  unfold update_ground_exists_checked update_ground_exists
  simp only []
  apply foldlM_eq_some (fun s : Terrain =>
    s.width = t.width ∧ s.height = t.height ∧ s.corners = t.corners)
  · intro s p hp ⟨hsw, hsh, hsc⟩
    rw [mem_rect_yx] at hp
    simp only [QRect.left, QRect.top, QRect.right, QRect.bottom] at hp
    rw [corner_at_eq s p.1 p.2 (by omega)]
    simp only [Option.bind_eq_bind, Option.some_bind]
    have hidx := index_bound (s.width - 1) (s.height - 1) p.1 p.2 (by omega) (by omega)
    have hsize : (s.width - 1) * (s.height - 1) ≤ s.width * s.height := by
      have : (s.width - 1) * (s.height - 1) = s.width * s.height - s.width - s.height + 1 := by
        ring
      omega
    by_cases hc : ((s.corners p.1 p.2).cliff || (s.corners p.1 p.2).romp) = true
    · rw [if_pos hc, is_corner_ramp_entrance_checked_eq s p.1 p.2 (by omega) (by omega)]
      simp only [Option.some_bind]
      rw [set_at_checked_eq _ _ _ _ (by omega)]
      exact ⟨rfl, hsw, hsh, hsc⟩
    · rw [if_neg hc, set_at_checked_eq _ _ _ _ (by omega)]
      rw [Bool.not_eq_true] at hc
      refine ⟨?_, hsw, hsh, hsc⟩
      simp only [hc, Bool.false_and, Bool.not_false, Bool.and_true, Bool.false_or,
        Option.some_bind, Option.bind_eq_bind]
  · exact ⟨rfl, rfl, rfl⟩

theorem update_cliff_meshes_checked_eq (env : Assets) (t : Terrain) (area : QRect)
    (hw : 1 ≤ t.width) (hh : 1 ≤ t.height)
    (hx : 0 ≤ area.x1 ∧ area.x2 ≤ t.width) (hy : 0 ≤ area.y1 ∧ area.y2 ≤ t.height) :
    update_cliff_meshes_checked env t area = some (update_cliff_meshes env t area) := by
  unfold update_cliff_meshes_checked update_cliff_meshes
  have h1 : clear_romp_checked (erase_cliffs t area) area
      = some (clear_romp (erase_cliffs t area) area) :=
    clear_romp_checked_eq (erase_cliffs t area) area hx hy
  obtain ⟨s1, s2⟩ := clear_romp_size (erase_cliffs t area) area
  have s1b : (clear_romp (erase_cliffs t area) area).width = t.width := s1
  have s2b : (clear_romp (erase_cliffs t area) area).height = t.height := s2
  simp only [Option.bind_eq_bind, h1, Option.some_bind]
  unfold ramp_area
  rw [add_cliff_meshes_checked_eq env _ area (by omega) (by omega)]
  simp only [Option.some_bind]
  obtain ⟨s3, s4⟩ := add_cliff_meshes_size env (clear_romp (erase_cliffs t area) area)
    ((area.adjusted (-2) (-2) 2 2).intersected (QRect.make 0 0
      (clear_romp (erase_cliffs t area) area).width (clear_romp (erase_cliffs t area) area).height))
  exact update_ground_exists_checked_eq _ _ (by omega) (by omega)

/-! ## Checked texture reads -/

theorem real_tile_texture_step_checked_eq (t : Terrain) (hc : tables_cover t) (x y i j : Int) :
    real_tile_texture_step_checked t x y i j = some (real_tile_texture_step t x y i j) := by
  unfold real_tile_texture_step_checked real_tile_texture_step
  by_cases hb : x + i ≥ 0 ∧ x + i < t.width ∧ y + j ≥ 0 ∧ y + j < t.height
  · rw [if_pos hb, if_pos hb, corner_at_eq t (x + i) (y + j) (by omega)]
    simp only [Option.bind_eq_bind, Option.some_bind]
    have hidx := (hc.1 (x + i) (y + j) (by omega) (by omega) (by omega) (by omega)).2
    have hv := vector_at_eq t.cliff_to_ground_texture
      (cliff_texture_index (t.corners (x + i) (y + j))) 0 hidx
    unfold cliff_texture_index at hv
    have hret : (if ((t.corners (x + i) (y + j)).romp || (t.corners (x + i) (y + j)).cliff) = true
          then
            (vector_at t.cliff_to_ground_texture
              (if (t.corners (x + i) (y + j)).cliff_texture = 15 then
                (t.corners (x + i) (y + j)).cliff_texture - 14
              else (t.corners (x + i) (y + j)).cliff_texture)).bind fun v => some (Scan.ret v)
          else some Scan.next)
        = some (if ((t.corners (x + i) (y + j)).romp || (t.corners (x + i) (y + j)).cliff) = true
          then Scan.ret (t.cliff_to_ground_texture.getD
              (if (t.corners (x + i) (y + j)).cliff_texture = 15 then
                (t.corners (x + i) (y + j)).cliff_texture - 14
              else (t.corners (x + i) (y + j)).cliff_texture).toNat 0)
          else Scan.next) := by
      rw [hv]
      split_ifs <;> rfl
    by_cases hq : (t.corners (x + i) (y + j)).cliff = true
        ∧ (x + i < t.width - 1 ∧ y + j < t.height - 1)
    · rw [if_pos hq, corner_at_eq t (x + i + 1) (y + j) (by omega),
        corner_at_eq t (x + i) (y + j + 1) (by omega),
        corner_at_eq t (x + i + 1) (y + j + 1) (by omega)]
      simp only [Option.some_bind]
      by_cases hf : ((t.corners (x + i) (y + j)).ramp && (t.corners (x + i) (y + j + 1)).ramp
          && (t.corners (x + i + 1) (y + j)).ramp && (t.corners (x + i + 1) (y + j + 1)).ramp
          && !(t.corners (x + i) (y + j)).romp && !(t.corners (x + i + 1) (y + j)).romp
          && !(t.corners (x + i) (y + j + 1)).romp
          && !(t.corners (x + i + 1) (y + j + 1)).romp) = true
      · rw [if_pos hf, if_pos ⟨hq.1, hq.2, hf⟩]
      · rw [if_neg hf, hret]
        congr 1
        symm
        apply if_neg
        intro h
        exact hf h.2.2
    · rw [if_neg hq]
      simp only [Option.some_bind, Bool.false_eq_true, if_false]
      rw [hret]
      congr 1
      symm
      apply if_neg
      intro h
      exact hq ⟨h.1, h.2.1⟩
  · rw [if_neg hb, if_neg hb]

theorem real_tile_texture_scan_checked_eq (t : Terrain) (hc : tables_cover t) (x y : Int)
    (ps : List (Int × Int)) :
    real_tile_texture_scan_checked t x y ps = some (real_tile_texture_scan t x y ps) := by
  induction ps with
  | nil => rfl
  | cons p ps ih =>
    unfold real_tile_texture_scan_checked real_tile_texture_scan
    rw [real_tile_texture_step_checked_eq t hc]
    cases real_tile_texture_step t x y p.1 p.2 with
    | next => exact ih
    | out => rfl
    | ret v => rfl

theorem real_tile_texture_checked_eq (t : Terrain) (hc : tables_cover t) (x y : Int)
    (hx : 0 ≤ x ∧ x < t.width) (hy : 0 ≤ y ∧ y < t.height) :
    real_tile_texture_checked t x y = some (real_tile_texture t x y) := by
  unfold real_tile_texture_checked real_tile_texture
  rw [real_tile_texture_scan_checked_eq t hc]
  cases real_tile_texture_scan t x y (rect_xy (-1) 1 (-1) 1) with
  | some v => rfl
  | none =>
    simp only []
    rw [corner_at_eq t x y (by omega)]
    rfl

theorem real_tile_texture_range (t : Terrain) (hc : tables_cover t) (x y : Int)
    (hx : 0 ≤ x ∧ x < t.width) (hy : 0 ≤ y ∧ y < t.height) :
    0 ≤ real_tile_texture t x y
    ∧ real_tile_texture t x y < (t.ground_textures.length : Int) := by
  have h := real_tile_texture_scan_eq t x y (rect_xy (-1) 1 (-1) 1)
  have e : real_tile_texture t x y
      = match real_tile_texture_scan t x y (rect_xy (-1) 1 (-1) 1) with
        | some v => v
        | none => own_texture t x y := rfl
  rw [e.trans h]
  have hown : 0 ≤ own_texture t x y ∧ own_texture t x y < (t.ground_textures.length : Int) := by
    unfold own_texture
    split_ifs
    · exact hc.2.1
    · exact (hc.1 x y hx.1 hx.2 hy.1 hy.2).1
  cases hf : ((rect_xy (-1) 1 (-1) 1).map (fun p => (x + p.1, y + p.2))).find?
      (fun p => ends_search t p.1 p.2) with
  | none => exact hown
  | some p =>
    simp only []
    split_ifs
    · exact hown
    · have hp := List.find?_some hf
      unfold ends_search at hp
      simp only [Bool.and_eq_true, decide_eq_true_eq] at hp
      have hidx := (hc.1 p.1 p.2 (by omega) (by omega) (by omega) (by omega)).2
      unfold cliff_ground_texture
      unfold cliff_texture_index at hidx
      apply hc.2.2
      rw [List.getD_eq_getElem?_getD, List.getElem?_eq_getElem (by omega)]
      exact List.getElem_mem _

theorem get_tile_variation_checked_eq (t : Terrain) (ground_texture variation : Int)
    (h : 0 ≤ ground_texture ∧ ground_texture < (t.ground_textures.length : Int)) :
    get_tile_variation_checked t ground_texture variation
      = some (get_tile_variation t ground_texture variation) := by
  unfold get_tile_variation_checked get_tile_variation
  rw [vector_at_eq t.ground_textures ground_texture false h]
  rfl

theorem get_texture_variations_checked_eq (t : Terrain) (hc : tables_cover t) (x y : Int)
    (hx : 0 ≤ x ∧ x < t.width - 1) (hy : 0 ≤ y ∧ y < t.height - 1) :
    get_texture_variations_checked t x y = some (get_texture_variations t x y) := by
  obtain ⟨-, -, hmemset⟩ := std_set_spec (quad_textures t x y)
  have hrange : ∀ u ∈ quad_textures t x y, 0 ≤ u ∧ u < (t.ground_textures.length : Int) := by
    intro u hu
    unfold quad_textures at hu
    simp only [List.mem_cons, List.mem_singleton, List.not_mem_nil, or_false] at hu
    rcases hu with rfl | rfl | rfl | rfl
    · exact real_tile_texture_range t hc x y (by omega) (by omega)
    · exact real_tile_texture_range t hc (x + 1) y (by omega) (by omega)
    · exact real_tile_texture_range t hc x (y + 1) (by omega) (by omega)
    · exact real_tile_texture_range t hc (x + 1) (y + 1) (by omega) (by omega)
  unfold get_texture_variations_checked get_texture_variations
  rw [real_tile_texture_checked_eq t hc x y (by omega) (by omega),
    real_tile_texture_checked_eq t hc (x + 1) y (by omega) (by omega),
    real_tile_texture_checked_eq t hc x (y + 1) (by omega) (by omega),
    real_tile_texture_checked_eq t hc (x + 1) (y + 1) (by omega) (by omega)]
  simp only [Option.bind_eq_bind, Option.some_bind]
  unfold quad_textures at hmemset hrange
  generalize std_set [real_tile_texture t x y, real_tile_texture t (x + 1) y,
    real_tile_texture t x (y + 1), real_tile_texture t (x + 1) (y + 1)] = s at hmemset
  cases s with
  | nil => rfl
  | cons first rest =>
    simp only []
    rw [corner_at_eq t x y (by omega)]
    simp only [Option.some_bind]
    rw [get_tile_variation_checked_eq t first _
      (hrange first ((hmemset first).mp (List.mem_cons_self _ _)))]
    rfl

/-! ## The texture tables -/

theorem tables_cover_congr (s t : Terrain) (hw : s.width = t.width) (hh : s.height = t.height)
    (hg : ∀ x y, (s.corners x y).ground_texture = (t.corners x y).ground_texture)
    (hct : ∀ x y, (s.corners x y).cliff_texture = (t.corners x y).cliff_texture)
    (htab : s.texture_tables = t.texture_tables) (h : tables_cover t) : tables_cover s := by
  simp only [Terrain.texture_tables, Prod.mk.injEq] at htab
  obtain ⟨h1, -, h2, h3⟩ := htab
  unfold tables_cover cliff_texture_index at h ⊢
  simp only [hw, hh, hg, hct, h1, h2, h3]
  exact h

theorem tables_cover_of_stored_no_romp (s t : Terrain)
    (hs : s.stored_no_romp = t.stored_no_romp) (htab : s.texture_tables = t.texture_tables)
    (h : tables_cover t) : tables_cover s := by
  obtain ⟨hh, -, hc⟩ := stored_no_romp_fields _ _ hs
  obtain ⟨-, -, -, hw, hht, -⟩ := header_fields _ _ hh
  exact tables_cover_congr s t hw hht (fun x y => (no_romp_fields _ _ (hc x y)).2.1)
    (fun x y => (no_romp_fields _ _ (hc x y)).2.2.2.2.2.2.2.2.2.2.2.2.1) htab h

theorem determine_cliffs_texture_tables (t : Terrain) :
    (determine_cliffs t).texture_tables = t.texture_tables := by
  unfold determine_cliffs
  apply foldl_preserves Terrain.texture_tables
  intro s p
  rfl

theorem load_cliff_meshes_texture_tables (env : Assets) (t : Terrain) :
    (load_cliff_meshes env t).texture_tables = t.texture_tables := by
  unfold load_cliff_meshes
  apply foldl_preserves Terrain.texture_tables
  intro s row
  show Terrain.texture_tables (List.foldl _ s _) = _
  apply foldl_preserves Terrain.texture_tables
  intro s2 j
  rfl

theorem fill_mirrors_texture_tables (t : Terrain) :
    (fill_mirrors t).texture_tables = t.texture_tables := by
  unfold fill_mirrors
  apply foldl_preserves Terrain.texture_tables
  intro s p
  rfl

theorem update_ground_heights_texture_tables (t : Terrain) (area : QRect) :
    (update_ground_heights t area).texture_tables = t.texture_tables := by
  unfold update_ground_heights
  apply foldl_preserves Terrain.texture_tables
  intro s p
  rfl

theorem update_ground_textures_texture_tables (t : Terrain) (area : QRect) :
    (update_ground_textures t area).texture_tables = t.texture_tables := by
  unfold update_ground_textures
  apply foldl_preserves Terrain.texture_tables
  intro s p
  rfl

theorem update_ground_exists_texture_tables (t : Terrain) (area : QRect) :
    (update_ground_exists t area).texture_tables = t.texture_tables := by
  unfold update_ground_exists
  apply foldl_preserves Terrain.texture_tables
  intro s p
  rfl

theorem place_ramp_texture_tables (t : Terrain) (i j i2 j2 : Int) (file_name : CString) :
    (place_ramp t i j i2 j2 file_name).texture_tables = t.texture_tables := by
  unfold place_ramp
  simp only [Terrain.texture_tables]
  split_ifs <;> rfl

theorem plain_cliff_texture_tables (t : Terrain) (i j : Int) :
    (plain_cliff t i j).texture_tables = t.texture_tables := by
  unfold plain_cliff
  simp only []
  split_ifs <;> rfl

theorem cliff_quad_texture_tables (env : Assets) (t : Terrain) (i j : Int) :
    (cliff_quad env t i j).texture_tables = t.texture_tables := by
  unfold cliff_quad
  cases hv : vertical_ramp env t i j with
  | some t1 =>
    simp only []
    unfold vertical_ramp at hv
    simp only [] at hv
    split_ifs at hv
    all_goals (cases hv; exact place_ramp_texture_tables _ _ _ _ _ _)
  | none =>
    simp only []
    cases hh : horizontal_ramp env t i j with
    | some t1 =>
      simp only []
      unfold horizontal_ramp at hh
      simp only [] at hh
      split_ifs at hh
      all_goals (cases hh; exact place_ramp_texture_tables _ _ _ _ _ _)
    | none => exact plain_cliff_texture_tables t i j

theorem clear_romp_texture_tables (t : Terrain) (area : QRect) :
    (clear_romp t area).texture_tables = t.texture_tables := by
  unfold clear_romp
  apply foldl_preserves Terrain.texture_tables
  intro s p
  rfl

theorem add_cliff_meshes_texture_tables (env : Assets) (t : Terrain) (area : QRect) :
    (add_cliff_meshes env t area).texture_tables = t.texture_tables := by
  unfold add_cliff_meshes
  apply foldl_preserves Terrain.texture_tables
  intro s p
  exact cliff_quad_texture_tables env s p.1 p.2

theorem update_cliff_meshes_texture_tables (env : Assets) (t : Terrain) (area : QRect) :
    (update_cliff_meshes env t area).texture_tables = t.texture_tables := by
  unfold update_cliff_meshes
  simp only []
  rw [update_ground_exists_texture_tables, add_cliff_meshes_texture_tables,
    clear_romp_texture_tables]
  rfl

/-! ## Checked loops of `create` -/

theorem determine_cliffs_checked_eq (t : Terrain) :
    determine_cliffs_checked t = some (determine_cliffs t) := by
  unfold determine_cliffs_checked determine_cliffs
  apply foldlM_eq_some (fun s : Terrain => s.width = t.width ∧ s.height = t.height)
  · intro s p hp ⟨hsw, hsh⟩
    rw [mem_rect_xy] at hp
    rw [corner_at_eq s p.1 p.2 (by omega), corner_at_eq s (p.1 + 1) p.2 (by omega),
      corner_at_eq s p.1 (p.2 + 1) (by omega), corner_at_eq s (p.1 + 1) (p.2 + 1) (by omega)]
    simp only [Option.bind_eq_bind, Option.some_bind]
    rw [set_corner_checked_eq s p.1 p.2 _ (by omega)]
    exact ⟨rfl, hsw, hsh⟩
  · exact ⟨rfl, rfl⟩

theorem fill_mirrors_checked_eq (t : Terrain) :
    fill_mirrors_checked t = some (fill_mirrors t) := by
  unfold fill_mirrors_checked fill_mirrors
  apply foldlM_eq_some (fun s : Terrain => s.width = t.width ∧ s.height = t.height)
  · intro s p hp ⟨hsw, hsh⟩
    rw [mem_rect_xy] at hp
    have hidx := index_bound s.width s.height p.1 p.2 (by omega) (by omega)
    simp only []
    rw [corner_at_eq s p.1 p.2 (by omega)]
    simp only [Option.bind_eq_bind, Option.some_bind]
    rw [set_at_checked_eq _ _ _ _ hidx, set_at_checked_eq _ _ _ _ hidx,
      set_at_checked_eq _ _ _ _ hidx, set_at_checked_eq _ _ _ _ hidx]
    exact ⟨rfl, hsw, hsh⟩
  · exact ⟨rfl, rfl⟩

theorem update_ground_textures_checked_eq (t : Terrain) (area : QRect) (hc : tables_cover t)
    (hw : 1 ≤ t.width) (hh : 1 ≤ t.height) :
    update_ground_textures_checked t area = some (update_ground_textures t area) := by
  obtain ⟨b1, b2, b3, b4⟩ := intersected_bounds (area.adjusted (-1) (-1) 1 1)
    (t.width - 1) (t.height - 1) (by omega) (by omega)
  unfold update_ground_textures_checked update_ground_textures
  simp only []
  apply foldlM_eq_some (fun s : Terrain =>
    s.width = t.width ∧ s.height = t.height ∧ tables_cover s)
  · intro s p hp ⟨hsw, hsh, hsc⟩
    rw [mem_rect_yx] at hp
    simp only [QRect.left, QRect.top, QRect.right, QRect.bottom] at hp
    rw [get_texture_variations_checked_eq s hsc p.1 p.2 (by omega) (by omega)]
    simp only [Option.bind_eq_bind, Option.some_bind]
    rw [set_at_checked_eq _ _ _ _
      (index_bound (s.width - 1) (s.height - 1) p.1 p.2 (by omega) (by omega))]
    exact ⟨rfl, hsw, hsh, hsc⟩
  · exact ⟨rfl, rfl, hc⟩

theorem ramp_height_checked_eq (t : Terrain) (i j : Int)
    (hi : 0 ≤ i ∧ i < t.width) (hj : 0 ≤ j ∧ j < t.height) (ps : List (Int × Int)) :
    ramp_height_checked t i j ps = some (ramp_height t i j ps) := by
  induction ps with
  | nil => rfl
  | cons p ps ih =>
    unfold ramp_height_checked ramp_height
    simp only []
    by_cases hb : i + p.1 ≥ 0 ∧ i + p.1 < t.width - 1 ∧ j + p.2 ≥ 0 ∧ j + p.2 < t.height - 1
    · rw [if_pos hb, if_pos hb, corner_at_eq t (i + p.1) (j + p.2) (by omega),
        corner_at_eq t (i + 1 + p.1) (j + p.2) (by omega),
        corner_at_eq t (i + p.1) (j + 1 + p.2) (by omega),
        corner_at_eq t (i + 1 + p.1) (j + 1 + p.2) (by omega),
        corner_at_eq t i j (by omega)]
      simp only [Option.bind_eq_bind, Option.some_bind]
      rw [is_corner_ramp_entrance_checked_eq t (i + p.1) (j + p.2) (by omega) (by omega)]
      simp only [Option.some_bind]
      split_ifs
      · exact ih
      · rfl
      · exact ih
    · rw [if_neg hb, if_neg hb]
      exact ih

theorem update_ground_heights_checked_eq (t : Terrain) (area : QRect)
    (hx : 0 ≤ area.x1 ∧ area.x2 < t.width) (hy : 0 ≤ area.y1 ∧ area.y2 < t.height) :
    update_ground_heights_checked t area = some (update_ground_heights t area) := by
  unfold update_ground_heights_checked update_ground_heights
  apply foldlM_eq_some (fun s : Terrain => s.width = t.width ∧ s.height = t.height)
  · intro s p hp ⟨hsw, hsh⟩
    rw [mem_rect_yx] at hp
    simp only [QRect.x, QRect.y, QRect.width, QRect.height] at hp
    have hidx := index_bound s.width s.height p.1 p.2 (by omega) (by omega)
    simp only []
    rw [corner_at_eq s p.1 p.2 (by omega)]
    simp only [Option.bind_eq_bind, Option.some_bind]
    rw [set_at_checked_eq _ _ _ _ hidx,
      ramp_height_checked_eq s p.1 p.2 (by omega) (by omega)]
    simp only [Option.some_bind]
    rw [set_at_checked_eq _ _ _ _ hidx]
    exact ⟨rfl, hsw, hsh⟩
  · exact ⟨rfl, rfl⟩

theorem mapM_some {α β : Type} (f : α → Option β) (l : List α)
    (h : ∀ a ∈ l, ∃ b, f a = some b) : ∃ bs, l.mapM f = some bs := by
  induction l with
  | nil => exact ⟨[], rfl⟩
  | cons a l ih =>
    obtain ⟨b, hb⟩ := h a (List.mem_cons_self _ _)
    obtain ⟨bs, hbs⟩ := ih (fun c hc => h c (List.mem_cons_of_mem _ hc))
    refine ⟨b :: bs, ?_⟩
    rw [List.mapM_cons, hb, hbs]
    rfl

theorem minimap_cliff_checked_some (t : Terrain) (i j : Int)
    (hi : 0 ≤ i ∧ i < t.width) (hj : 0 ≤ j ∧ j < t.height) :
    ∃ b, minimap_cliff_checked t i j = some b := by
  unfold minimap_cliff_checked
  rw [corner_at_eq t i j (by omega)]
  simp only [Option.bind_eq_bind, Option.some_bind]
  by_cases h1 : (t.corners i j).cliff = true
  · exact ⟨true, by rw [if_pos h1]⟩
  · rw [if_neg h1]
    by_cases hi0 : i > 0
    · rw [if_pos hi0, corner_at_eq t (i - 1) j (by omega)]
      simp only [Option.map_some', Option.some_bind]
      by_cases h2 : (t.corners (i - 1) j).cliff = true
      · exact ⟨true, by rw [if_pos h2]⟩
      · rw [if_neg h2]
        by_cases hj0 : j > 0
        · rw [if_pos hj0, corner_at_eq t i (j - 1) (by omega)]
          simp only [Option.map_some', Option.some_bind]
          by_cases h3 : (t.corners i (j - 1)).cliff = true
          · exact ⟨true, by rw [if_pos h3]⟩
          · rw [if_neg h3, if_pos ⟨hi0, hj0⟩, corner_at_eq t (i - 1) (j - 1) (by omega)]
            exact ⟨_, rfl⟩
        · rw [if_neg hj0]
          simp only [Option.some_bind, Bool.false_eq_true, if_false]
          rw [if_neg (fun h => hj0 h.2)]
          exact ⟨_, rfl⟩
    · rw [if_neg hi0]
      simp only [Option.some_bind, Bool.false_eq_true, if_false]
      by_cases hj0 : j > 0
      · rw [if_pos hj0, corner_at_eq t i (j - 1) (by omega)]
        simp only [Option.map_some', Option.some_bind]
        by_cases h3 : (t.corners i (j - 1)).cliff = true
        · exact ⟨true, by rw [if_pos h3]⟩
        · rw [if_neg h3, if_neg (fun h => hi0 h.1)]
          exact ⟨_, rfl⟩
      · rw [if_neg hj0]
        rw [if_neg (fun h => hj0 h.2)]
        exact ⟨_, rfl⟩

theorem minimap_image_checked_some (t : Terrain) (hc : tables_cover t) :
    ∃ image, minimap_image_checked t = some image := by
  unfold minimap_image_checked
  apply mapM_some
  intro p hp
  rw [mem_rect_yx] at hp
  obtain ⟨b, hb⟩ := minimap_cliff_checked_some t p.1 p.2 hp.1 hp.2
  rw [hb]
  simp only [Option.bind_eq_bind, Option.some_bind]
  cases b with
  | true => exact ⟨none, rfl⟩
  | false =>
    simp only [Bool.false_eq_true, if_false]
    rw [real_tile_texture_checked_eq t hc p.1 p.2 hp.1 hp.2]
    simp only [Option.some_bind]
    rw [vector_at_eq t.ground_textures _ false (real_tile_texture_range t hc p.1 p.2 hp.1 hp.2)]
    exact ⟨_, rfl⟩

/-! ## The tables that `create` loads -/

theorem mem_of_lookup (m : StrMap) (k : CString) (v : Int) (h : m.lookup k = some v) :
    (k, v) ∈ m := by
  induction m with
  | nil => simp at h
  | cons a m ih =>
    obtain ⟨k2, v2⟩ := a
    rw [List.lookup_cons] at h
    by_cases hk : k = k2
    · subst hk
      simp only [beq_self_eq_true, Option.some.injEq] at h
      subst h
      exact List.mem_cons_self _ _
    · have hb : (k == k2) = false := by simpa using hk
      rw [hb] at h
      exact List.mem_cons_of_mem _ (ih h)

theorem mem_emplace (m : StrMap) (k : CString) (v : Int) (kv : CString × Int)
    (h : kv ∈ StrMap.emplace m k v) : kv ∈ m ∨ kv = (k, v) := by
  unfold StrMap.emplace at h
  split_ifs at h
  · exact Or.inl h
  · simpa using h

theorem index_in_range (m : StrMap) (k : CString) (n : Int) (hn : 1 ≤ n)
    (h : ∀ kv ∈ m, 0 ≤ kv.2 ∧ kv.2 < n) :
    (0 ≤ (StrMap.index m k).1 ∧ (StrMap.index m k).1 < n)
    ∧ ∀ kv ∈ (StrMap.index m k).2, 0 ≤ kv.2 ∧ kv.2 < n := by
  unfold StrMap.index
  cases hk : m.lookup k with
  | some v => exact ⟨h (k, v) (mem_of_lookup m k v hk), h⟩
  | none =>
    simp only []
    refine ⟨⟨le_refl 0, by omega⟩, ?_⟩
    intro kv hkv
    simp only [List.mem_append, List.mem_singleton] at hkv
    rcases hkv with hkv | rfl
    · exact h kv hkv
    · exact ⟨le_refl 0, by omega⟩

theorem load_tiles_spec (env : Assets) (ids : List CString) (s : Terrain)
    (hs : ∀ kv ∈ s.ground_texture_to_id, 0 ≤ kv.2 ∧ kv.2 < (s.ground_textures.length : Int)) :
    ((ids.foldl (fun t tile_id =>
        { t with
          ground_textures := t.ground_textures ++ [env.tile_extended tile_id]
          ground_texture_to_id := StrMap.emplace t.ground_texture_to_id tile_id
            (((t.ground_textures.length + 1 : Nat) : Int) - 1) }) s).ground_textures.length
      = s.ground_textures.length + ids.length)
    ∧ (∀ kv ∈ (ids.foldl (fun t tile_id =>
        { t with
          ground_textures := t.ground_textures ++ [env.tile_extended tile_id]
          ground_texture_to_id := StrMap.emplace t.ground_texture_to_id tile_id
            (((t.ground_textures.length + 1 : Nat) : Int) - 1) }) s).ground_texture_to_id,
        0 ≤ kv.2 ∧ kv.2 < ((s.ground_textures.length + ids.length : Nat) : Int))
    ∧ (ids.foldl (fun t tile_id =>
        { t with
          ground_textures := t.ground_textures ++ [env.tile_extended tile_id]
          ground_texture_to_id := StrMap.emplace t.ground_texture_to_id tile_id
            (((t.ground_textures.length + 1 : Nat) : Int) - 1) }) s).cliff_to_ground_texture
      = s.cliff_to_ground_texture
    ∧ (ids.foldl (fun t tile_id =>
        { t with
          ground_textures := t.ground_textures ++ [env.tile_extended tile_id]
          ground_texture_to_id := StrMap.emplace t.ground_texture_to_id tile_id
            (((t.ground_textures.length + 1 : Nat) : Int) - 1) }) s).cliffset_ids
      = s.cliffset_ids := by
  induction ids generalizing s with
  | nil => exact ⟨rfl, hs, rfl, rfl⟩
  | cons a ids ih =>
    rw [List.foldl_cons]
    have hs2 : ∀ kv ∈ StrMap.emplace s.ground_texture_to_id a
        (((s.ground_textures.length + 1 : Nat) : Int) - 1),
        0 ≤ kv.2 ∧ kv.2 < (((s.ground_textures ++ [env.tile_extended a]).length : Nat) : Int) := by
      intro kv hkv
      rw [List.length_append, List.length_singleton]
      rcases mem_emplace _ _ _ _ hkv with h | rfl
      · have := hs kv h
        omega
      · simp only []
        omega
    obtain ⟨h1, h2, h3, h4⟩ := ih { s with
      ground_textures := s.ground_textures ++ [env.tile_extended a]
      ground_texture_to_id := StrMap.emplace s.ground_texture_to_id a
        (((s.ground_textures.length + 1 : Nat) : Int) - 1) } hs2
    simp only [List.length_append, List.length_singleton, List.length_cons,
      List.length_nil] at h1 h2 ⊢
    refine ⟨by omega, ?_, h3, h4⟩
    intro kv hkv
    have := h2 kv hkv
    omega

theorem load_cliff_textures_spec (env : Assets) (ids : List CString) (s : Terrain)
    (hlen : 1 ≤ s.ground_textures.length) (hs : tables_consistent s) :
    ((ids.foldl (fun t cliff_id =>
        { t with
          ground_texture_to_id :=
            (StrMap.index t.ground_texture_to_id (env.cliff_groundtile cliff_id)).2
          cliff_to_ground_texture := t.cliff_to_ground_texture
            ++ [(StrMap.index t.ground_texture_to_id (env.cliff_groundtile cliff_id)).1] })
        s).ground_textures = s.ground_textures)
    ∧ ((ids.foldl (fun t cliff_id =>
        { t with
          ground_texture_to_id :=
            (StrMap.index t.ground_texture_to_id (env.cliff_groundtile cliff_id)).2
          cliff_to_ground_texture := t.cliff_to_ground_texture
            ++ [(StrMap.index t.ground_texture_to_id (env.cliff_groundtile cliff_id)).1] })
        s).blight_texture = s.blight_texture)
    ∧ ((ids.foldl (fun t cliff_id =>
        { t with
          ground_texture_to_id :=
            (StrMap.index t.ground_texture_to_id (env.cliff_groundtile cliff_id)).2
          cliff_to_ground_texture := t.cliff_to_ground_texture
            ++ [(StrMap.index t.ground_texture_to_id (env.cliff_groundtile cliff_id)).1] })
        s).cliff_to_ground_texture.length = s.cliff_to_ground_texture.length + ids.length)
    ∧ tables_consistent (ids.foldl (fun t cliff_id =>
        { t with
          ground_texture_to_id :=
            (StrMap.index t.ground_texture_to_id (env.cliff_groundtile cliff_id)).2
          cliff_to_ground_texture := t.cliff_to_ground_texture
            ++ [(StrMap.index t.ground_texture_to_id (env.cliff_groundtile cliff_id)).1] })
        s) := by
  induction ids generalizing s with
  | nil => exact ⟨rfl, rfl, rfl, hs⟩
  | cons a ids ih =>
    rw [List.foldl_cons]
    obtain ⟨i1, i2⟩ := index_in_range s.ground_texture_to_id (env.cliff_groundtile a)
      (s.ground_textures.length : Int) (by omega) hs.1
    have hs2 : tables_consistent { s with
        ground_texture_to_id :=
          (StrMap.index s.ground_texture_to_id (env.cliff_groundtile a)).2
        cliff_to_ground_texture := s.cliff_to_ground_texture
          ++ [(StrMap.index s.ground_texture_to_id (env.cliff_groundtile a)).1] } := by
      refine ⟨i2, ?_⟩
      intro v hv
      simp only [List.mem_append, List.mem_singleton] at hv
      rcases hv with hv | rfl
      · exact hs.2 v hv
      · exact i1
    obtain ⟨h1, h2, h3, h4⟩ := ih { s with
        ground_texture_to_id :=
          (StrMap.index s.ground_texture_to_id (env.cliff_groundtile a)).2
        cliff_to_ground_texture := s.cliff_to_ground_texture
          ++ [(StrMap.index s.ground_texture_to_id (env.cliff_groundtile a)).1] } hlen hs2
    simp only [List.length_append, List.length_singleton, List.length_cons,
      List.length_nil] at h3 ⊢
    exact ⟨h1, h2, by omega, h4⟩

theorem load_ground_textures_spec (env : Assets) (t : Terrain) (hs : tables_consistent t) :
    ((load_ground_textures env t).ground_textures.length
      = t.ground_textures.length + t.tileset_ids.length + 1)
    ∧ ((load_ground_textures env t).blight_texture
      = ((t.ground_textures.length + t.tileset_ids.length : Nat) : Int))
    ∧ ((load_ground_textures env t).cliff_to_ground_texture.length
      = t.cliff_to_ground_texture.length + t.cliffset_ids.length)
    ∧ tables_consistent (load_ground_textures env t) := by
  obtain ⟨a1, a2, a3, a4⟩ := load_tiles_spec env t.tileset_ids t hs.1
  unfold load_ground_textures
  simp only []
  generalize t.tileset_ids.foldl (fun t tile_id =>
      { t with
        ground_textures := t.ground_textures ++ [env.tile_extended tile_id]
        ground_texture_to_id := StrMap.emplace t.ground_texture_to_id tile_id
          (((t.ground_textures.length + 1 : Nat) : Int) - 1) }) t = s1 at a1 a2 a3 a4 ⊢
  have hcons : tables_consistent { s1 with
      blight_texture := (s1.ground_textures.length : Int)
      ground_texture_to_id := StrMap.emplace s1.ground_texture_to_id (cstr "blight")
        (s1.ground_textures.length : Int)
      ground_textures := s1.ground_textures ++ [env.blight_extended] } := by
    constructor
    · intro kv hkv
      simp only [List.length_append, List.length_singleton]
      rcases mem_emplace _ _ _ _ hkv with h | rfl
      · have := a2 kv h
        omega
      · simp only []
        omega
    · intro v hv
      simp only [List.length_append, List.length_singleton]
      have hv2 : v ∈ t.cliff_to_ground_texture := a3 ▸ hv
      have := hs.2 v hv2
      omega
  obtain ⟨b1, b2, b3, b4⟩ := load_cliff_textures_spec env s1.cliffset_ids _
    (by simp only [List.length_append, List.length_singleton]; omega) hcons
  refine ⟨?_, ?_, ?_, b4⟩
  · rw [b1]
    simp only [List.length_append, List.length_singleton]
    omega
  · rw [b2]
    simp only []
    rw [a1]
  · rw [b3]
    simp only []
    rw [a3, a4]

/-! ## `create` with checked subscripts -/

theorem tables_consistent_congr (s t : Terrain) (htab : s.texture_tables = t.texture_tables)
    (h : tables_consistent t) : tables_consistent s := by
  simp only [Terrain.texture_tables, Prod.mk.injEq] at htab
  obtain ⟨h1, h2, -, h3⟩ := htab
  unfold tables_consistent at h ⊢
  rw [h1, h2, h3]
  exact h

/-- The state in which `create` reaches its recomputation calls has the size and the textures
of the grid it started from, and its tables cover the grid. -/
theorem create_tables_cover (env : Assets) (t : Terrain) (hs : tables_consistent t)
    (hp : palette_covers t) :
    (create_tables env t).width = t.width ∧ (create_tables env t).height = t.height
    ∧ tables_cover (create_tables env t) := by
  have e1 : (load_cliff_meshes env (determine_cliffs t)).texture_tables = t.texture_tables := by
    rw [load_cliff_meshes_texture_tables, determine_cliffs_texture_tables]
  have hst : (load_cliff_meshes env (determine_cliffs t)).stored = (determine_cliffs t).stored :=
    load_cliff_meshes_stored env _
  have hhd : (load_cliff_meshes env (determine_cliffs t)).header = t.header := by
    have := congrArg Prod.fst hst
    simp only [Terrain.stored] at this
    rw [this, determine_cliffs_header]
  obtain ⟨-, k2, k3, -, -, -⟩ := header_fields _ _ hhd
  obtain ⟨g1, g2, g3, g4⟩ := load_ground_textures_spec env _ (tables_consistent_congr _ _ e1 hs)
  simp only [Terrain.texture_tables, Prod.mk.injEq] at e1
  obtain ⟨e11, -, -, e14⟩ := e1
  rw [e11, k2] at g1 g2
  rw [e14, k3] at g3
  have hst2 : (create_tables env t).stored = (determine_cliffs t).stored := by
    unfold create_tables
    rw [fill_mirrors_stored, load_ground_textures_stored, load_cliff_meshes_stored]
  have htt : (create_tables env t).texture_tables
      = (load_ground_textures env (load_cliff_meshes env (determine_cliffs t))).texture_tables := by
    unfold create_tables
    rw [fill_mirrors_texture_tables]
  simp only [Terrain.texture_tables, Prod.mk.injEq] at htt
  obtain ⟨t1, -, t3, t4⟩ := htt
  simp only [Terrain.stored, Prod.mk.injEq] at hst2
  obtain ⟨s1, s2, -, -⟩ := hst2
  rw [determine_cliffs_header] at s1
  obtain ⟨-, -, -, hw, hh, -⟩ := header_fields _ _ s1
  have hcorner : ∀ x y, ((create_tables env t).corners x y).ground_texture
        = (t.corners x y).ground_texture
      ∧ ((create_tables env t).corners x y).cliff_texture = (t.corners x y).cliff_texture := by
    intro x y
    rw [s2, determine_cliffs_corners]
    split_ifs <;> exact ⟨rfl, rfl⟩
  refine ⟨hw, hh, ?_, ?_, ?_⟩
  · intro x y hx0 hx hy0 hy
    rw [hw] at hx
    rw [hh] at hy
    have h := hp (x, y) ((mem_rect_xy _ _ _ _ _).mpr ⟨⟨hx0, hx⟩, ⟨hy0, hy⟩⟩)
    unfold cliff_texture_index at h ⊢
    rw [(hcorner x y).1, (hcorner x y).2, t1, t4, g1, g3]
    simp only [] at h
    push_cast at h ⊢
    omega
  · rw [t3, t1, g2, g1]
    push_cast
    omega
  · intro v hv
    rw [t4] at hv
    rw [t1]
    exact g4.2 v hv

/-- The recomputation calls at the end of `create` and the call of `minimap_image` stay inside
their vectors once the tables cover the grid. -/
theorem create_checked_eq (env : Assets) (t : Terrain) (hw : 1 ≤ t.width) (hh : 1 ≤ t.height)
    (hs : tables_consistent t) (hp : palette_covers t) :
    create_checked env t = some (create env t) := by
  obtain ⟨c1, c2, c3⟩ := create_tables_cover env t hs hp
  unfold create_checked create
  rw [determine_cliffs_checked_eq]
  simp only [Option.bind_eq_bind, Option.some_bind]
  rw [fill_mirrors_checked_eq]
  simp only [Option.some_bind]
  unfold create_tables at c1 c2 c3
  generalize fill_mirrors (load_ground_textures env (load_cliff_meshes env (determine_cliffs t)))
    = s4 at c1 c2 c3 ⊢
  rw [update_cliff_meshes_checked_eq env s4 _ (by omega) (by omega)
    (by simp only [QRect.make]; omega) (by simp only [QRect.make]; omega)]
  simp only [Option.some_bind]
  have d3 : tables_cover (update_cliff_meshes env s4
      (QRect.make 0 0 (s4.width - 1) (s4.height - 1))) :=
    tables_cover_of_stored_no_romp _ _ (update_cliff_meshes_stored_no_romp env s4 _)
      (update_cliff_meshes_texture_tables env s4 _) c3
  obtain ⟨dh, -, -⟩ := stored_no_romp_fields _ _ (update_cliff_meshes_stored_no_romp env s4
    (QRect.make 0 0 (s4.width - 1) (s4.height - 1)))
  obtain ⟨-, -, -, d1, d2, -⟩ := header_fields _ _ dh
  generalize update_cliff_meshes env s4 (QRect.make 0 0 (s4.width - 1) (s4.height - 1))
    = s5 at d1 d2 d3 ⊢
  rw [update_ground_textures_checked_eq s5 _ d3 (by omega) (by omega)]
  simp only [Option.some_bind]
  have e3 : tables_cover (update_ground_textures s5
      (QRect.make 0 0 (s5.width - 1) (s5.height - 1))) :=
    tables_cover_of_stored_no_romp _ _
      (stored_no_romp_of_stored _ _ (update_ground_textures_stored s5 _))
      (update_ground_textures_texture_tables s5 _) d3
  obtain ⟨eh, -, -⟩ := stored_no_romp_fields _ _
    (stored_no_romp_of_stored _ _ (update_ground_textures_stored s5
      (QRect.make 0 0 (s5.width - 1) (s5.height - 1))))
  obtain ⟨-, -, -, e1, e2, -⟩ := header_fields _ _ eh
  generalize update_ground_textures s5 (QRect.make 0 0 (s5.width - 1) (s5.height - 1))
    = s6 at e1 e2 e3 ⊢
  rw [update_ground_heights_checked_eq s6 _ (by simp only [QRect.make]; omega)
    (by simp only [QRect.make]; omega)]
  simp only [Option.some_bind]
  have f3 : tables_cover (update_ground_heights s6
      (QRect.make 0 0 (s6.width - 1) (s6.height - 1))) :=
    tables_cover_of_stored_no_romp _ _
      (stored_no_romp_of_stored _ _ (update_ground_heights_stored s6 _))
      (update_ground_heights_texture_tables s6 _) e3
  obtain ⟨image, himage⟩ := minimap_image_checked_some _ f3
  rw [himage]
  rfl

/-! ## `load` with checked subscripts -/

/-- C20: for a grid with width >= 2 and height >= 2 and an area inside the grid,
update_cliff_meshes run with every subscript of corners and of the existence mask checked
against the size of its vector meets no subscript out of range and returns what
update_cliff_meshes returns, so it reads and writes only corners inside the grid; a vertical
ramp is placed at quad (i, j) only when row j + 2 exists and a horizontal ramp only when column
i + 2 exists. -/
theorem update_cliff_meshes_stays_in_grid (env : Assets) (t : Terrain) (area : QRect)
    (hw : 2 ≤ t.width) (hh : 2 ≤ t.height)
    (hax : 0 ≤ area.x1 ∧ area.x2 < t.width)
    (hay : 0 ≤ area.y1 ∧ area.y2 < t.height) :
    update_cliff_meshes_checked env t area = some (update_cliff_meshes env t area)
    ∧ (∀ (s : Terrain) (i j : Int), (vertical_ramp env s i j).isSome = true → j + 2 < s.height)
    ∧ (∀ (s : Terrain) (i j : Int), (horizontal_ramp env s i j).isSome = true →
      i + 2 < s.width) := by
  refine ⟨update_cliff_meshes_checked_eq env t area (by omega) (by omega) ⟨hax.1, by omega⟩
    ⟨hay.1, by omega⟩, ?_, ?_⟩
  · intro s i j h
    rw [vertical_ramp_eq] at h
    split_ifs at h with hm
    · have := hm.1.1
      omega
    · simp at h
  · intro s i j h
    rw [horizontal_ramp_eq] at h
    split_ifs at h with hm
    · have := hm.1.1
      omega
    · simp at h

/-- Witness of C20 on the 5 x 5 example grid and the area of the corners (1..3, 1..3). -/
theorem update_cliff_meshes_stays_in_grid_witness :
    (2 ≤ grid5.width ∧ 2 ≤ grid5.height)
    ∧ update_cliff_meshes_checked env0 grid5 (QRect.make 1 1 3 3)
      = some (update_cliff_meshes env0 grid5 (QRect.make 1 1 3 3))
    ∧ (∀ (s : Terrain) (i j : Int), (vertical_ramp env0 s i j).isSome = true → j + 2 < s.height)
    ∧ (∀ (s : Terrain) (i j : Int), (horizontal_ramp env0 s i j).isSome = true →
      i + 2 < s.width) :=
  ⟨by decide, update_cliff_meshes_stays_in_grid env0 grid5 (QRect.make 1 1 3 3)
    (by decide) (by decide) (by decide) (by decide)⟩

/-- The checked run does meet a subscript out of range for an area that leaves the grid: on the
5 x 5 example grid the reset loop over the area of the corners (4..6, 4..6) subscripts
corners[4][5]. -/
theorem update_cliff_meshes_checked_leaves_grid :
    (update_cliff_meshes_checked env0 grid5 (QRect.make 4 4 3 3)).isNone = true := by
  decide!

/-! ## The identifier of a plain cliff -/

theorem update_ground_textures_cliff_tables (t : Terrain) (area : QRect) :
    (update_ground_textures t area).cliff_tables = t.cliff_tables := by
  unfold update_ground_textures
  apply foldl_preserves Terrain.cliff_tables
  intro s p
  rfl

theorem update_ground_heights_cliff_tables (t : Terrain) (area : QRect) :
    (update_ground_heights t area).cliff_tables = t.cliff_tables := by
  unfold update_ground_heights
  apply foldl_preserves Terrain.cliff_tables
  intro s p
  rfl

/-- The loop "Cliff Meshes" of create, started with empty tables, registers the rows of
`Cliffs.slk`. -/
theorem load_cliff_meshes_registered_fresh (env : Assets) (t : Terrain)
    (hfresh : t.cliff_variations = [] ∧ t.path_to_cliff = []) :
    registered env.cliffs_variation_slk (load_cliff_meshes env (determine_cliffs t)) := by
  obtain ⟨e1, e2⟩ := cliff_tables_fields _ _ (determine_cliffs_cliff_tables t)
  have h0 : registered [] (determine_cliffs t) := by
    constructor
    · intro n c hl
      rw [e1, hfresh.1] at hl
      simp at hl
    · intro r hr
      simp at hr
  have h1 := load_cliff_meshes_registered env.cliffs_variation_slk [] (determine_cliffs t) h0
  rw [List.nil_append] at h1
  exact h1

/-- The tables of cliff identifiers that create leaves behind hold every entry that its loop
"Cliff Meshes" has registered. -/
theorem create_extends_loaded_tables (env : Assets) (t : Terrain) :
    tables_extend (load_cliff_meshes env (determine_cliffs t)) (create env t) := by
  unfold create
  simp only []
  apply tables_extend_of_cliff_tables _ _ _ (update_ground_heights_cliff_tables _ _)
  apply tables_extend_of_cliff_tables _ _ _ (update_ground_textures_cliff_tables _ _)
  apply update_cliff_meshes_tables_extend
  apply tables_extend_of_cliff_tables _ (load_cliff_meshes env (determine_cliffs t))
  · rw [fill_mirrors_cliff_tables, load_ground_textures_cliff_tables]
  · exact tables_extend_refl _

/-- C23: in the plain-cliff branch of update_cliff_meshes the identifier of a quad is the four
letters 'A' + (layer_height - quad minimum) of the corners top-left, top-right, bottom-right,
bottom-left, followed by clamp(bottom_left.cliff_variation, 0, count), where count is the entry
of cliff_variations for the letters.  When create starts from empty tables and the counts of
Cliffs.slk are not negative, then in every state whose tables extend those that the loop
"Cliff Meshes" of create has filled, for a quad that reaches the placement of the branch (cliff
flag set, bottom-left corner not ramp-active, no ramp entrance, letters other than "AAAA") and
whose letters name a row of Cliffs.slk: the count used is that of such a row, the key is
letters + k for a k in 0..count, create registered that key in path_to_cliff, and the branch
appends the one placement (i, j, mesh) with the mesh registered for the key and changes nothing
else. -/
theorem authored_cliff_key_registered (env : Assets) (t s : Terrain) (i j : Int)
    (hfresh : t.cliff_variations = [] ∧ t.path_to_cliff = [])
    (hcounts : ∀ row ∈ env.cliffs_variation_slk, 0 ≤ row.2)
    (hext : tables_extend (load_cliff_meshes env (determine_cliffs t)) s)
    (hplain : (s.corners i j).cliff = true ∧ (s.corners i j).romp = false
      ∧ is_corner_ramp_entrance s i j = false)
    (hauth : ∃ row ∈ env.cliffs_variation_slk, row.1 = cliff_letters s i j)
    (hne : cliff_letters s i j ≠ cstr "AAAA") :
    cliff_letters s i j
      = [to_u8 (65 + (s.corners i (j + 1)).layer_height
            - min (min (s.corners i j).layer_height (s.corners (i + 1) j).layer_height)
                (min (s.corners i (j + 1)).layer_height (s.corners (i + 1) (j + 1)).layer_height)),
          to_u8 (65 + (s.corners (i + 1) (j + 1)).layer_height
            - min (min (s.corners i j).layer_height (s.corners (i + 1) j).layer_height)
                (min (s.corners i (j + 1)).layer_height (s.corners (i + 1) (j + 1)).layer_height)),
          to_u8 (65 + (s.corners (i + 1) j).layer_height
            - min (min (s.corners i j).layer_height (s.corners (i + 1) j).layer_height)
                (min (s.corners i (j + 1)).layer_height (s.corners (i + 1) (j + 1)).layer_height)),
          to_u8 (65 + (s.corners i j).layer_height
            - min (min (s.corners i j).layer_height (s.corners (i + 1) j).layer_height)
                (min (s.corners i (j + 1)).layer_height (s.corners (i + 1) (j + 1)).layer_height))]
    ∧ ∃ (count mesh : Int),
        (cliff_letters s i j, count) ∈ env.cliffs_variation_slk
        ∧ (0 ≤ clamp (s.corners i j).cliff_variation 0 count
          ∧ clamp (s.corners i j).cliff_variation 0 count ≤ count)
        ∧ (load_cliff_meshes env (determine_cliffs t)).path_to_cliff.lookup
            (cliff_letters s i j ++ to_string (clamp (s.corners i j).cliff_variation 0 count))
          = some mesh
        ∧ (create env t).path_to_cliff.lookup
            (cliff_letters s i j ++ to_string (clamp (s.corners i j).cliff_variation 0 count))
          = some mesh
        ∧ plain_cliff s i j = { s with cliffs := s.cliffs ++ [(i, j, mesh)] } := by
  refine ⟨rfl, ?_⟩
  obtain ⟨g1, g2⟩ := load_cliff_meshes_registered_fresh env t hfresh
  obtain ⟨row, hrow, hname⟩ := hauth
  obtain ⟨count, hcount⟩ := lookup_of_contains _ _ (g2 row hrow)
  rw [hname] at hcount
  obtain ⟨hmem, hkeys⟩ := g1 _ _ hcount
  have hs := hext.1 _ _ hcount
  have hc0 : 0 ≤ count := hcounts _ hmem
  have hr := clamp_range (s.corners i j).cliff_variation count hc0
  obtain ⟨mesh, hmesh⟩ := lookup_of_contains _ _ (hkeys _ hr.1 hr.2)
  have hs2 := hext.2 _ _ hmesh
  refine ⟨count, mesh, hmem, hr, hmesh, (create_extends_loaded_tables env t).2 _ _ hmesh, ?_⟩
  have hv : StrMap.index s.cliff_variations (cliff_letters s i j) = (count, s.cliff_variations) := by
    unfold StrMap.index
    rw [hs]
  have hf : StrMap.index s.path_to_cliff
      (cliff_letters s i j ++ to_string (clamp (s.corners i j).cliff_variation 0 count))
      = (mesh, s.path_to_cliff) := by
    unfold StrMap.index
    rw [hs2]
  unfold plain_cliff
  simp only [hplain.1, hplain.2.1, hplain.2.2, hne, hv, hf, Bool.not_true, Bool.or_false,
    Bool.false_eq_true, if_false]

/-- Witness of C23 on the 5 x 5 example grid after create, at the cliff quad (0, 0): the key is
"AAAB0" and the branch appends the placement of the mesh 0 registered for it. -/
theorem authored_cliff_key_registered_witness :
    ∃ (count mesh : Int),
        (cliff_letters (create env0 grid5) 0 0, count) ∈ env0.cliffs_variation_slk
        ∧ (0 ≤ clamp ((create env0 grid5).corners 0 0).cliff_variation 0 count
          ∧ clamp ((create env0 grid5).corners 0 0).cliff_variation 0 count ≤ count)
        ∧ (load_cliff_meshes env0 (determine_cliffs grid5)).path_to_cliff.lookup
            (cliff_letters (create env0 grid5) 0 0
              ++ to_string (clamp ((create env0 grid5).corners 0 0).cliff_variation 0 count))
          = some mesh
        ∧ (create env0 grid5).path_to_cliff.lookup
            (cliff_letters (create env0 grid5) 0 0
              ++ to_string (clamp ((create env0 grid5).corners 0 0).cliff_variation 0 count))
          = some mesh
        ∧ plain_cliff (create env0 grid5) 0 0
          = { create env0 grid5 with cliffs := (create env0 grid5).cliffs ++ [(0, 0, mesh)] } :=
  (authored_cliff_key_registered env0 grid5 (create env0 grid5) 0 0 ⟨rfl, rfl⟩
    (by decide) (create_extends_loaded_tables env0 grid5) ⟨by decide!, by decide!, by decide!⟩
    ⟨(cstr "AAAB", 1), by decide, by decide!⟩ (by decide!)).2

/-- On the 5 x 5 example grid the letters of the quad (0, 0) are "AAAB", create registers the
keys "AAAB0" and "AAAB1", and the placement that create makes for the quad is the mesh 0 of
"AAAB0". -/
theorem authored_cliff_key_example :
    cliff_letters (create env0 grid5) 0 0 = cstr "AAAB"
    ∧ ((create env0 grid5).corners 0 0).cliff_variation = 0
    ∧ (create env0 grid5).path_to_cliff = [(cstr "AAAB0", 0), (cstr "AAAB1", 1)]
    ∧ (create env0 grid5).cliffs = [(0, 0, 0)] := by
  decide!

/-! ## Recorded runs, with checked subscripts -/

/-- C10: on the 5 x 5 example grid, which names two tiles and one cliff texture, create runs
without a subscript out of range and makes the single placement of the only cliff quad (0, 0);
update_cliff_meshes over the one-cell area (2, 2), again without a subscript out of range,
leaves two placements for the quad (0, 0): the quad lies in the recomputed ramp_area but
outside the area whose placements are erased. -/
theorem update_cliff_meshes_duplicates_placement :
    create_checked env0 grid5 = some (create env0 grid5)
    ∧ (create env0 grid5).cliffs = [(0, 0, 0)]
    ∧ update_cliff_meshes_checked env0 (create env0 grid5) (QRect.make 2 2 1 1)
      = some (update_cliff_meshes env0 (create env0 grid5) (QRect.make 2 2 1 1))
    ∧ (update_cliff_meshes env0 (create env0 grid5) (QRect.make 2 2 1 1)).cliffs
      = [(0, 0, 0), (0, 0, 0)] :=
  ⟨create_checked_eq env0 grid5 (by decide) (by decide) (by decide!) (by decide!), by decide!,
    update_cliff_meshes_checked_eq env0 _ _ (by decide!) (by decide!) (by decide) (by decide),
    by decide!⟩

/-- C8: on the 5 x 5 example grid after create, running update_cliff_meshes,
update_ground_textures and update_ground_heights over the one-cell area (2, 2) a second time
does not give the placement list of the first run: the first run ends with two placements, the
second with three.  The runs with checked subscripts meet no subscript out of range and end
with the same lists. -/
theorem recompute_twice_changes_placements :
    create_checked env0 grid5 = some (create env0 grid5)
    ∧ (update_ground_heights (update_ground_textures
        (update_cliff_meshes env0 (create env0 grid5) (QRect.make 2 2 1 1))
        (QRect.make 2 2 1 1)) (QRect.make 2 2 1 1)).cliffs = [(0, 0, 0), (0, 0, 0)]
    ∧ (update_ground_heights (update_ground_textures
        (update_cliff_meshes env0
          (update_ground_heights (update_ground_textures
            (update_cliff_meshes env0 (create env0 grid5) (QRect.make 2 2 1 1))
            (QRect.make 2 2 1 1)) (QRect.make 2 2 1 1))
          (QRect.make 2 2 1 1))
        (QRect.make 2 2 1 1)) (QRect.make 2 2 1 1)).cliffs = [(0, 0, 0), (0, 0, 0), (0, 0, 0)]
    ∧ ((((update_cliff_meshes_checked env0 (create env0 grid5) (QRect.make 2 2 1 1)).bind
          (fun t => update_ground_textures_checked t (QRect.make 2 2 1 1))).bind
          (fun t => update_ground_heights_checked t (QRect.make 2 2 1 1))).map
        (fun t => t.cliffs)) = some [(0, 0, 0), (0, 0, 0)]
    ∧ (((((((update_cliff_meshes_checked env0 (create env0 grid5) (QRect.make 2 2 1 1)).bind
          (fun t => update_ground_textures_checked t (QRect.make 2 2 1 1))).bind
          (fun t => update_ground_heights_checked t (QRect.make 2 2 1 1))).bind
          (fun t => update_cliff_meshes_checked env0 t (QRect.make 2 2 1 1))).bind
          (fun t => update_ground_textures_checked t (QRect.make 2 2 1 1))).bind
          (fun t => update_ground_heights_checked t (QRect.make 2 2 1 1))).map
        (fun t => t.cliffs)) = some [(0, 0, 0), (0, 0, 0), (0, 0, 0)] :=
  ⟨create_checked_eq env0 grid5 (by decide) (by decide) (by decide!) (by decide!), by decide!,
    by decide!, by decide!, by decide!⟩

/-- The terrain `ramp_removed` is reached without a subscript out of range: create of
`ramp_grid`, which names two tiles and one cliff texture, and the update of the cliff meshes
over the one-cell area of the corner (1, 2) return what the total functions return. -/
theorem ramp_removed_checked :
    create_checked ramp_env ramp_grid = some (create ramp_env ramp_grid)
    ∧ update_cliff_meshes_checked ramp_env
        { create ramp_env ramp_grid with
          corners := set_corner (create ramp_env ramp_grid).corners 1 2
            { (create ramp_env ramp_grid).corners 1 2 with ramp := false } }
        (QRect.make 1 2 1 1) = some ramp_removed :=
  ⟨create_checked_eq ramp_env ramp_grid (by decide) (by decide) (by decide!) (by decide!),
    update_cliff_meshes_checked_eq ramp_env _ _ (by decide!) (by decide!) (by decide)
      (by decide)⟩

/-- C5 as stated fails: the terrain `ramp_removed`, reached by create and one update of the
cliff meshes without a subscript out of range, holds a leftover romp flag at the corner (1, 0);
new_undo_group snapshots it, the edit raises the corner (2, 1) inside the area (1, 0) .. (2, 1),
and add_undo records a cliff-kind action.  After undo (alone, or after redo)
update_cliff_meshes has reset romp at (1, 0), so the corner differs from its snapshot value;
add_undo, undo and redo with checked subscripts meet no subscript out of range and end with
the same slices and the same flag. -/
theorem undo_cliff_differs_from_snapshot :
    create_checked ramp_env ramp_grid = some (create ramp_env ramp_grid)
    ∧ update_cliff_meshes_checked ramp_env
        { create ramp_env ramp_grid with
          corners := set_corner (create ramp_env ramp_grid).corners 1 2
            { (create ramp_env ramp_grid).corners 1 2 with ramp := false } }
        (QRect.make 1 2 1 1) = some ramp_removed
    ∧ ramp_edited.old_corners = (new_undo_group ramp_removed).old_corners
    ∧ (∀ x y, ¬ ((ramp_edit_area.left ≤ x ∧ x ≤ ramp_edit_area.right)
        ∧ (ramp_edit_area.top ≤ y ∧ y ≤ ramp_edit_area.bottom)) →
      ramp_edited.corners x y = ramp_removed.corners x y)
    ∧ (add_undo_checked ramp_edited ramp_edit_area undo_type.cliff).map
        (fun a => (a.old_corners, a.new_corners))
      = some ((add_undo ramp_edited ramp_edit_area undo_type.cliff).old_corners,
          (add_undo ramp_edited ramp_edit_area undo_type.cliff).new_corners)
    ∧ (ramp_removed.corners 1 0).romp = true
    ∧ (((add_undo ramp_edited ramp_edit_area undo_type.cliff).undo ramp_env
        ramp_edited).corners 1 0).romp = false
    ∧ ((add_undo ramp_edited ramp_edit_area undo_type.cliff).undo ramp_env
        ramp_edited).corners 1 0 ≠ ramp_removed.corners 1 0
    ∧ ((add_undo ramp_edited ramp_edit_area undo_type.cliff).undo ramp_env
        ((add_undo ramp_edited ramp_edit_area undo_type.cliff).redo ramp_env
          ramp_edited)).corners 1 0 ≠ ramp_removed.corners 1 0
    ∧ ((add_undo ramp_edited ramp_edit_area undo_type.cliff).undo_checked ramp_env
        ramp_edited).map (fun r => (r.corners 1 0).romp) = some false
    ∧ (((add_undo ramp_edited ramp_edit_area undo_type.cliff).redo_checked ramp_env
        ramp_edited).bind
          (fun r => (add_undo ramp_edited ramp_edit_area undo_type.cliff).undo_checked ramp_env
            r)).map (fun r => (r.corners 1 0).romp) = some false :=
  ⟨create_checked_eq ramp_env ramp_grid (by decide) (by decide) (by decide!) (by decide!),
    update_cliff_meshes_checked_eq ramp_env _ _ (by decide!) (by decide!) (by decide)
      (by decide),
    rfl, ramp_edited_outside, by decide!, by decide!, by decide!, by decide!, by decide!,
    by decide!, by decide!⟩

/-- C6 as stated fails: the post-edit grid `ramp_edited` that add_undo captured for a cliff-kind
action over the area (1, 0) .. (2, 1) holds the leftover romp flag of `ramp_removed`, a terrain
reached by create and one update of the cliff meshes without a subscript out of range, at the
corner (1, 0); after undo followed by redo, update_cliff_meshes has reset romp there, so the
corner differs from the captured post-edit value; add_undo, undo and redo with checked
subscripts meet no subscript out of range and end with the same slices and the same flag. -/
theorem redo_cliff_differs_from_edit :
    create_checked ramp_env ramp_grid = some (create ramp_env ramp_grid)
    ∧ update_cliff_meshes_checked ramp_env
        { create ramp_env ramp_grid with
          corners := set_corner (create ramp_env ramp_grid).corners 1 2
            { (create ramp_env ramp_grid).corners 1 2 with ramp := false } }
        (QRect.make 1 2 1 1) = some ramp_removed
    ∧ (add_undo_checked ramp_edited ramp_edit_area undo_type.cliff).map
        (fun a => (a.old_corners, a.new_corners))
      = some ((add_undo ramp_edited ramp_edit_area undo_type.cliff).old_corners,
          (add_undo ramp_edited ramp_edit_area undo_type.cliff).new_corners)
    ∧ (ramp_edited.corners 1 0).romp = true
    ∧ (((add_undo ramp_edited ramp_edit_area undo_type.cliff).redo ramp_env
        ((add_undo ramp_edited ramp_edit_area undo_type.cliff).undo ramp_env
          ramp_edited)).corners 1 0).romp = false
    ∧ ((add_undo ramp_edited ramp_edit_area undo_type.cliff).redo ramp_env
        ((add_undo ramp_edited ramp_edit_area undo_type.cliff).undo ramp_env
          ramp_edited)).corners 1 0 ≠ ramp_edited.corners 1 0
    ∧ (((add_undo ramp_edited ramp_edit_area undo_type.cliff).undo_checked ramp_env
        ramp_edited).bind
          (fun r => (add_undo ramp_edited ramp_edit_area undo_type.cliff).redo_checked ramp_env
            r)).map (fun r => (r.corners 1 0).romp) = some false :=
  ⟨create_checked_eq ramp_env ramp_grid (by decide) (by decide) (by decide!) (by decide!),
    update_cliff_meshes_checked_eq ramp_env _ _ (by decide!) (by decide!) (by decide)
      (by decide),
    by decide!, by decide!, by decide!, by decide!, by decide!⟩

/-- C11 as stated fails: on the 2 x 2 grid whose bottom-left corner has layer_height 0 and whose
other corners have layer_height 1, and which names two tiles and one cliff texture, create runs
without a subscript out of range and sets the cliff flag, but the letters synthesized for the
quad are "BBBA", not "BAAA", and the single placement emitted is the mesh 1 registered for
"BBBA0", not the mesh 0 registered for "BAAA0". -/
theorem lower_bottom_left_not_BAAA :
    create_checked env_bbba lower_bottom_left2 = some (create env_bbba lower_bottom_left2)
    ∧ ((create env_bbba lower_bottom_left2).corners 0 0).cliff = true
    ∧ cliff_letters (create env_bbba lower_bottom_left2) 0 0 = cstr "BBBA"
    ∧ cliff_letters (create env_bbba lower_bottom_left2) 0 0 ≠ cstr "BAAA"
    ∧ (create env_bbba lower_bottom_left2).path_to_cliff
        = [(cstr "BAAA0", 0), (cstr "BBBA0", 1)]
    ∧ (create env_bbba lower_bottom_left2).cliffs = [(0, 0, 1)] :=
  ⟨create_checked_eq env_bbba lower_bottom_left2 (by decide) (by decide) (by decide!)
    (by decide!), by decide!, by decide!, by decide!, by decide!, by decide!⟩

/-- C17: on the 5 x 5 example grid, which names two tiles and one cliff texture, with an asset
store whose Cliffs.slk has only the row AABA, the key "AAAB0" computed for the cliff quad
(0, 0) is not registered in path_to_cliff when create calls update_cliff_meshes, and yet the
plain-cliff branch emits the placement (0, 0, 0) for that quad, the value-initialised 0 that
operator[] inserts, which is the index of the mesh of "AABA0"; create runs without a subscript
out of range and ends with that placement. -/
theorem unregistered_cliff_is_placed :
    (create_tables env_aaba grid5).path_to_cliff = [(cstr "AABA0", 0)]
    ∧ cliff_key (create_tables env_aaba grid5) 0 0 = cstr "AAAB0"
    ∧ StrMap.contains (create_tables env_aaba grid5).path_to_cliff
        (cliff_key (create_tables env_aaba grid5) 0 0) = false
    ∧ (create_tables env_aaba grid5).cliffs = []
    ∧ (plain_cliff (create_tables env_aaba grid5) 0 0).cliffs = [(0, 0, 0)]
    ∧ create_checked env_aaba grid5 = some (create env_aaba grid5)
    ∧ (create env_aaba grid5).cliffs = [(0, 0, 0)] :=
  ⟨by decide!, by decide!, by decide!, by decide!, by decide!,
    create_checked_eq env_aaba grid5 (by decide) (by decide) (by decide!) (by decide!),
    by decide!⟩

/-- C26: on the 4 x 4 grid exists_grid, which names two tiles and one cliff texture, after
create, which runs without a subscript out of range, the corner (0, 1) is a cliff, is not
ramp-active and is no ramp entrance, so its existence value is false; update_ground_exists,
again without a subscript out of range, writes that value at index 1 * (width - 1) + 0 = 3,
and the entry at the row-major index 1 * width + 0 = 4 holds true, the value written for the
corner (1, 1). -/
theorem ground_exists_stride_mismatch :
    create_checked env0 exists_grid = some (create env0 exists_grid)
    ∧ ((create env0 exists_grid).corners 0 1).cliff = true
    ∧ ((create env0 exists_grid).corners 0 1).romp = false
    ∧ is_corner_ramp_entrance (create env0 exists_grid) 0 1 = false
    ∧ ((QRect.make 0 0 4 4).adjusted (-1) (-1) 1 1).intersected
        (QRect.make 0 0 (4 - 1) (4 - 1)) = ⟨0, 0, 2, 2⟩
    ∧ update_ground_exists_checked (create env0 exists_grid) (QRect.make 0 0 4 4)
      = some (update_ground_exists (create env0 exists_grid) (QRect.make 0 0 4 4))
    ∧ (update_ground_exists (create env0 exists_grid) (QRect.make 0 0 4 4)).ground_exists_data
        (1 * 4 + 0) = true
    ∧ (update_ground_exists (create env0 exists_grid) (QRect.make 0 0 4 4)).ground_exists_data
        (1 * (4 - 1) + 0) = false
    ∧ ((create env0 exists_grid).corners 1 1).cliff = false
    ∧ (create env0 exists_grid).ground_exists_data (1 * 4 + 0) = true :=
  ⟨create_checked_eq env0 exists_grid (by decide) (by decide) (by decide!) (by decide!),
    by decide!, by decide!, by decide!, by decide!,
    update_ground_exists_checked_eq _ _ (by decide!) (by decide!),
    by decide!, by decide!, by decide!, by decide!⟩

/-- C29: create of the 5 x 5 grid far_cliff5, which names two tiles and one cliff texture, runs
without a subscript out of range and makes the single placement (3, 3, 0), a quad of the grid.
After resize to 2 x 2, which meets no subscript out of range either, the placement list still
holds (3, 3, 0), which is no quad of the 2 x 2 grid: update_cliff_meshes, called by resize over
the new grid, erases only the placements inside the new grid. -/
theorem resize_keeps_outside_placement :
    create_checked env_abaa far_cliff5 = some (create env_abaa far_cliff5)
    ∧ (create env_abaa far_cliff5).cliffs = [(3, 3, 0)]
    ∧ cliffs_in_grid (create env_abaa far_cliff5)
    ∧ (resize env_abaa (create env_abaa far_cliff5) 2 2).width = 2
    ∧ (resize env_abaa (create env_abaa far_cliff5) 2 2).height = 2
    ∧ (resize env_abaa (create env_abaa far_cliff5) 2 2).cliffs = [(3, 3, 0)]
    ∧ ¬ cliffs_in_grid (resize env_abaa (create env_abaa far_cliff5) 2 2)
    ∧ (resize_checked env_abaa (create env_abaa far_cliff5) 2 2).map
        (fun r => (r.width, r.height, r.cliffs)) = some (2, 2, [(3, 3, 0)]) :=
  ⟨create_checked_eq env_abaa far_cliff5 (by decide) (by decide) (by decide!) (by decide!),
    by decide!, by decide!, by decide!, by decide!, by decide!, by decide!, by decide!⟩

/-! ## A checked run returns what the total function returns

Every function with checked subscripts, whenever it returns, returns the value of the function
with total subscripts; no hypothesis on the grid is needed. -/

theorem returns_only_some {α : Type} (a : α) : returns_only (some a) a :=
  fun _ h => (Option.some.inj h).symm

theorem returns_only_none {α : Type} (a : α) : returns_only (none : Option α) a :=
  fun _ h => Option.noConfusion h

theorem returns_only_bind {α β : Type} (x : Option α) (f : α → Option β) (a : α) (b : β)
    (hx : returns_only x a) (hf : returns_only (f a) b) : returns_only (x.bind f) b := by
  intro r h
  cases hxv : x with
  | none => rw [hxv] at h; exact Option.noConfusion h
  | some v =>
    rw [hxv] at h
    have := hx v hxv
    subst this
    exact hf r h

theorem returns_only_foldlM {σ α : Type} (f : σ → α → σ) (fc : σ → α → Option σ)
    (h : ∀ s a, returns_only (fc s a) (f s a)) (l : List α) (s : σ) :
    returns_only (l.foldlM fc s) (l.foldl f s) := by
  induction l generalizing s with
  | nil => exact returns_only_some s
  | cons a l ih =>
    rw [List.foldlM_cons, List.foldl_cons]
    exact returns_only_bind _ _ _ _ (h s a) (ih _)

theorem corner_at_returns (t : Terrain) (i j : Int) :
    returns_only (corner_at t i j) (t.corners i j) := by
  unfold corner_at
  split_ifs
  · exact returns_only_some _
  · exact returns_only_none _

theorem set_corner_checked_returns (t : Terrain) (i j : Int) (c : Corner) :
    returns_only (set_corner_checked t i j c) (set_corner t.corners i j c) := by
  unfold set_corner_checked
  split_ifs
  · exact returns_only_some _
  · exact returns_only_none _

theorem set_at_checked_returns {α : Type} (v : Int → α) (size k : Int) (a : α) :
    returns_only (set_at_checked v size k a) (set_at v k a) := by
  unfold set_at_checked
  split_ifs
  · exact returns_only_some _
  · exact returns_only_none _

theorem vector_at_returns {α : Type} (v : List α) (k : Int) (d : α) :
    returns_only (vector_at v k) (v.getD k.toNat d) := by
  unfold vector_at
  split_ifs
  · intro r h
    rw [List.getD_eq_getElem?_getD, h]
    rfl
  · exact returns_only_none _

theorem is_corner_ramp_entrance_checked_returns (t : Terrain) (x y : Int) :
    returns_only (is_corner_ramp_entrance_checked t x y) (is_corner_ramp_entrance t x y) := by
  unfold is_corner_ramp_entrance_checked is_corner_ramp_entrance
  split_ifs
  · exact returns_only_some _
  · apply returns_only_bind _ _ _ _ (corner_at_returns t x y)
    apply returns_only_bind _ _ _ _ (corner_at_returns t (x + 1) y)
    apply returns_only_bind _ _ _ _ (corner_at_returns t x (y + 1))
    apply returns_only_bind _ _ _ _ (corner_at_returns t (x + 1) (y + 1))
    exact returns_only_some _

theorem returns_only_of_eq {α : Type} (a b : α) (h : a = b) : returns_only (some a) b :=
  h ▸ returns_only_some a

theorem returns_only_bind_const {α β : Type} (x : Option α) (y : Option β) (b : β)
    (hy : returns_only y b) : returns_only (x.bind (fun _ => y)) b := by
  intro r h
  cases hxv : x with
  | none => rw [hxv] at h; exact Option.noConfusion h
  | some v =>
    rw [hxv] at h
    exact hy r h

theorem real_tile_texture_step_checked_returns (t : Terrain) (x y i j : Int) :
    returns_only (real_tile_texture_step_checked t x y i j)
      (real_tile_texture_step t x y i j) := by
  unfold real_tile_texture_step_checked real_tile_texture_step
  by_cases hb : x + i ≥ 0 ∧ x + i < t.width ∧ y + j ≥ 0 ∧ y + j < t.height
  · rw [if_pos hb, if_pos hb]
    apply returns_only_bind _ _ _ _ (corner_at_returns t (x + i) (y + j))
    simp only []
    have hret : returns_only
        (if ((t.corners (x + i) (y + j)).romp || (t.corners (x + i) (y + j)).cliff) = true
          then
            (vector_at t.cliff_to_ground_texture
              (if (t.corners (x + i) (y + j)).cliff_texture = 15 then
                (t.corners (x + i) (y + j)).cliff_texture - 14
              else (t.corners (x + i) (y + j)).cliff_texture)).bind fun v => some (Scan.ret v)
          else some Scan.next)
        (if ((t.corners (x + i) (y + j)).romp || (t.corners (x + i) (y + j)).cliff) = true
          then Scan.ret (t.cliff_to_ground_texture.getD
              (if (t.corners (x + i) (y + j)).cliff_texture = 15 then
                (t.corners (x + i) (y + j)).cliff_texture - 14
              else (t.corners (x + i) (y + j)).cliff_texture).toNat 0)
          else Scan.next) := by
      by_cases hro : ((t.corners (x + i) (y + j)).romp || (t.corners (x + i) (y + j)).cliff) = true
      · rw [if_pos hro, if_pos hro]
        apply returns_only_bind _ _ _ _ (vector_at_returns _ _ 0)
        exact returns_only_some _
      · rw [if_neg hro, if_neg hro]
        exact returns_only_some _
    by_cases hq : (t.corners (x + i) (y + j)).cliff = true
        ∧ (x + i < t.width - 1 ∧ y + j < t.height - 1)
    · rw [if_pos hq]
      apply returns_only_bind _ _ _ _ (corner_at_returns t (x + i) (y + j))
      apply returns_only_bind _ _ _ _ (corner_at_returns t (x + i + 1) (y + j))
      apply returns_only_bind _ _ _ _ (corner_at_returns t (x + i) (y + j + 1))
      apply returns_only_bind _ _ _ _ (corner_at_returns t (x + i + 1) (y + j + 1))
      apply returns_only_bind _ _ _ _ (returns_only_some _)
      by_cases hf : ((t.corners (x + i) (y + j)).ramp && (t.corners (x + i) (y + j + 1)).ramp
          && (t.corners (x + i + 1) (y + j)).ramp && (t.corners (x + i + 1) (y + j + 1)).ramp
          && !(t.corners (x + i) (y + j)).romp && !(t.corners (x + i + 1) (y + j)).romp
          && !(t.corners (x + i) (y + j + 1)).romp
          && !(t.corners (x + i + 1) (y + j + 1)).romp) = true
      · rw [if_pos hf, if_pos ⟨hq.1, hq.2, hf⟩]
        exact returns_only_some _
      · rw [if_neg hf]
        have e : ∀ (a b : Scan), (if (t.corners (x + i) (y + j)).cliff = true
            ∧ (x + i < t.width - 1 ∧ y + j < t.height - 1)
            ∧ ((t.corners (x + i) (y + j)).ramp && (t.corners (x + i) (y + j + 1)).ramp
              && (t.corners (x + i + 1) (y + j)).ramp
              && (t.corners (x + i + 1) (y + j + 1)).ramp
              && !(t.corners (x + i) (y + j)).romp && !(t.corners (x + i + 1) (y + j)).romp
              && !(t.corners (x + i) (y + j + 1)).romp
              && !(t.corners (x + i + 1) (y + j + 1)).romp) = true then a else b) = b :=
          fun a b => if_neg (fun h => hf h.2.2)
        rw [e]
        exact hret
    · rw [if_neg hq]
      apply returns_only_bind _ _ _ _ (returns_only_some _)
      simp only [Bool.false_eq_true, if_false]
      have e : ∀ (a b : Scan), (if (t.corners (x + i) (y + j)).cliff = true
          ∧ (x + i < t.width - 1 ∧ y + j < t.height - 1)
          ∧ ((t.corners (x + i) (y + j)).ramp && (t.corners (x + i) (y + j + 1)).ramp
            && (t.corners (x + i + 1) (y + j)).ramp
            && (t.corners (x + i + 1) (y + j + 1)).ramp
            && !(t.corners (x + i) (y + j)).romp && !(t.corners (x + i + 1) (y + j)).romp
            && !(t.corners (x + i) (y + j + 1)).romp
            && !(t.corners (x + i + 1) (y + j + 1)).romp) = true then a else b) = b :=
        fun a b => if_neg (fun h => hq ⟨h.1, h.2.1⟩)
      rw [e]
      exact hret
  · rw [if_neg hb, if_neg hb]
    exact returns_only_some _

theorem real_tile_texture_scan_checked_returns (t : Terrain) (x y : Int)
    (ps : List (Int × Int)) :
    returns_only (real_tile_texture_scan_checked t x y ps) (real_tile_texture_scan t x y ps) := by
  induction ps with
  | nil => exact returns_only_some _
  | cons p ps ih =>
    unfold real_tile_texture_scan_checked real_tile_texture_scan
    cases h : real_tile_texture_step_checked t x y p.1 p.2 with
    | none => exact returns_only_none _
    | some v =>
      have := real_tile_texture_step_checked_returns t x y p.1 p.2 v h
      rw [← this]
      cases v with
      | next => exact ih
      | out => exact returns_only_some _
      | ret w => exact returns_only_some _

theorem real_tile_texture_checked_returns (t : Terrain) (x y : Int) :
    returns_only (real_tile_texture_checked t x y) (real_tile_texture t x y) := by
  unfold real_tile_texture_checked real_tile_texture
  cases h : real_tile_texture_scan_checked t x y (rect_xy (-1) 1 (-1) 1) with
  | none => exact returns_only_none _
  | some v =>
    have := real_tile_texture_scan_checked_returns t x y _ v h
    rw [← this]
    cases v with
    | some w => exact returns_only_some _
    | none =>
      simp only []
      apply returns_only_bind _ _ _ _ (corner_at_returns t x y)
      exact returns_only_some _

theorem get_tile_variation_checked_returns (t : Terrain) (ground_texture variation : Int) :
    returns_only (get_tile_variation_checked t ground_texture variation)
      (get_tile_variation t ground_texture variation) := by
  unfold get_tile_variation_checked get_tile_variation
  apply returns_only_bind _ _ _ _ (vector_at_returns _ _ false)
  exact returns_only_some _

theorem get_texture_variations_checked_returns (t : Terrain) (x y : Int) :
    returns_only (get_texture_variations_checked t x y) (get_texture_variations t x y) := by
  unfold get_texture_variations_checked get_texture_variations
  apply returns_only_bind _ _ _ _ (real_tile_texture_checked_returns t x y)
  apply returns_only_bind _ _ _ _ (real_tile_texture_checked_returns t (x + 1) y)
  apply returns_only_bind _ _ _ _ (real_tile_texture_checked_returns t x (y + 1))
  apply returns_only_bind _ _ _ _ (real_tile_texture_checked_returns t (x + 1) (y + 1))
  simp only []
  cases std_set [real_tile_texture t x y, real_tile_texture t (x + 1) y,
    real_tile_texture t x (y + 1), real_tile_texture t (x + 1) (y + 1)] with
  | nil => exact returns_only_some _
  | cons first rest =>
    simp only []
    apply returns_only_bind _ _ _ _ (corner_at_returns t x y)
    apply returns_only_bind _ _ _ _ (get_tile_variation_checked_returns t first _)
    exact returns_only_some _

theorem ramp_height_checked_returns (t : Terrain) (i j : Int) (ps : List (Int × Int)) :
    returns_only (ramp_height_checked t i j ps) (ramp_height t i j ps) := by
  induction ps with
  | nil => exact returns_only_some _
  | cons p ps ih =>
    unfold ramp_height_checked ramp_height
    simp only []
    by_cases hb : i + p.1 ≥ 0 ∧ i + p.1 < t.width - 1 ∧ j + p.2 ≥ 0 ∧ j + p.2 < t.height - 1
    · rw [if_pos hb, if_pos hb]
      apply returns_only_bind _ _ _ _ (corner_at_returns t (i + p.1) (j + p.2))
      apply returns_only_bind _ _ _ _ (corner_at_returns t (i + 1 + p.1) (j + p.2))
      apply returns_only_bind _ _ _ _ (corner_at_returns t (i + p.1) (j + 1 + p.2))
      apply returns_only_bind _ _ _ _ (corner_at_returns t (i + 1 + p.1) (j + 1 + p.2))
      apply returns_only_bind _ _ _ _ (corner_at_returns t i j)
      split_ifs with h1 h2
      · exact ih
      · apply returns_only_bind _ _ _ _
          (is_corner_ramp_entrance_checked_returns t (i + p.1) (j + p.2))
        rw [if_pos h2]
        exact returns_only_some _
      · apply returns_only_bind _ _ _ _
          (is_corner_ramp_entrance_checked_returns t (i + p.1) (j + p.2))
        rw [if_neg h2]
        exact ih
    · rw [if_neg hb, if_neg hb]
      exact ih

theorem update_ground_heights_checked_returns (t : Terrain) (area : QRect) :
    returns_only (update_ground_heights_checked t area) (update_ground_heights t area) := by
  unfold update_ground_heights_checked update_ground_heights
  apply returns_only_foldlM
  intro s p
  simp only []
  apply returns_only_bind _ _ _ _ (corner_at_returns s p.1 p.2)
  apply returns_only_bind _ _ _ _ (set_at_checked_returns _ _ _ _)
  apply returns_only_bind _ _ _ _ (ramp_height_checked_returns s p.1 p.2 _)
  apply returns_only_bind _ _ _ _ (set_at_checked_returns _ _ _ _)
  exact returns_only_some _

theorem update_ground_textures_checked_returns (t : Terrain) (area : QRect) :
    returns_only (update_ground_textures_checked t area) (update_ground_textures t area) := by
  unfold update_ground_textures_checked update_ground_textures
  apply returns_only_foldlM
  intro s p
  simp only []
  apply returns_only_bind _ _ _ _ (get_texture_variations_checked_returns s p.1 p.2)
  apply returns_only_bind _ _ _ _ (set_at_checked_returns _ _ _ _)
  exact returns_only_some _

theorem update_ground_exists_checked_returns (t : Terrain) (area : QRect) :
    returns_only (update_ground_exists_checked t area) (update_ground_exists t area) := by
  unfold update_ground_exists_checked update_ground_exists
  apply returns_only_foldlM
  intro s p
  simp only []
  apply returns_only_bind _ _ _ _ (corner_at_returns s p.1 p.2)
  by_cases hc : ((s.corners p.1 p.2).cliff || (s.corners p.1 p.2).romp) = true
  · simp only [if_pos hc]
    apply returns_only_bind _ _ _ _ (is_corner_ramp_entrance_checked_returns s p.1 p.2)
    apply returns_only_bind _ _ _ _ (set_at_checked_returns _ _ _ _)
    exact returns_only_some _
  · simp only [if_neg hc]
    apply returns_only_bind _ _ false _ (returns_only_some _)
    apply returns_only_bind _ _ _ _ (set_at_checked_returns _ _ _ _)
    rw [Bool.not_eq_true] at hc
    apply returns_only_of_eq
    simp only [hc, Bool.false_and, Bool.not_false, Bool.and_true, Bool.false_or]

theorem update_water_checked_returns (t : Terrain) (area : QRect) :
    returns_only (update_water_checked t area) (update_water t area) := by
  unfold update_water_checked update_water
  apply returns_only_foldlM
  intro s p
  simp only []
  apply returns_only_bind _ _ _ _ (corner_at_returns s p.1 p.2)
  apply returns_only_bind _ _ _ _ (set_at_checked_returns _ _ _ _)
  apply returns_only_bind _ _ _ _ (set_at_checked_returns _ _ _ _)
  exact returns_only_some _

theorem vertical_ramp_checked_returns (env : Assets) (t : Terrain) (i j : Int) :
    returns_only (vertical_ramp_checked env t i j) (vertical_ramp env t i j) := by
  unfold vertical_ramp_checked vertical_ramp
  apply returns_only_bind _ _ _ _ (corner_at_returns t i j)
  apply returns_only_bind _ _ _ _ (corner_at_returns t (i + 1) j)
  apply returns_only_bind _ _ _ _ (corner_at_returns t i (j + 1))
  apply returns_only_bind _ _ _ _ (corner_at_returns t (i + 1) (j + 1))
  by_cases hj : j < t.height - 2
  · simp only [if_pos hj]
    apply returns_only_bind _ _ _ _ (corner_at_returns t i (j + 2))
    apply returns_only_bind _ _ _ _ (corner_at_returns t (i + 1) (j + 2))
    split_ifs <;> exact returns_only_some _
  · simp only [if_neg hj]
    exact returns_only_some _

theorem horizontal_ramp_checked_returns (env : Assets) (t : Terrain) (i j : Int) :
    returns_only (horizontal_ramp_checked env t i j) (horizontal_ramp env t i j) := by
  unfold horizontal_ramp_checked horizontal_ramp
  apply returns_only_bind _ _ _ _ (corner_at_returns t i j)
  apply returns_only_bind _ _ _ _ (corner_at_returns t (i + 1) j)
  apply returns_only_bind _ _ _ _ (corner_at_returns t i (j + 1))
  apply returns_only_bind _ _ _ _ (corner_at_returns t (i + 1) (j + 1))
  by_cases hi : i < t.width - 2
  · simp only [if_pos hi]
    apply returns_only_bind _ _ _ _ (corner_at_returns t (i + 2) j)
    apply returns_only_bind _ _ _ _ (corner_at_returns t (i + 2) (j + 1))
    split_ifs <;> exact returns_only_some _
  · simp only [if_neg hi]
    exact returns_only_some _

theorem plain_cliff_checked_returns (t : Terrain) (i j : Int) :
    returns_only (plain_cliff_checked t i j) (plain_cliff t i j) := by
  unfold plain_cliff_checked plain_cliff cliff_letters
  apply returns_only_bind _ _ _ _ (corner_at_returns t i j)
  apply returns_only_bind _ _ _ _ (corner_at_returns t (i + 1) j)
  apply returns_only_bind _ _ _ _ (corner_at_returns t i (j + 1))
  apply returns_only_bind _ _ _ _ (corner_at_returns t (i + 1) (j + 1))
  simp only []
  by_cases h1 : (!(t.corners i j).cliff || (t.corners i j).romp) = true
  · rw [if_pos h1, if_pos h1]
    exact returns_only_some _
  · rw [if_neg h1, if_neg h1]
    apply returns_only_bind _ _ _ _ (is_corner_ramp_entrance_checked_returns t i j)
    split_ifs <;> exact returns_only_some _

theorem cliff_quad_checked_returns (env : Assets) (t : Terrain) (i j : Int) :
    returns_only (cliff_quad_checked env t i j) (cliff_quad env t i j) := by
  unfold cliff_quad_checked cliff_quad
  cases hv : vertical_ramp_checked env t i j with
  | none => exact returns_only_none _
  | some v =>
    rw [← vertical_ramp_checked_returns env t i j v hv]
    cases v with
    | some t1 => exact returns_only_some _
    | none =>
      simp only []
      cases hh : horizontal_ramp_checked env t i j with
      | none => exact returns_only_none _
      | some w =>
        rw [← horizontal_ramp_checked_returns env t i j w hh]
        cases w with
        | some t1 => exact returns_only_some _
        | none => exact plain_cliff_checked_returns t i j

theorem clear_romp_checked_returns (t : Terrain) (area : QRect) :
    returns_only (clear_romp_checked t area) (clear_romp t area) := by
  unfold clear_romp_checked clear_romp
  apply returns_only_foldlM
  intro s p
  apply returns_only_bind _ _ _ _ (corner_at_returns s p.1 p.2)
  apply returns_only_bind _ _ _ _ (set_corner_checked_returns _ _ _ _)
  exact returns_only_some _

theorem add_cliff_meshes_checked_returns (env : Assets) (t : Terrain) (ramp_area : QRect) :
    returns_only (add_cliff_meshes_checked env t ramp_area)
      (add_cliff_meshes env t ramp_area) := by
  unfold add_cliff_meshes_checked add_cliff_meshes
  apply returns_only_foldlM
  intro s p
  exact cliff_quad_checked_returns env s p.1 p.2

theorem update_cliff_meshes_checked_returns (env : Assets) (t : Terrain) (area : QRect) :
    returns_only (update_cliff_meshes_checked env t area) (update_cliff_meshes env t area) := by
  unfold update_cliff_meshes_checked update_cliff_meshes
  apply returns_only_bind _ _ _ _ (clear_romp_checked_returns _ _)
  apply returns_only_bind _ _ _ _ (add_cliff_meshes_checked_returns _ _ _)
  exact update_ground_exists_checked_returns _ _

theorem determine_cliffs_checked_returns (t : Terrain) :
    returns_only (determine_cliffs_checked t) (determine_cliffs t) := by
  unfold determine_cliffs_checked determine_cliffs
  apply returns_only_foldlM
  intro s p
  apply returns_only_bind _ _ _ _ (corner_at_returns s p.1 p.2)
  apply returns_only_bind _ _ _ _ (corner_at_returns s (p.1 + 1) p.2)
  apply returns_only_bind _ _ _ _ (corner_at_returns s p.1 (p.2 + 1))
  apply returns_only_bind _ _ _ _ (corner_at_returns s (p.1 + 1) (p.2 + 1))
  apply returns_only_bind _ _ _ _ (set_corner_checked_returns _ _ _ _)
  exact returns_only_some _

theorem fill_mirrors_checked_returns (t : Terrain) :
    returns_only (fill_mirrors_checked t) (fill_mirrors t) := by
  unfold fill_mirrors_checked fill_mirrors
  apply returns_only_foldlM
  intro s p
  apply returns_only_bind _ _ _ _ (corner_at_returns s p.1 p.2)
  apply returns_only_bind _ _ _ _ (set_at_checked_returns _ _ _ _)
  apply returns_only_bind _ _ _ _ (set_at_checked_returns _ _ _ _)
  apply returns_only_bind _ _ _ _ (set_at_checked_returns _ _ _ _)
  apply returns_only_bind _ _ _ _ (set_at_checked_returns _ _ _ _)
  exact returns_only_some _

theorem create_checked_returns (env : Assets) (t : Terrain) :
    returns_only (create_checked env t) (create env t) := by
  unfold create_checked create
  apply returns_only_bind _ _ _ _ (determine_cliffs_checked_returns _)
  apply returns_only_bind _ _ _ _ (fill_mirrors_checked_returns _)
  apply returns_only_bind _ _ _ _ (update_cliff_meshes_checked_returns _ _ _)
  apply returns_only_bind _ _ _ _ (update_ground_textures_checked_returns _ _)
  apply returns_only_bind _ _ _ _ (update_ground_heights_checked_returns _ _)
  apply returns_only_bind_const
  exact returns_only_some _

theorem load_of_load_checked (env : Assets) (t : Terrain) (buffer : List Nat)
    (p : Bool × Terrain) (h : load_checked env t buffer = some p) :
    load env t buffer = some p := by
  unfold load_checked at h
  unfold load
  cases hr : read_string 4 buffer with
  | none => rw [hr] at h; exact Option.noConfusion h
  | some mr =>
    rw [hr] at h
    obtain ⟨magic_number, r⟩ := mr
    simp only [Option.bind_eq_bind, Option.some_bind] at h ⊢
    by_cases hm : magic_number ≠ cstr "W3E!"
    · rw [if_pos hm] at h ⊢
      exact h
    · rw [if_neg hm] at h ⊢
      cases hp : load_parse t r with
      | none => rw [hp] at h; exact Option.noConfusion h
      | some t1 =>
        rw [hp] at h
        simp only [Option.some_bind] at h ⊢
        by_cases hc : 0 < t.width ∧ 0 < t1.width ∧ t.height < t1.height
        · rw [if_pos hc] at h; exact Option.noConfusion h
        · rw [if_neg hc] at h
          cases hcr : create_checked env t1 with
          | none => rw [hcr] at h; exact Option.noConfusion h
          | some t2 =>
            rw [hcr] at h
            rw [← create_checked_returns env t1 t2 hcr]
            exact h

theorem resize_checked_returns (env : Assets) (t : Terrain) (new_width new_height : Nat) :
    returns_only (resize_checked env t new_width new_height)
      (resize env t new_width new_height) := by
  unfold resize_checked resize
  apply returns_only_bind _ _ _ _ (corner_at_returns t 0 0)
  apply returns_only_bind _ _ _ _ (fill_mirrors_checked_returns _)
  apply returns_only_bind _ _ _ _ (determine_cliffs_checked_returns _)
  apply returns_only_bind _ _ _ _ (update_cliff_meshes_checked_returns _ _ _)
  apply returns_only_bind _ _ _ _ (update_ground_textures_checked_returns _ _)
  exact update_ground_heights_checked_returns _ _

theorem returns_only_mapM {α β : Type} (f : α → β) (fc : α → Option β)
    (h : ∀ a, returns_only (fc a) (f a)) (l : List α) :
    returns_only (l.mapM fc) (l.map f) := by
  induction l with
  | nil => exact returns_only_some _
  | cons a l ih =>
    rw [List.mapM_cons, List.map_cons]
    apply returns_only_bind _ _ _ _ (h a)
    apply returns_only_bind _ _ _ _ ih
    exact returns_only_some _

theorem add_undo_checked_returns (t : Terrain) (area : QRect) (type : undo_type) :
    returns_only (add_undo_checked t area type) (add_undo t area type) := by
  unfold add_undo_checked add_undo
  apply returns_only_bind _ _ _ _
    (returns_only_mapM (fun p : Int × Int => t.old_corners p.1 p.2) _ _ _)
  · apply returns_only_bind _ _ _ _
      (returns_only_mapM (fun p : Int × Int => t.corners p.1 p.2) _
        (fun p => corner_at_returns t p.1 p.2) _)
    exact returns_only_some _
  · intro p
    cases hp : corner_at t p.1 p.2 with
    | none => exact returns_only_none _
    | some c => exact returns_only_some _

theorem restore_checked_returns (t : Terrain) (area : QRect) (slice : List Corner) :
    returns_only (restore_checked t area slice) (restore t area slice) := by
  unfold restore_checked restore
  apply returns_only_foldlM
  intro s p
  apply returns_only_bind _ _ _ _ (vector_at_returns _ _ Corner.zero)
  apply returns_only_bind _ _ _ _ (set_corner_checked_returns _ _ _ _)
  exact returns_only_some _

theorem recompute_checked_returns (env : Assets) (t : Terrain) (area : QRect)
    (type : undo_type) :
    returns_only (recompute_checked env t area type) (recompute env t area type) := by
  unfold recompute_checked recompute
  cases type
  · simp only [reduceCtorEq, if_true, if_false]
    apply returns_only_bind _ _ _ _ (update_ground_heights_checked_returns _ _)
    apply returns_only_bind _ _ _ _ (returns_only_some _)
    apply returns_only_bind _ _ _ _ (returns_only_some _)
    apply returns_only_bind_const
    exact returns_only_some _
  · simp only [reduceCtorEq, if_true, if_false]
    apply returns_only_bind _ _ _ _ (returns_only_some _)
    apply returns_only_bind _ _ _ _ (update_ground_textures_checked_returns _ _)
    apply returns_only_bind _ _ _ _ (returns_only_some _)
    apply returns_only_bind_const
    exact returns_only_some _
  · simp only [reduceCtorEq, if_true, if_false]
    apply returns_only_bind _ _ _ _ (returns_only_some _)
    apply returns_only_bind _ _ _ _ (returns_only_some _)
    apply returns_only_bind _ _ _ _ (update_ground_heights_checked_returns _ _)
    apply returns_only_bind _ _ _ _ (update_cliff_meshes_checked_returns _ _ _)
    apply returns_only_bind _ _ _ _ (update_ground_textures_checked_returns _ _)
    apply returns_only_bind _ _ _ _ (update_water_checked_returns _ _)
    apply returns_only_bind_const
    exact returns_only_some _

theorem undo_checked_returns (env : Assets) (a : TerrainGenericAction) (t : Terrain) :
    returns_only (a.undo_checked env t) (a.undo env t) := by
  unfold TerrainGenericAction.undo_checked TerrainGenericAction.undo
  apply returns_only_bind _ _ _ _ (restore_checked_returns _ _ _)
  exact recompute_checked_returns _ _ _ _

theorem redo_checked_returns (env : Assets) (a : TerrainGenericAction) (t : Terrain) :
    returns_only (a.redo_checked env t) (a.redo env t) := by
  unfold TerrainGenericAction.redo_checked TerrainGenericAction.redo
  apply returns_only_bind _ _ _ _ (restore_checked_returns _ _ _)
  exact recompute_checked_returns _ _ _ _

end HiveWE
